import Mathlib

/-!
# Scalar wave playground: shallow embedding and verification

Shallow embedding of the NRPy+ scalar-wave C code
(`ScalarWave_Ccodes/rhs_eval.h`, `MoLtimestepping/RK_MoL.h`, `free_parameters.h`,
`ScalarWave_Playground.c`) in exact arithmetic over a field `K`
(`REAL = double` is idealised to `K`, `int` to `Int`), followed by theorems about it.

Grid-function buffers are flat arrays `Fin n → K`; C pointer arithmetic is modelled by
`loadREAL` / `WriteSIMD` on `Int` offsets.
-/

namespace ScalarWave

/-! ## Constants and parameter struct -/

/-- Modelled from the spec: `ScalarWave_NGHOSTS.h` (which `#define`s `NGHOSTS`) is not among
the sources; the ghost width is fixed by the stencil radius, here 2 (spec §3, §6). -/
def NGHOSTS : Int := 2

/-- `#define NUM_EVOL_GFS 2` (ScalarWave_Playground.c:32). -/
def NUM_EVOL_GFS : Int := 2

/-- `#define UUGF 0` (ScalarWave_Playground.c:33). -/
def UUGF : Int := 0

/-- `#define VVGF 1` (ScalarWave_Playground.c:34). -/
def VVGF : Int := 1

/-- Modelled from the spec: `declare_Cparameters_struct.h` is not among the sources; the
struct carries exactly the fields the sources read or assign (`free_parameters.h`,
`rhs_eval.h`, `exact_solution_single_point.h`). -/
structure paramstruct (K : Type) where
  Nxx0 : Int
  Nxx1 : Int
  Nxx2 : Int
  Nxx_plus_2NGHOSTS0 : Int
  Nxx_plus_2NGHOSTS1 : Int
  Nxx_plus_2NGHOSTS2 : Int
  dxx0 : K
  dxx1 : K
  dxx2 : K
  invdx0 : K
  invdx1 : K
  invdx2 : K
  wavespeed : K
  kk0 : K
  kk1 : K
  kk2 : K
  time : K

/-- The macro `IDX4S(g,i,j,k)` (ScalarWave_Playground.c:27-28):
`(i) + Nxx_plus_2NGHOSTS0 * ((j) + Nxx_plus_2NGHOSTS1 * ((k) + Nxx_plus_2NGHOSTS2 * (g)))`,
in exact integer arithmetic. `IDX4S_int` below is the same expression in the `int`
arithmetic of the program; the two agree as long as the offset fits an `int`. -/
def IDX4S {K : Type} (p : paramstruct K) (g i j k : Int) : Int :=
  i + p.Nxx_plus_2NGHOSTS0 * (j + p.Nxx_plus_2NGHOSTS1 * (k + p.Nxx_plus_2NGHOSTS2 * g))

/-- `Nxx_plus_2NGHOSTS_tot` (ScalarWave_Playground.c:104). -/
def Nxx_plus_2NGHOSTS_tot {K : Type} (p : paramstruct K) : Int :=
  p.Nxx_plus_2NGHOSTS0 * p.Nxx_plus_2NGHOSTS1 * p.Nxx_plus_2NGHOSTS2

/-! ## The index macro in `int` arithmetic -/

/-- The largest value of the 32-bit C type `int`. -/
def INT_MAX : Int := 2147483647

/-- The value a 32-bit two's-complement `int` holds when the exact result of an arithmetic
operation on `int` operands is `x`: the representative of `x` modulo `2^32` in
`[-2^31, 2^31)`. (Signed overflow is undefined in C; the compiled code wraps.) -/
def int_wrap (x : Int) : Int := (x + 2147483648) % 4294967296 - 2147483648

/-- The macro `IDX4S(g,i,j,k)` (ScalarWave_Playground.c:27-28) as the program evaluates it:
every operand is an `int`, so each of the three products and three sums is taken in `int`
arithmetic. -/
def IDX4S_int {K : Type} (p : paramstruct K) (g i j k : Int) : Int :=
  int_wrap (i + int_wrap (p.Nxx_plus_2NGHOSTS0 *
    int_wrap (j + int_wrap (p.Nxx_plus_2NGHOSTS1 *
      int_wrap (k + int_wrap (p.Nxx_plus_2NGHOSTS2 * g))))))

/-- The declaration `const int Nxx_plus_2NGHOSTS_tot =
Nxx_plus_2NGHOSTS0*Nxx_plus_2NGHOSTS1*Nxx_plus_2NGHOSTS2` (ScalarWave_Playground.c:104) in
`int` arithmetic. -/
def Nxx_plus_2NGHOSTS_tot_int {K : Type} (p : paramstruct K) : Int :=
  int_wrap (int_wrap (p.Nxx_plus_2NGHOSTS0 * p.Nxx_plus_2NGHOSTS1) * p.Nxx_plus_2NGHOSTS2)

/-- The upper bound `Nxx_plus_2NGHOSTS_tot*NUM_EVOL_GFS` of the loop `LOOP_ALL_GFS_GPS`
(ScalarWave_Playground.c:29-30) in `int` arithmetic. -/
def LOOP_ALL_GFS_GPS_bound_int {K : Type} (p : paramstruct K) : Int :=
  int_wrap (Nxx_plus_2NGHOSTS_tot_int p * NUM_EVOL_GFS)

/-! ## Memory and loops -/

/-- The C expression `a[i]` on a buffer of `n` reals. An offset outside `[0,n)` is undefined
behaviour in C; the model returns `0` there (the theorems establish the accesses are in
range where it matters). -/
def loadREAL {K : Type} [Zero K] {n : Nat} (a : Fin n → K) (i : Int) : K :=
  if h : 0 ≤ i ∧ i < n then a ⟨i.toNat, by omega⟩ else 0

/-- The C statement `a[i] = v`. A store outside `[0,n)` leaves the buffer as it is. -/
def storeREAL {K : Type} {n : Nat} (a : Fin n → K) (i : Int) (v : K) : Fin n → K :=
  fun j => if (j.val : Int) = i then v else a j

/-- The C loop `for(int i=lo; i<hi; i+=step) body`, threading the state `s`.
For `step ≤ 0` the C loop would not terminate when `lo < hi`; the model stops at once. -/
def forLoop {σ : Type} (lo hi step : Int) (body : Int → σ → σ) (s : σ) : σ :=
  if _h : lo < hi ∧ 0 < step then forLoop (lo + step) hi step body (body lo s) else s
termination_by (hi - lo).toNat
decreasing_by omega

/-! ## SIMD intrinsics -/

/-- Modelled from the spec: `../SIMD/SIMD_intrinsics.h` is not among the sources. A
`REAL_SIMD_ARRAY` is a batch of `W = SIMD_width` lanes (spec §4.2: "fixed-width batches"). -/
abbrev REAL_SIMD_ARRAY (K : Type) (W : Nat) : Type := Fin W → K

/-- Modelled from the spec: `ConstSIMD(c)` broadcasts a scalar to all lanes. -/
def ConstSIMD {K : Type} {W : Nat} (c : K) : REAL_SIMD_ARRAY K W := fun _ => c

/-- Modelled from the spec: `ReadSIMD(&a[idx])` loads the `W` consecutive reals
`a[idx], ..., a[idx+W-1]`. -/
def ReadSIMD {K : Type} [Zero K] {n : Nat} (W : Nat) (a : Fin n → K) (idx : Int) :
    REAL_SIMD_ARRAY K W :=
  fun l => loadREAL a (idx + (l.val : Int))

/-- Modelled from the spec: `WriteSIMD(&a[idx], v)` stores the `W` lanes of `v` to
`a[idx], ..., a[idx+W-1]`. -/
def WriteSIMD {K : Type} {n : Nat} {W : Nat} (a : Fin n → K) (idx : Int)
    (v : REAL_SIMD_ARRAY K W) : Fin n → K :=
  fun j => if h : idx ≤ (j.val : Int) ∧ (j.val : Int) < idx + W
    then v ⟨((j.val : Int) - idx).toNat, by omega⟩ else a j

/-- Modelled from the spec: `MulSIMD(a,b)` is the lane-wise product. -/
def MulSIMD {K : Type} [Mul K] {W : Nat} (a b : REAL_SIMD_ARRAY K W) : REAL_SIMD_ARRAY K W :=
  fun l => a l * b l

/-- Modelled from the spec: `FusedMulAddSIMD(a,b,c)` is lane-wise `a*b + c`. -/
def FusedMulAddSIMD {K : Type} [Mul K] [Add K] {W : Nat} (a b c : REAL_SIMD_ARRAY K W) :
    REAL_SIMD_ARRAY K W :=
  fun l => a l * b l + c l

/-! ## `rhs_eval.h` -/

/-- The body of the innermost loop of `rhs_eval` (rhs_eval.h:12-62) at loop indices
`(i0,i1,i2)`: 14 SIMD reads from `in_gfs`, the stencils, two SIMD writes to `rhs_gfs`.
The `double` literals `1.333...`, `-0.08333...`, `-2.5` are the doubles nearest 4/3, -1/12
and -5/2 (the rationals their names carry); in exact arithmetic they are those rationals.
`invdx0..2` and `wavespeed` are broadcast from the struct, as `set_Cparameters-SIMD.h`
(not among the sources) does. -/
def rhs_eval_body {K : Type} [Field K] {n : Nat} (SIMD_width : Nat) (p : paramstruct K)
    (in_gfs : Fin n → K) (i0 i1 i2 : Int) (rhs_gfs : Fin n → K) : Fin n → K :=
  let invdx0 : REAL_SIMD_ARRAY K SIMD_width := ConstSIMD p.invdx0
  let invdx1 : REAL_SIMD_ARRAY K SIMD_width := ConstSIMD p.invdx1
  let invdx2 : REAL_SIMD_ARRAY K SIMD_width := ConstSIMD p.invdx2
  let wavespeed : REAL_SIMD_ARRAY K SIMD_width := ConstSIMD p.wavespeed
  let uu_i0_i1_i2m2 := ReadSIMD SIMD_width in_gfs (IDX4S p UUGF i0 i1 (i2-2))
  let uu_i0_i1_i2m1 := ReadSIMD SIMD_width in_gfs (IDX4S p UUGF i0 i1 (i2-1))
  let uu_i0_i1m2_i2 := ReadSIMD SIMD_width in_gfs (IDX4S p UUGF i0 (i1-2) i2)
  let uu_i0_i1m1_i2 := ReadSIMD SIMD_width in_gfs (IDX4S p UUGF i0 (i1-1) i2)
  let uu_i0m2_i1_i2 := ReadSIMD SIMD_width in_gfs (IDX4S p UUGF (i0-2) i1 i2)
  let uu_i0m1_i1_i2 := ReadSIMD SIMD_width in_gfs (IDX4S p UUGF (i0-1) i1 i2)
  let uu := ReadSIMD SIMD_width in_gfs (IDX4S p UUGF i0 i1 i2)
  let uu_i0p1_i1_i2 := ReadSIMD SIMD_width in_gfs (IDX4S p UUGF (i0+1) i1 i2)
  let uu_i0p2_i1_i2 := ReadSIMD SIMD_width in_gfs (IDX4S p UUGF (i0+2) i1 i2)
  let uu_i0_i1p1_i2 := ReadSIMD SIMD_width in_gfs (IDX4S p UUGF i0 (i1+1) i2)
  let uu_i0_i1p2_i2 := ReadSIMD SIMD_width in_gfs (IDX4S p UUGF i0 (i1+2) i2)
  let uu_i0_i1_i2p1 := ReadSIMD SIMD_width in_gfs (IDX4S p UUGF i0 i1 (i2+1))
  let uu_i0_i1_i2p2 := ReadSIMD SIMD_width in_gfs (IDX4S p UUGF i0 i1 (i2+2))
  let vv := ReadSIMD SIMD_width in_gfs (IDX4S p VVGF i0 i1 i2)
  let tmpFD_Rational_4_3_FDcoeff : K := 4 / 3
  let _Rational_4_3_FDcoeff : REAL_SIMD_ARRAY K SIMD_width := ConstSIMD tmpFD_Rational_4_3_FDcoeff
  let tmpFD_Rational_m1_12_FDcoeff : K := -(1 / 12)
  let _Rational_m1_12_FDcoeff : REAL_SIMD_ARRAY K SIMD_width :=
    ConstSIMD tmpFD_Rational_m1_12_FDcoeff
  let tmpFD_Rational_m5_2_FDcoeff : K := -(5 / 2)
  let _Rational_m5_2_FDcoeff : REAL_SIMD_ARRAY K SIMD_width := ConstSIMD tmpFD_Rational_m5_2_FDcoeff
  let tmpFD0 := MulSIMD uu _Rational_m5_2_FDcoeff
  let uu_dDD00 := MulSIMD (FusedMulAddSIMD uu_i0p1_i1_i2 _Rational_4_3_FDcoeff
    (FusedMulAddSIMD uu_i0m2_i1_i2 _Rational_m1_12_FDcoeff
      (FusedMulAddSIMD uu_i0m1_i1_i2 _Rational_4_3_FDcoeff
        (FusedMulAddSIMD uu_i0p2_i1_i2 _Rational_m1_12_FDcoeff tmpFD0)))) (MulSIMD invdx0 invdx0)
  let uu_dDD11 := MulSIMD (FusedMulAddSIMD uu_i0_i1p1_i2 _Rational_4_3_FDcoeff
    (FusedMulAddSIMD uu_i0_i1m2_i2 _Rational_m1_12_FDcoeff
      (FusedMulAddSIMD uu_i0_i1m1_i2 _Rational_4_3_FDcoeff
        (FusedMulAddSIMD uu_i0_i1p2_i2 _Rational_m1_12_FDcoeff tmpFD0)))) (MulSIMD invdx1 invdx1)
  let uu_dDD22 := MulSIMD (FusedMulAddSIMD uu_i0_i1_i2p1 _Rational_4_3_FDcoeff
    (FusedMulAddSIMD uu_i0_i1_i2m2 _Rational_m1_12_FDcoeff
      (FusedMulAddSIMD uu_i0_i1_i2m1 _Rational_4_3_FDcoeff
        (FusedMulAddSIMD uu_i0_i1_i2p2 _Rational_m1_12_FDcoeff tmpFD0)))) (MulSIMD invdx2 invdx2)
  let tmp0 := MulSIMD wavespeed wavespeed
  let __RHS_exp_0 := vv
  let __RHS_exp_1 := FusedMulAddSIMD tmp0 uu_dDD11
    (FusedMulAddSIMD tmp0 uu_dDD22 (MulSIMD tmp0 uu_dDD00))
  let rhs_gfs := WriteSIMD rhs_gfs (IDX4S p UUGF i0 i1 i2) __RHS_exp_0
  WriteSIMD rhs_gfs (IDX4S p VVGF i0 i1 i2) __RHS_exp_1

/-- The function `rhs_eval` (rhs_eval.h:4-68): three nested loops over the interior,
the innermost advancing by `SIMD_width`. The output buffer `rhs_gfs` is passed in and
returned, as the C function mutates it in place. -/
def rhs_eval {K : Type} [Field K] {n : Nat} (SIMD_width : Nat) (p : paramstruct K)
    (in_gfs : Fin n → K) (rhs_gfs : Fin n → K) : Fin n → K :=
  forLoop NGHOSTS (NGHOSTS + p.Nxx2) 1 (fun i2 rhs_gfs =>
    forLoop NGHOSTS (NGHOSTS + p.Nxx1) 1 (fun i1 rhs_gfs =>
      forLoop NGHOSTS (NGHOSTS + p.Nxx0) SIMD_width (fun i0 rhs_gfs =>
        rhs_eval_body SIMD_width p in_gfs i0 i1 i2 rhs_gfs) rhs_gfs) rhs_gfs) rhs_gfs

/-- The `(g,i,j,k)` arguments of every `IDX4S` in the loop body of `rhs_eval` at loop
indices `(i0,i1,i2)`: the 14 reads of rhs_eval.h:22-35 and the 2 writes of rhs_eval.h:60-61,
in source order. With `SIMD_width = 1` each access touches exactly that offset. -/
def rhs_eval_body_accesses (i0 i1 i2 : Int) : List (Int × Int × Int × Int) :=
  [ (UUGF, i0, i1, i2-2), (UUGF, i0, i1, i2-1), (UUGF, i0, i1-2, i2), (UUGF, i0, i1-1, i2),
    (UUGF, i0-2, i1, i2), (UUGF, i0-1, i1, i2), (UUGF, i0, i1, i2), (UUGF, i0+1, i1, i2),
    (UUGF, i0+2, i1, i2), (UUGF, i0, i1+1, i2), (UUGF, i0, i1+2, i2), (UUGF, i0, i1, i2+1),
    (UUGF, i0, i1, i2+2), (VVGF, i0, i1, i2),
    (UUGF, i0, i1, i2), (VVGF, i0, i1, i2) ]

/-- Every `IDX4S` argument tuple `rhs_eval` uses during one call with `SIMD_width = 1`:
the loop nest of rhs_eval.h:8-10 collecting `rhs_eval_body_accesses`. -/
def rhs_eval_accesses {K : Type} (p : paramstruct K) : List (Int × Int × Int × Int) :=
  forLoop NGHOSTS (NGHOSTS + p.Nxx2) 1 (fun i2 acc =>
    forLoop NGHOSTS (NGHOSTS + p.Nxx1) 1 (fun i1 acc =>
      forLoop NGHOSTS (NGHOSTS + p.Nxx0) 1 (fun i0 acc =>
        acc ++ rhs_eval_body_accesses i0 i1 i2) acc) acc) []

/-! ## `MoLtimestepping/RK_MoL.h` -/

/-- Modelled from the spec: `MoLtimestepping/RK_Allocate_Memory.h` is not among the sources;
the four grid-function buffers `RK_MoL.h` uses (spec §3: current state, running-total
accumulator, RK working buffers), each of `n` reals. -/
structure MoLState (K : Type) (n : Nat) where
  y_n_gfs : Fin n → K
  y_nplus1_running_total_gfs : Fin n → K
  k_odd_gfs : Fin n → K
  k_even_gfs : Fin n → K

/-- The macro `LOOP_ALL_GFS_GPS(ii)` (ScalarWave_Playground.c:29-30):
`for(int ii=0; ii<Nxx_plus_2NGHOSTS_tot*NUM_EVOL_GFS; ii++)`. -/
def LOOP_ALL_GFS_GPS {K σ : Type} (p : paramstruct K) (body : Int → σ → σ) (s : σ) : σ :=
  forLoop 0 (Nxx_plus_2NGHOSTS_tot p * NUM_EVOL_GFS) 1 body s

/-- One pass of the RK4 block `RK_MoL.h:1-31`. The callees `rhs_eval(&params, in, out)` and
`apply_bcs(&params, gfs)` are parameters: each takes the buffer it mutates and returns it.
`1.0/6.0`, `1.0/3.0`, `1.0/2.0` are the exact rationals. -/
def RK_MoL {K : Type} [Field K] {n : Nat}
    (rhs_eval : paramstruct K → (Fin n → K) → (Fin n → K) → (Fin n → K))
    (apply_bcs : paramstruct K → (Fin n → K) → (Fin n → K))
    (params : paramstruct K) (dt : K) (s : MoLState K n) : MoLState K n :=
  -- ***k1 substep:***
  let s := { s with k_odd_gfs := rhs_eval params s.y_n_gfs s.k_odd_gfs }
  let s := LOOP_ALL_GFS_GPS params (fun i s =>
    let s := { s with
      y_nplus1_running_total_gfs :=
        storeREAL s.y_nplus1_running_total_gfs i (loadREAL s.k_odd_gfs i * dt * (1 / 6)) }
    { s with
      k_odd_gfs :=
        storeREAL s.k_odd_gfs i
          (loadREAL s.y_n_gfs i + loadREAL s.k_odd_gfs i * dt * (1 / 2)) }) s
  let s := { s with k_odd_gfs := apply_bcs params s.k_odd_gfs }
  -- ***k2 substep:***
  let s := { s with k_even_gfs := rhs_eval params s.k_odd_gfs s.k_even_gfs }
  let s := LOOP_ALL_GFS_GPS params (fun i s =>
    let s := { s with
      y_nplus1_running_total_gfs :=
        storeREAL s.y_nplus1_running_total_gfs i
          (loadREAL s.y_nplus1_running_total_gfs i + loadREAL s.k_even_gfs i * dt * (1 / 3)) }
    { s with
      k_even_gfs :=
        storeREAL s.k_even_gfs i
          (loadREAL s.y_n_gfs i + loadREAL s.k_even_gfs i * dt * (1 / 2)) }) s
  let s := { s with k_even_gfs := apply_bcs params s.k_even_gfs }
  -- ***k3 substep:***
  let s := { s with k_odd_gfs := rhs_eval params s.k_even_gfs s.k_odd_gfs }
  let s := LOOP_ALL_GFS_GPS params (fun i s =>
    let s := { s with
      y_nplus1_running_total_gfs :=
        storeREAL s.y_nplus1_running_total_gfs i
          (loadREAL s.y_nplus1_running_total_gfs i + loadREAL s.k_odd_gfs i * dt * (1 / 3)) }
    { s with
      k_odd_gfs :=
        storeREAL s.k_odd_gfs i (loadREAL s.y_n_gfs i + loadREAL s.k_odd_gfs i * dt) }) s
  let s := { s with k_odd_gfs := apply_bcs params s.k_odd_gfs }
  -- ***k4 substep:***
  let s := { s with k_even_gfs := rhs_eval params s.k_odd_gfs s.k_even_gfs }
  let s := LOOP_ALL_GFS_GPS params (fun i s =>
    { s with
      y_n_gfs :=
        storeREAL s.y_n_gfs i
          (loadREAL s.y_n_gfs i + loadREAL s.y_nplus1_running_total_gfs i
            + loadREAL s.k_even_gfs i * dt * (1 / 6)) }) s
  { s with y_n_gfs := apply_bcs params s.y_n_gfs }

/-! ## `free_parameters.h` and the set-up part of `main` -/

/-- `const REAL xxmin[3] = {-10.0,-10.0,-10.0 };` (free_parameters.h:20). -/
def xxmin {K : Type} [Field K] : Fin 3 → K := ![-10, -10, -10]

/-- `const REAL xxmax[3] = {+10.0,+10.0,+10.0 };` (free_parameters.h:21). -/
def xxmax {K : Type} [Field K] : Fin 3 → K := ![10, 10, 10]

/-- The struct `params` after `free_parameters.h`, as a function of
`Nx0x1x2 = atoi(argv[1])` (free_parameters.h:5-28). -/
def free_parameters {K : Type} [Field K] (Nx0x1x2 : Int) : paramstruct K :=
  let Nxx0 := Nx0x1x2
  let Nxx1 := Nx0x1x2
  let Nxx2 := Nx0x1x2
  let dxx0 : K := (xxmax 0 - xxmin 0) / (Nxx0 : K)
  let dxx1 : K := (xxmax 1 - xxmin 1) / (Nxx1 : K)
  let dxx2 : K := (xxmax 2 - xxmin 2) / (Nxx2 : K)
  { time := 0, wavespeed := 1
    kk0 := 1, kk1 := 1, kk2 := 1
    Nxx0 := Nxx0, Nxx1 := Nxx1, Nxx2 := Nxx2
    Nxx_plus_2NGHOSTS0 := Nxx0 + 2 * NGHOSTS
    Nxx_plus_2NGHOSTS1 := Nxx1 + 2 * NGHOSTS
    Nxx_plus_2NGHOSTS2 := Nxx2 + 2 * NGHOSTS
    dxx0 := dxx0, dxx1 := dxx1, dxx2 := dxx2
    invdx0 := 1 / dxx0, invdx1 := 1 / dxx1, invdx2 := 1 / dxx2 }

/-- `const REAL t_final = xxmax[0]*0.8;` (ScalarWave_Playground.c:98); `0.8` is `4/5`. -/
def t_final {K : Type} [Field K] : K := xxmax 0 * (4 / 5)

/-- `const REAL CFL_FACTOR = 0.5;` (ScalarWave_Playground.c:101). -/
def CFL_FACTOR {K : Type} [Field K] : K := 1 / 2

/-- `#define MIN(A, B) ( ((A) < (B)) ? (A) : (B) )` (ScalarWave_Playground.c:109). -/
def MIN {K : Type} [LinearOrder K] (A B : K) : K := if A < B then A else B

/-- `REAL dt = CFL_FACTOR * MIN(dxx0,MIN(dxx1,dxx2));` (ScalarWave_Playground.c:110). -/
def dt {K : Type} [LinearOrderedField K] (p : paramstruct K) : K :=
  CFL_FACTOR * MIN p.dxx0 (MIN p.dxx1 p.dxx2)

/-- The C conversion `(int)x` of a real: truncation toward zero. -/
def REAL_to_int {K : Type} [LinearOrderedField K] [FloorRing K] (x : K) : Int :=
  if 0 ≤ x then Int.floor x else Int.ceil x

/-- `int Nt = (int)(t_final / dt + 0.5);` (ScalarWave_Playground.c:111). -/
def Nt {K : Type} [LinearOrderedField K] [FloorRing K] (dt : K) : Int :=
  REAL_to_int (t_final / dt + 1 / 2)

/-- The three coordinate arrays `REAL *xx[3]`, `xx[i]` allocated with
`Nxx_plus_2NGHOSTS<i>` reals (ScalarWave_Playground.c:115-118). -/
structure xxArrays (K : Type) (p : paramstruct K) where
  xx0 : Fin p.Nxx_plus_2NGHOSTS0.toNat → K
  xx1 : Fin p.Nxx_plus_2NGHOSTS1.toNat → K
  xx2 : Fin p.Nxx_plus_2NGHOSTS2.toNat → K

/-- The three loops filling the coordinate arrays (ScalarWave_Playground.c:119-121),
starting from the contents `xx` that `malloc` left. -/
def set_coordinates {K : Type} [Field K] (p : paramstruct K) (xx : xxArrays K p) :
    xxArrays K p :=
  let xx := { xx with
    xx0 := forLoop 0 p.Nxx_plus_2NGHOSTS0 1
      (fun j a => storeREAL a j (xxmin 0 + ((j - NGHOSTS : Int) : K) * p.dxx0)) xx.xx0 }
  let xx := { xx with
    xx1 := forLoop 0 p.Nxx_plus_2NGHOSTS1 1
      (fun j a => storeREAL a j (xxmin 1 + ((j - NGHOSTS : Int) : K) * p.dxx1)) xx.xx1 }
  { xx with
    xx2 := forLoop 0 p.Nxx_plus_2NGHOSTS2 1
      (fun j a => storeREAL a j (xxmin 2 + ((j - NGHOSTS : Int) : K) * p.dxx2)) xx.xx2 }

/-! ## The time loop of `main` -/

/-- `const int NSKIP_0D_OUTPUT = 1;` (ScalarWave_Playground.c:12). -/
def NSKIP_0D_OUTPUT : Int := 1

/-- `const int NSKIP_2D_OUTPUT = 10;` (ScalarWave_Playground.c:13). -/
def NSKIP_2D_OUTPUT : Int := 10

/-- One diagnostic sample taken inside the time loop: what the output code is handed,
namely the iteration number, the struct (with `params.time`) and the state `y_n_gfs`. -/
inductive DiagnosticCall (K : Type) (n : Nat) where
  | output_2D (iter : Int) (params : paramstruct K) (y_n_gfs : Fin n → K)
  | output_0D (iter : Int) (params : paramstruct K) (y_n_gfs : Fin n → K)

/-- State of `main` inside the time loop: the struct, the buffers and the diagnostics
issued so far. -/
structure DriverState (K : Type) (n : Nat) where
  params : paramstruct K
  gfs : MoLState K n
  diagnostics : List (DiagnosticCall K n)

/-- The body of the main loop at iteration `n` (ScalarWave_Playground.c:127-156): set
`params.time`, take the 2D and 0D diagnostics when due, then one `RK_MoL.h` pass. -/
def main_loop_body {K : Type} [Field K] {m : Nat}
    (rhs_eval : paramstruct K → (Fin m → K) → (Fin m → K) → (Fin m → K))
    (apply_bcs : paramstruct K → (Fin m → K) → (Fin m → K))
    (dt : K) (n : Int) (s : DriverState K m) : DriverState K m :=
  let params := { s.params with time := (n : K) * dt }
  let diagnostics := if n % NSKIP_2D_OUTPUT = 0
    then s.diagnostics ++ [DiagnosticCall.output_2D n params s.gfs.y_n_gfs] else s.diagnostics
  let diagnostics := if n % NSKIP_0D_OUTPUT = 0
    then diagnostics ++ [DiagnosticCall.output_0D n params s.gfs.y_n_gfs] else diagnostics
  let gfs := RK_MoL rhs_eval apply_bcs params dt s.gfs
  { params := params, gfs := gfs, diagnostics := diagnostics }

/-- The main loop `for(int n=0;n<=Nt;n++)` (ScalarWave_Playground.c:126-157); `n <= Nt`
is `n < Nt+1`. The initial state carries the seeded `y_n_gfs`
(ScalarWave_Playground.c:124; `exact_solution_all_points.h` is not among the sources). -/
def main_loop {K : Type} [Field K] {m : Nat}
    (rhs_eval : paramstruct K → (Fin m → K) → (Fin m → K) → (Fin m → K))
    (apply_bcs : paramstruct K → (Fin m → K) → (Fin m → K))
    (dt : K) (Nt : Int) (s : DriverState K m) : DriverState K m :=
  forLoop 0 (Nt + 1) 1 (main_loop_body rhs_eval apply_bcs dt) s

/-! ## Definitions used to state the theorems -/

/-- The stencil as the spec words it (spec §4.2):
`Lap_axis(uu) = invdx_axis^2 * ( -5/2*uu + 4/3*(uu[+1]+uu[-1]) - 1/12*(uu[+2]+uu[-2]) )`. -/
def Lap_axis {K : Type} [Field K] (invdx uu uu_p1 uu_m1 uu_p2 uu_m2 : K) : K :=
  invdx ^ 2 * (-5 / 2 * uu + 4 / 3 * (uu_p1 + uu_m1) - 1 / 12 * (uu_p2 + uu_m2))

/-- The spec's `Lap_x(uu)` at the point `(i0,i1,i2)` of the UU field of `in_gfs`. -/
def Lap_x {K : Type} [Field K] {n : Nat} (p : paramstruct K) (in_gfs : Fin n → K)
    (i0 i1 i2 : Int) : K :=
  Lap_axis p.invdx0 (loadREAL in_gfs (IDX4S p UUGF i0 i1 i2))
    (loadREAL in_gfs (IDX4S p UUGF (i0+1) i1 i2)) (loadREAL in_gfs (IDX4S p UUGF (i0-1) i1 i2))
    (loadREAL in_gfs (IDX4S p UUGF (i0+2) i1 i2)) (loadREAL in_gfs (IDX4S p UUGF (i0-2) i1 i2))

/-- The spec's `Lap_y(uu)` at the point `(i0,i1,i2)` of the UU field of `in_gfs`. -/
def Lap_y {K : Type} [Field K] {n : Nat} (p : paramstruct K) (in_gfs : Fin n → K)
    (i0 i1 i2 : Int) : K :=
  Lap_axis p.invdx1 (loadREAL in_gfs (IDX4S p UUGF i0 i1 i2))
    (loadREAL in_gfs (IDX4S p UUGF i0 (i1+1) i2)) (loadREAL in_gfs (IDX4S p UUGF i0 (i1-1) i2))
    (loadREAL in_gfs (IDX4S p UUGF i0 (i1+2) i2)) (loadREAL in_gfs (IDX4S p UUGF i0 (i1-2) i2))

/-- The spec's `Lap_z(uu)` at the point `(i0,i1,i2)` of the UU field of `in_gfs`. -/
def Lap_z {K : Type} [Field K] {n : Nat} (p : paramstruct K) (in_gfs : Fin n → K)
    (i0 i1 i2 : Int) : K :=
  Lap_axis p.invdx2 (loadREAL in_gfs (IDX4S p UUGF i0 i1 i2))
    (loadREAL in_gfs (IDX4S p UUGF i0 i1 (i2+1))) (loadREAL in_gfs (IDX4S p UUGF i0 i1 (i2-1)))
    (loadREAL in_gfs (IDX4S p UUGF i0 i1 (i2+2))) (loadREAL in_gfs (IDX4S p UUGF i0 i1 (i2-2)))

/-- `Lap_x`, `Lap_y` or `Lap_z` according to the axis. -/
def Lap_along {K : Type} [Field K] {n : Nat} (p : paramstruct K) (in_gfs : Fin n → K)
    (a : Fin 3) (i0 i1 i2 : Int) : K :=
  ![Lap_x p in_gfs i0 i1 i2, Lap_y p in_gfs i0 i1 i2, Lap_z p in_gfs i0 i1 i2] a

/-- The component of the grid index `(i0,i1,i2)` along axis `a`. -/
def axisIndex (a : Fin 3) (i0 i1 i2 : Int) : Int := ![i0, i1, i2] a

/-- The field `invdx0`, `invdx1` or `invdx2` according to the axis. -/
def invdx_axis {K : Type} (p : paramstruct K) (a : Fin 3) : K :=
  ![p.invdx0, p.invdx1, p.invdx2] a

/-- Value `rhs_eval` stores to `rhs_gfs[IDX4S(UUGF,i0,i1,i2)]`: the expression
`__RHS_exp_0 = vv` of rhs_eval.h:58 at a single point. -/
def rhs_point_UU {K : Type} [Field K] {n : Nat} (p : paramstruct K) (in_gfs : Fin n → K)
    (i0 i1 i2 : Int) : K :=
  loadREAL in_gfs (IDX4S p VVGF i0 i1 i2)

/-- Value `rhs_eval` stores to `rhs_gfs[IDX4S(VVGF,i0,i1,i2)]`: the expression
`__RHS_exp_1` of rhs_eval.h:45-59 at a single point, in the evaluation order of the code. -/
def rhs_point_VV {K : Type} [Field K] {n : Nat} (p : paramstruct K) (in_gfs : Fin n → K)
    (i0 i1 i2 : Int) : K :=
  let uu := loadREAL in_gfs (IDX4S p UUGF i0 i1 i2)
  let tmpFD0 := uu * -(5 / 2)
  let uu_dDD00 := (loadREAL in_gfs (IDX4S p UUGF (i0+1) i1 i2) * (4 / 3)
    + (loadREAL in_gfs (IDX4S p UUGF (i0-2) i1 i2) * -(1 / 12)
      + (loadREAL in_gfs (IDX4S p UUGF (i0-1) i1 i2) * (4 / 3)
        + (loadREAL in_gfs (IDX4S p UUGF (i0+2) i1 i2) * -(1 / 12) + tmpFD0))))
    * (p.invdx0 * p.invdx0)
  let uu_dDD11 := (loadREAL in_gfs (IDX4S p UUGF i0 (i1+1) i2) * (4 / 3)
    + (loadREAL in_gfs (IDX4S p UUGF i0 (i1-2) i2) * -(1 / 12)
      + (loadREAL in_gfs (IDX4S p UUGF i0 (i1-1) i2) * (4 / 3)
        + (loadREAL in_gfs (IDX4S p UUGF i0 (i1+2) i2) * -(1 / 12) + tmpFD0))))
    * (p.invdx1 * p.invdx1)
  let uu_dDD22 := (loadREAL in_gfs (IDX4S p UUGF i0 i1 (i2+1)) * (4 / 3)
    + (loadREAL in_gfs (IDX4S p UUGF i0 i1 (i2-2)) * -(1 / 12)
      + (loadREAL in_gfs (IDX4S p UUGF i0 i1 (i2-1)) * (4 / 3)
        + (loadREAL in_gfs (IDX4S p UUGF i0 i1 (i2+2)) * -(1 / 12) + tmpFD0))))
    * (p.invdx2 * p.invdx2)
  let tmp0 := p.wavespeed * p.wavespeed
  tmp0 * uu_dDD11 + (tmp0 * uu_dDD22 + tmp0 * uu_dDD00)

/-- Value `rhs_eval` stores at flat offset `f` of the output, when it stores there:
offsets below `Nxx_plus_2NGHOSTS_tot` belong to `UUGF`, the others to `VVGF`;
the single-point values depend on the point only through its flat offset. -/
def rhs_expected {K : Type} [Field K] {n : Nat} (p : paramstruct K) (in_gfs : Fin n → K)
    (f : Int) : K :=
  if f < Nxx_plus_2NGHOSTS_tot p then rhs_point_UU p in_gfs f 0 0
  else rhs_point_VV p in_gfs (f - Nxx_plus_2NGHOSTS_tot p) 0 0

/-- Entries of the output buffer the loop body at `(i0,i1,i2)` stores to: lanes
`0..W-1` of both fields. -/
def bodyWrites {K : Type} {n : Nat} (W : Nat) (p : paramstruct K) (i0 i1 i2 : Int)
    (f : Fin n) : Prop :=
  ∃ l : Int, 0 ≤ l ∧ l < W ∧
    ((f.val : Int) = IDX4S p UUGF (i0 + l) i1 i2 ∨ (f.val : Int) = IDX4S p VVGF (i0 + l) i1 i2)

/-- Entries of the output buffer some batch of width `W` stores to during `rhs_eval`. -/
def batchCovered {K : Type} {n : Nat} (W : Nat) (p : paramstruct K) (f : Fin n) : Prop :=
  ∃ i2, NGHOSTS ≤ i2 ∧ i2 < NGHOSTS + p.Nxx2 ∧ (1 : Int) ∣ (i2 - NGHOSTS) ∧
    ∃ i1, NGHOSTS ≤ i1 ∧ i1 < NGHOSTS + p.Nxx1 ∧ (1 : Int) ∣ (i1 - NGHOSTS) ∧
      ∃ i0, NGHOSTS ≤ i0 ∧ i0 < NGHOSTS + p.Nxx0 ∧ (W : Int) ∣ (i0 - NGHOSTS) ∧
        bodyWrites W p i0 i1 i2 f

/-- Entries of the output buffer that are the offset of an interior point of either field. -/
def interiorOffset {K : Type} {n : Nat} (p : paramstruct K) (f : Fin n) : Prop :=
  ∃ g i0 i1 i2 : Int, (g = UUGF ∨ g = VVGF) ∧
    (NGHOSTS ≤ i0 ∧ i0 < NGHOSTS + p.Nxx0) ∧ (NGHOSTS ≤ i1 ∧ i1 < NGHOSTS + p.Nxx1) ∧
    (NGHOSTS ≤ i2 ∧ i2 < NGHOSTS + p.Nxx2) ∧ (f.val : Int) = IDX4S p g i0 i1 i2

/-- The relation `free_parameters.h:15-17` establishes between the extents. -/
def gridConsistent {K : Type} (p : paramstruct K) : Prop :=
  p.Nxx_plus_2NGHOSTS0 = p.Nxx0 + 2 * NGHOSTS ∧
  p.Nxx_plus_2NGHOSTS1 = p.Nxx1 + 2 * NGHOSTS ∧
  p.Nxx_plus_2NGHOSTS2 = p.Nxx2 + 2 * NGHOSTS

/-- The entries of the four buffers at one offset. -/
def MoLState.col {K : Type} {n : Nat} (s : MoLState K n) (f : Fin n) : K × K × K × K :=
  (s.y_n_gfs f, s.y_nplus1_running_total_gfs f, s.k_odd_gfs f, s.k_even_gfs f)

/-- The state obtained by applying `G` to the four entries at every offset. -/
def MoLState.mapCols {K : Type} {n : Nat} (G : K × K × K × K → K × K × K × K)
    (s : MoLState K n) : MoLState K n where
  y_n_gfs := fun f => (G (s.col f)).1
  y_nplus1_running_total_gfs := fun f => (G (s.col f)).2.1
  k_odd_gfs := fun f => (G (s.col f)).2.2.1
  k_even_gfs := fun f => (G (s.col f)).2.2.2

/-- Stage values of one `RK_MoL.h` pass, in terms of the callees: `k1` is what the first
`rhs_eval` call leaves in `k_odd_gfs`. -/
def RK4_k1 {K : Type} [Field K] {n : Nat}
    (rhs_eval : paramstruct K → (Fin n → K) → (Fin n → K) → (Fin n → K))
    (params : paramstruct K) (s : MoLState K n) : Fin n → K :=
  rhs_eval params s.y_n_gfs s.k_odd_gfs

/-- Contents of `k_odd_gfs` after the first `apply_bcs`: `BC(y_n + k1*dt/2)`. -/
def RK4_y1 {K : Type} [Field K] {n : Nat}
    (rhs_eval : paramstruct K → (Fin n → K) → (Fin n → K) → (Fin n → K))
    (apply_bcs : paramstruct K → (Fin n → K) → (Fin n → K))
    (params : paramstruct K) (dt : K) (s : MoLState K n) : Fin n → K :=
  apply_bcs params (fun f => s.y_n_gfs f + RK4_k1 rhs_eval params s f * dt * (1 / 2))

/-- What the second `rhs_eval` call leaves in `k_even_gfs`. -/
def RK4_k2 {K : Type} [Field K] {n : Nat}
    (rhs_eval : paramstruct K → (Fin n → K) → (Fin n → K) → (Fin n → K))
    (apply_bcs : paramstruct K → (Fin n → K) → (Fin n → K))
    (params : paramstruct K) (dt : K) (s : MoLState K n) : Fin n → K :=
  rhs_eval params (RK4_y1 rhs_eval apply_bcs params dt s) s.k_even_gfs

/-- Contents of `k_even_gfs` after the second `apply_bcs`: `BC(y_n + k2*dt/2)`. -/
def RK4_y2 {K : Type} [Field K] {n : Nat}
    (rhs_eval : paramstruct K → (Fin n → K) → (Fin n → K) → (Fin n → K))
    (apply_bcs : paramstruct K → (Fin n → K) → (Fin n → K))
    (params : paramstruct K) (dt : K) (s : MoLState K n) : Fin n → K :=
  apply_bcs params
    (fun f => s.y_n_gfs f + RK4_k2 rhs_eval apply_bcs params dt s f * dt * (1 / 2))

/-- What the third `rhs_eval` call leaves in `k_odd_gfs` (whose prior contents are
`RK4_y1`). -/
def RK4_k3 {K : Type} [Field K] {n : Nat}
    (rhs_eval : paramstruct K → (Fin n → K) → (Fin n → K) → (Fin n → K))
    (apply_bcs : paramstruct K → (Fin n → K) → (Fin n → K))
    (params : paramstruct K) (dt : K) (s : MoLState K n) : Fin n → K :=
  rhs_eval params (RK4_y2 rhs_eval apply_bcs params dt s)
    (RK4_y1 rhs_eval apply_bcs params dt s)

/-- Contents of `k_odd_gfs` after the third `apply_bcs`: `BC(y_n + k3*dt)`. -/
def RK4_y3 {K : Type} [Field K] {n : Nat}
    (rhs_eval : paramstruct K → (Fin n → K) → (Fin n → K) → (Fin n → K))
    (apply_bcs : paramstruct K → (Fin n → K) → (Fin n → K))
    (params : paramstruct K) (dt : K) (s : MoLState K n) : Fin n → K :=
  apply_bcs params (fun f => s.y_n_gfs f + RK4_k3 rhs_eval apply_bcs params dt s f * dt)

/-- What the fourth `rhs_eval` call leaves in `k_even_gfs` (whose prior contents are
`RK4_y2`). -/
def RK4_k4 {K : Type} [Field K] {n : Nat}
    (rhs_eval : paramstruct K → (Fin n → K) → (Fin n → K) → (Fin n → K))
    (apply_bcs : paramstruct K → (Fin n → K) → (Fin n → K))
    (params : paramstruct K) (dt : K) (s : MoLState K n) : Fin n → K :=
  rhs_eval params (RK4_y3 rhs_eval apply_bcs params dt s)
    (RK4_y2 rhs_eval apply_bcs params dt s)

/-! ## `IDScalarWaveNRPy/src/InitialData.c`: parameter check -/

/-- The message of the `CCTK_WARN` in `IDScalarWaveNRPy_param_check` (InitialData.c:13). -/
def zero_wavevector_message : String :=
  "kk0==kk1==kk2==0: Zero wave vector cannot be normalized. Set one of the kk's to be != 0."

/-- The function `IDScalarWaveNRPy_param_check` (InitialData.c:8-15) on the thorn parameters
`kk0, kk1, kk2`. `CCTK_WARN(0, msg)` of the Cactus flesh is a fatal error: it aborts the run
with the message. -/
def IDScalarWaveNRPy_param_check {K : Type} [Zero K] [DecidableEq K] (kk0 kk1 kk2 : K) :
    Except String Unit :=
  if kk0 = 0 ∧ kk1 = 0 ∧ kk2 = 0 then Except.error zero_wavevector_message
  else Except.ok ()

/-! ## The command line of `main` -/

/-- The C library's `isspace` in the "C" locale: space, `\t`, `\n`, `\v`, `\f`, `\r`. -/
def isspace (c : Char) : Bool := c.toNat = 32 || (9 ≤ c.toNat && c.toNat ≤ 13)

/-- The C library's `isdigit`. -/
def isdigit (c : Char) : Bool := 48 ≤ c.toNat && c.toNat ≤ 57

/-- The digit loop of `atoi`: accumulate decimal digits until the first other character. -/
def atoi_digits : Int → List Char → Int
  | acc, [] => acc
  | acc, c :: cs => if isdigit c then atoi_digits (acc * 10 + ((c.toNat : Int) - 48)) cs else acc

/-- The largest value of the C type `long` where it has 64 bits (LP64). -/
def LONG_MAX : Int := 9223372036854775807

/-- The C library's `strtol(s, NULL, 10)` (C11 7.22.1.4): skip white space, take an optional
sign, convert the decimal digits that follow and ignore the rest of the string; `0` when no
conversion can be performed; a value outside `long` is replaced by `LONG_MIN` or
`LONG_MAX`. -/
def strtol (s : String) : Int :=
  match s.data.dropWhile isspace with
  | c :: cs =>
    if c = '-' then max (- atoi_digits 0 cs) (-LONG_MAX - 1)
    else if c = '+' then min (atoi_digits 0 cs) LONG_MAX
    else min (atoi_digits 0 (c :: cs)) LONG_MAX
  | [] => 0

/-- The C library's `atoi` (C11 7.22.1.2): `(int)strtol(s, NULL, 10)`. For a value outside
`int` the C standard leaves the result undefined; it is, as in glibc with a 64-bit `long`,
the conversion of the `long` to `int`, which keeps the low 32 bits. -/
def atoi (s : String) : Int := int_wrap (strtol s)

/-- No conversion can be performed by `atoi`: after white space and an optional sign the
string does not continue with a decimal digit. -/
def atoi_no_conversion (s : String) : Bool :=
  match s.data.dropWhile isspace with
  | c :: cs =>
    if c = '-' ∨ c = '+' then
      match cs with
      | d :: _ => !isdigit d
      | [] => true
    else !isdigit c
  | [] => true

/-- The three `printf` lines of the usage message (ScalarWave_Playground.c:87-89), with
`NGHOSTS` printed as 2. -/
def usage_text : List String :=
  ["Error: Expected one command-line argument: ./ScalarWave_Playground [Nx(=Ny=Nz)],",
   "where Nx is the number of grid points in the x,y, and z directions.",
   "Nx MUST BE larger than NGHOSTS (= 2)"]

/-- The code `main` calls that is not among the sources: the batch width of
`SIMD_intrinsics.h`, `apply_bcs.h`, `exact_solution_all_points.h`, and the contents of
freshly allocated memory (`RK_Allocate_Memory.h`, `malloc`). -/
structure MainCallees (K : Type) where
  SIMD_width : Nat
  apply_bcs : {n : Nat} → paramstruct K → (Fin n → K) → (Fin n → K)
  exact_solution_all_points : {n m0 m1 m2 : Nat} → paramstruct K →
    (Fin m0 → K) → (Fin m1 → K) → (Fin m2 → K) → (Fin n → K) → (Fin n → K)
  malloc_REAL : (n : Nat) → Fin n → K

/-- Modelled from the spec: `MoLtimestepping/RK_Allocate_Memory.h` is not among the sources;
each grid-function buffer holds `NUM_EVOL_GFS * Nxx_plus_2NGHOSTS_tot` reals (spec §3, and
the bound of `LOOP_ALL_GFS_GPS`). This is that number for the resolution `Nx0x1x2`. -/
def gfs_length (Nx0x1x2 : Int) : Nat :=
  (NUM_EVOL_GFS * Nxx_plus_2NGHOSTS_tot (free_parameters (K := ℚ) Nx0x1x2)).toNat

/-- How `main` ends: `exit(1)` after the usage text, or `return 0` after the run, with the
resolution and the final state of the time loop. -/
inductive MainOutcome (K : Type) where
  | exit (status : Int) (stdout : List String)
  | returned (status : Int) (Nx0x1x2 : Int) (state : DriverState K (gfs_length Nx0x1x2))

/-- The function `main` (ScalarWave_Playground.c:82-163). `argc` is the length of `argv`;
`argv[1]` is read only when `argc == 2`. The header `set_Cparameters_default.h` included at
line 84, before the argument check, is not among the sources; `free_parameters.h` assigns
every field of `params` after the check, so the defaults do not reach the run (the order of
the statements is recorded by `main_statements`). -/
def main {K : Type} [LinearOrderedField K] [FloorRing K] (env : MainCallees K)
    (argv : List String) : MainOutcome K :=
  let argc : Int := argv.length
  if argc ≠ 2 ∨ atoi (argv.getD 1 default) < NGHOSTS then
    MainOutcome.exit 1 usage_text
  else
    let Nx0x1x2 := atoi (argv.getD 1 default)
    let params : paramstruct K := free_parameters Nx0x1x2
    let dt := dt params
    let Nt := Nt dt
    let xx := set_coordinates params
      ⟨env.malloc_REAL _, env.malloc_REAL _, env.malloc_REAL _⟩
    let params := { params with time := 0 }
    let y_n_gfs := env.exact_solution_all_points params xx.xx0 xx.xx1 xx.xx2
      (env.malloc_REAL (gfs_length Nx0x1x2))
    let s := main_loop (rhs_eval env.SIMD_width) env.apply_bcs dt Nt
      { params := params
        gfs := ⟨y_n_gfs, env.malloc_REAL _, env.malloc_REAL _, env.malloc_REAL _⟩
        diagnostics := [] }
    MainOutcome.returned 0 Nx0x1x2 s

/-- The index tuples `(g,i,j,k)` of the grid functions: `0 ≤ g < NUM_EVOL_GFS` and each grid
index inside its extent. -/
def indexBox {K : Type} (p : paramstruct K) : Set (Int × Int × Int × Int) :=
  {t | (0 ≤ t.1 ∧ t.1 < NUM_EVOL_GFS) ∧ (0 ≤ t.2.1 ∧ t.2.1 < p.Nxx_plus_2NGHOSTS0) ∧
    (0 ≤ t.2.2.1 ∧ t.2.2.1 < p.Nxx_plus_2NGHOSTS1) ∧
    (0 ≤ t.2.2.2 ∧ t.2.2.2 < p.Nxx_plus_2NGHOSTS2)}

/-! ## The loop invariant of `main` -/

/-- The buffers after `k` RK4 steps: step number `j` (counted from 0) is one pass of
`RK_MoL.h` taken with `params.time = j*dt`, as in iteration `j` of the main loop. -/
def RK4_steps {K : Type} [Field K] {m : Nat}
    (rhs_eval : paramstruct K → (Fin m → K) → (Fin m → K) → (Fin m → K))
    (apply_bcs : paramstruct K → (Fin m → K) → (Fin m → K))
    (params : paramstruct K) (dt : K) : Nat → MoLState K m → MoLState K m
  | 0, s => s
  | k + 1, s =>
    RK_MoL rhs_eval apply_bcs { params with time := ((k : Int) : K) * dt } dt
      (RK4_steps rhs_eval apply_bcs params dt k s)

/-- The diagnostics due in iteration `n` when they are handed `params.time = n*dt` and the
seeded state advanced by `n` RK4 steps: the 2D output every `NSKIP_2D_OUTPUT` iterations,
then the 0D output. -/
def diagnostics_due {K : Type} [Field K] {m : Nat}
    (rhs_eval : paramstruct K → (Fin m → K) → (Fin m → K) → (Fin m → K))
    (apply_bcs : paramstruct K → (Fin m → K) → (Fin m → K))
    (dt : K) (s0 : DriverState K m) (n : Nat) : List (DiagnosticCall K m) :=
  (if (n : Int) % NSKIP_2D_OUTPUT = 0
    then [DiagnosticCall.output_2D n { s0.params with time := ((n : Int) : K) * dt }
      (RK4_steps rhs_eval apply_bcs s0.params dt n s0.gfs).y_n_gfs]
    else []) ++
  [DiagnosticCall.output_0D n { s0.params with time := ((n : Int) : K) * dt }
    (RK4_steps rhs_eval apply_bcs s0.params dt n s0.gfs).y_n_gfs]

/-- The diagnostics due in the iterations `0, ..., k-1`, in order. -/
def diagnostics_upto {K : Type} [Field K] {m : Nat}
    (rhs_eval : paramstruct K → (Fin m → K) → (Fin m → K) → (Fin m → K))
    (apply_bcs : paramstruct K → (Fin m → K) → (Fin m → K))
    (dt : K) (s0 : DriverState K m) : Nat → List (DiagnosticCall K m)
  | 0 => []
  | k + 1 => diagnostics_upto rhs_eval apply_bcs dt s0 k ++
      diagnostics_due rhs_eval apply_bcs dt s0 k

/-! ## `exact_solution_single_point.h` and the thorn `IDScalarWaveNRPy` -/

/-- The functions of the C library's `<math.h>` that the generated expressions call. They
are parameters of the model; over the reals they are `Real.sin`, `Real.cos`, `Real.sqrt`. -/
structure math_h (K : Type) where
  sin : K → K
  cos : K → K
  sqrt : K → K

/-- The function `exact_solution_single_point` (exact_solution_single_point.h:4-21); the
pair returned is `(*uu_exact, *vv_exact)`. `set_Cparameters.h` (not among the sources)
copies the fields of `params` into the locals `time`, `wavespeed`, `kk0`, `kk1`, `kk2`. -/
def exact_solution_single_point {K : Type} [Field K] (libm : math_h K) (xx0 xx1 xx2 : K)
    (params : paramstruct K) : K × K :=
  let time := params.time
  let wavespeed := params.wavespeed
  let kk0 := params.kk0
  let kk1 := params.kk1
  let kk2 := params.kk2
  let tmp0 := time * wavespeed
    - (kk0 * xx0 + kk1 * xx1 + kk2 * xx2) / libm.sqrt (kk0 * kk0 + kk1 * kk1 + kk2 * kk2)
  (2 - libm.sin tmp0, -wavespeed * libm.cos tmp0)

/-- What `DECLARE_CCTK_ARGUMENTS` and `DECLARE_CCTK_PARAMETERS` hand to
`IDScalarWaveNRPy_InitialData` of the Cactus grid hierarchy and of the thorn's parameters:
the local grid size `cctk_lsh`, the allocated size `cctk_ash`, the time `cctk_time`, the
coordinate grid functions `x`, `y`, `z`, and `wavespeed`, `kk0`, `kk1`, `kk2`. -/
structure CCTK_ARGUMENTS (K : Type) (n : Nat) where
  cctk_lsh : Fin 3 → Int
  cctk_ash : Fin 3 → Int
  cctk_time : K
  x : Fin n → K
  y : Fin n → K
  z : Fin n → K
  wavespeed : K
  kk0 : K
  kk1 : K
  kk2 : K

/-- The macro `CCTK_GFINDEX3D(cctkGH,i,j,k)` of the Cactus flesh (`cctk.h`):
`(i) + cctkGH->cctk_ash[0]*((j) + cctkGH->cctk_ash[1]*(k))`. -/
def CCTK_GFINDEX3D {K : Type} {n : Nat} (cctkGH : CCTK_ARGUMENTS K n) (i j k : Int) : Int :=
  i + cctkGH.cctk_ash 0 * (j + cctkGH.cctk_ash 1 * k)

/-- The grid functions `uuGF`, `vvGF` that `IDScalarWaveNRPy_InitialData` writes. -/
structure ScalarWaveGFs (K : Type) (n : Nat) where
  uuGF : Fin n → K
  vvGF : Fin n → K

/-- The body of the innermost loop of `ScalarWave_PWID.h` (lines 5-26) at loop indices
`(i0,i1,i2)`; `xGF`, `yGF`, `zGF` are the coordinate grid functions `x`, `y`, `z`
(InitialData.c:22-24). -/
def ScalarWave_PWID_body {K : Type} [Field K] {n : Nat} (libm : math_h K)
    (cctkGH : CCTK_ARGUMENTS K n) (i0 i1 i2 : Int) (gfs : ScalarWaveGFs K n) :
    ScalarWaveGFs K n :=
  let xGF := cctkGH.x
  let yGF := cctkGH.y
  let zGF := cctkGH.z
  let cctk_time := cctkGH.cctk_time
  let wavespeed := cctkGH.wavespeed
  let kk0 := cctkGH.kk0
  let kk1 := cctkGH.kk1
  let kk2 := cctkGH.kk2
  let x := loadREAL xGF (CCTK_GFINDEX3D cctkGH i0 i1 i2)
  let y := loadREAL yGF (CCTK_GFINDEX3D cctkGH i0 i1 i2)
  let z := loadREAL zGF (CCTK_GFINDEX3D cctkGH i0 i1 i2)
  let tmp0 := cctk_time * wavespeed
    - (kk0 * x + kk1 * y + kk2 * z) / libm.sqrt (kk0 * kk0 + kk1 * kk1 + kk2 * kk2)
  let gfs := { gfs with
    uuGF := storeREAL gfs.uuGF (CCTK_GFINDEX3D cctkGH i0 i1 i2) (2 - libm.sin tmp0) }
  { gfs with
    vvGF := storeREAL gfs.vvGF (CCTK_GFINDEX3D cctkGH i0 i1 i2) (-wavespeed * libm.cos tmp0) }

/-- The function `IDScalarWaveNRPy_InitialData` (InitialData.c:17-26): the loop nest of
`ScalarWave_PWID.h` (lines 2-4) it includes; the OpenMP loop is run sequentially. -/
def IDScalarWaveNRPy_InitialData {K : Type} [Field K] {n : Nat} (libm : math_h K)
    (cctkGH : CCTK_ARGUMENTS K n) (gfs : ScalarWaveGFs K n) : ScalarWaveGFs K n :=
  forLoop 1 (cctkGH.cctk_lsh 2 - 1) 1 (fun i2 gfs =>
    forLoop 1 (cctkGH.cctk_lsh 1 - 1) 1 (fun i1 gfs =>
      forLoop 1 (cctkGH.cctk_lsh 0 - 1) 1 (fun i0 gfs =>
        ScalarWave_PWID_body libm cctkGH i0 i1 i2 gfs) gfs) gfs) gfs

/-- The `paramstruct` of the standalone code that carries the thorn's `wavespeed`, `kk0`,
`kk1`, `kk2`, with `time` set to `t`; the remaining fields are those of `p`. -/
def thorn_params {K : Type} {n : Nat} (cctkGH : CCTK_ARGUMENTS K n) (p : paramstruct K)
    (t : K) : paramstruct K :=
  { p with
    wavespeed := cctkGH.wavespeed
    kk0 := cctkGH.kk0
    kk1 := cctkGH.kk1
    kk2 := cctkGH.kk2
    time := t }

/-- The points the loop nest of `ScalarWave_PWID.h` visits: all but the outermost layer of
the local grid. -/
def PWID_point {K : Type} {n : Nat} (cctkGH : CCTK_ARGUMENTS K n) (i0 i1 i2 : Int) : Prop :=
  (1 ≤ i0 ∧ i0 < cctkGH.cctk_lsh 0 - 1) ∧ (1 ≤ i1 ∧ i1 < cctkGH.cctk_lsh 1 - 1) ∧
    (1 ≤ i2 ∧ i2 < cctkGH.cctk_lsh 2 - 1)

/-- The local grid fits the allocated storage, which is the length of the buffers. -/
def CCTK_storage_ok {K : Type} {n : Nat} (cctkGH : CCTK_ARGUMENTS K n) : Prop :=
  (∀ d, cctkGH.cctk_lsh d ≤ cctkGH.cctk_ash d) ∧
    (n : Int) = cctkGH.cctk_ash 0 * cctkGH.cctk_ash 1 * cctkGH.cctk_ash 2

/-! ## The boundary routine `apply_bcs.h` -/

/-- Modelled from the spec: `apply_bcs.h` is not among the sources. One face update of the
boundary routine (spec §4.3: "degree-2 polynomial extrapolation from the 3 innermost
already-known points along the normal axis"): every point of the layer
`[i0min,i0max) x [i1min,i1max) x [i2min,i2max)` of field `which_gf` is set to
`3*f(+1) - 3*f(+2) + f(+3)`, the value at the point of the quadratic through the three
points next to it in the direction `(FACEX0,FACEX1,FACEX2)` (which points into the grid). -/
def FACE_UPDATE {K : Type} [Field K] {n : Nat} (p : paramstruct K) (which_gf : Int)
    (i0min i0max i1min i1max i2min i2max : Int) (FACEX0 FACEX1 FACEX2 : Int)
    (gfs : Fin n → K) : Fin n → K :=
  forLoop i2min i2max 1 (fun i2 gfs =>
    forLoop i1min i1max 1 (fun i1 gfs =>
      forLoop i0min i0max 1 (fun i0 gfs =>
        storeREAL gfs (IDX4S p which_gf i0 i1 i2)
          (3 * loadREAL gfs
              (IDX4S p which_gf (i0 + 1 * FACEX0) (i1 + 1 * FACEX1) (i2 + 1 * FACEX2))
            - 3 * loadREAL gfs
              (IDX4S p which_gf (i0 + 2 * FACEX0) (i1 + 2 * FACEX1) (i2 + 2 * FACEX2))
            + loadREAL gfs
              (IDX4S p which_gf (i0 + 3 * FACEX0) (i1 + 3 * FACEX1) (i2 + 3 * FACEX2))))
        gfs) gfs) gfs

/-- Modelled from the spec: the direction constants of the face updates; `MINFACE` points
from a lower face into the grid, `MAXFACE` from an upper face. -/
def MINFACE : Int := 1

/-- Modelled from the spec: see `MINFACE`. -/
def MAXFACE : Int := -1

/-- Modelled from the spec: no offset along an axis tangent to the face. -/
def NUL : Int := 0

/-- Modelled from the spec: the state of the boundary routine while it works on one field:
the box `[imin,imax)` of points already known (at first the interior) and the buffer. -/
structure apply_bcs_state (K : Type) (n : Nat) where
  imin0 : Int
  imin1 : Int
  imin2 : Int
  imax0 : Int
  imax1 : Int
  imax2 : Int
  gfs : Fin n → K

/-- Modelled from the spec: `apply_bcs.h` is not among the sources. One ghost shell of one
field (spec §4.3: "fills ghost zones face-by-face (6 faces of the cube)"): the lower and
upper face of each axis in turn, the known box growing by the layer just filled, so that a
later face also covers the edges and corners next to the earlier ones. -/
def apply_bcs_shell {K : Type} [Field K] {n : Nat} (p : paramstruct K) (which_gf : Int)
    (s : apply_bcs_state K n) : apply_bcs_state K n :=
  let s := { s with
    gfs := FACE_UPDATE p which_gf (s.imin0 - 1) s.imin0 s.imin1 s.imax1 s.imin2 s.imax2
      MINFACE NUL NUL s.gfs }
  let s := { s with imin0 := s.imin0 - 1 }
  let s := { s with
    gfs := FACE_UPDATE p which_gf s.imax0 (s.imax0 + 1) s.imin1 s.imax1 s.imin2 s.imax2
      MAXFACE NUL NUL s.gfs }
  let s := { s with imax0 := s.imax0 + 1 }
  let s := { s with
    gfs := FACE_UPDATE p which_gf s.imin0 s.imax0 (s.imin1 - 1) s.imin1 s.imin2 s.imax2
      NUL MINFACE NUL s.gfs }
  let s := { s with imin1 := s.imin1 - 1 }
  let s := { s with
    gfs := FACE_UPDATE p which_gf s.imin0 s.imax0 s.imax1 (s.imax1 + 1) s.imin2 s.imax2
      NUL MAXFACE NUL s.gfs }
  let s := { s with imax1 := s.imax1 + 1 }
  let s := { s with
    gfs := FACE_UPDATE p which_gf s.imin0 s.imax0 s.imin1 s.imax1 (s.imin2 - 1) s.imin2
      NUL NUL MINFACE s.gfs }
  let s := { s with imin2 := s.imin2 - 1 }
  let s := { s with
    gfs := FACE_UPDATE p which_gf s.imin0 s.imax0 s.imin1 s.imax1 s.imax2 (s.imax2 + 1)
      NUL NUL MAXFACE s.gfs }
  { s with imax2 := s.imax2 + 1 }

/-- Modelled from the spec: `apply_bcs.h` is not among the sources (its include and the
comment "Apply BCs to all six boundary faces of the cube, filling in the innermost ghost
zone first, and moving outward" are at ScalarWave_Playground.c:45-48). For every evolved
field, starting from the interior box, the `NGHOSTS` ghost shells are filled from the
innermost outward (spec §4.3). The buffer is passed in and returned. -/
def apply_bcs {K : Type} [Field K] {n : Nat} (p : paramstruct K) (gfs : Fin n → K) :
    Fin n → K :=
  forLoop 0 NUM_EVOL_GFS 1 (fun which_gf gfs =>
    (forLoop 0 NGHOSTS 1 (fun _which_gz s => apply_bcs_shell p which_gf s)
      { imin0 := NGHOSTS, imin1 := NGHOSTS, imin2 := NGHOSTS
        imax0 := p.Nxx_plus_2NGHOSTS0 - NGHOSTS
        imax1 := p.Nxx_plus_2NGHOSTS1 - NGHOSTS
        imax2 := p.Nxx_plus_2NGHOSTS2 - NGHOSTS
        gfs := gfs }).gfs) gfs

/-- The points `(j0,j1,j2)` of the box `[a0,b0) x [a1,b1) x [a2,b2)`. -/
abbrev inBox (a0 b0 a1 b1 a2 b2 j0 j1 j2 : Int) : Prop :=
  (a0 ≤ j0 ∧ j0 < b0) ∧ (a1 ≤ j1 ∧ j1 < b1) ∧ (a2 ≤ j2 ∧ j2 < b2)

/-- The points `(j0,j1,j2)` of the grid, ghost points included. -/
abbrev inGrid {K : Type} (p : paramstruct K) (j0 j1 j2 : Int) : Prop :=
  inBox 0 p.Nxx_plus_2NGHOSTS0 0 p.Nxx_plus_2NGHOSTS1 0 p.Nxx_plus_2NGHOSTS2 j0 j1 j2

/-- The interior points `(j0,j1,j2)` of the grid. -/
abbrev inInterior {K : Type} (p : paramstruct K) (j0 j1 j2 : Int) : Prop :=
  inBox NGHOSTS (NGHOSTS + p.Nxx0) NGHOSTS (NGHOSTS + p.Nxx1) NGHOSTS (NGHOSTS + p.Nxx2)
    j0 j1 j2

/-- The quadratic `a*i^2 + b*i + c` in the index `i`. -/
def quadratic {K : Type} [Field K] (a b c : K) (i : Int) : K :=
  a * (i : K) ^ 2 + b * (i : K) + c

/-- The six directions of the face updates: one step along one axis. -/
def isFaceDirection (d0 d1 d2 : Int) : Prop :=
  ((d0 = MINFACE ∨ d0 = MAXFACE) ∧ d1 = NUL ∧ d2 = NUL) ∨
  (d0 = NUL ∧ (d1 = MINFACE ∨ d1 = MAXFACE) ∧ d2 = NUL) ∨
  (d0 = NUL ∧ d1 = NUL ∧ (d2 = MINFACE ∨ d2 = MAXFACE))

/-- The point lies in a ghost layer on the side a face direction starts from: below the
interior along the axis for `MINFACE`, above it for `MAXFACE`. -/
def onGhostSide {K : Type} (p : paramstruct K) (d0 d1 d2 j0 j1 j2 : Int) : Prop :=
  (d0 = MINFACE ∧ j0 < NGHOSTS) ∨ (d0 = MAXFACE ∧ NGHOSTS + p.Nxx0 ≤ j0) ∨
  (d1 = MINFACE ∧ j1 < NGHOSTS) ∨ (d1 = MAXFACE ∧ NGHOSTS + p.Nxx1 ≤ j1) ∨
  (d2 = MINFACE ∧ j2 < NGHOSTS) ∨ (d2 = MAXFACE ∧ NGHOSTS + p.Nxx2 ≤ j2)

/-- Degree-2 extrapolation reproduces the profile `F` on the points `R`: at a point of `R`
in a ghost layer, `F` is `3*F(+1) - 3*F(+2) + F(+3)` along the face direction of that
layer, and the three points used belong to `R` as well. -/
def reproducedOn {K : Type} [Field K] (p : paramstruct K) (R : Int → Int → Int → Prop)
    (F : Int → Int → Int → K) : Prop :=
  ∀ j0 j1 j2 d0 d1 d2 : Int, isFaceDirection d0 d1 d2 → R j0 j1 j2 →
    onGhostSide p d0 d1 d2 j0 j1 j2 →
    F j0 j1 j2 = 3 * F (j0 + 1 * d0) (j1 + 1 * d1) (j2 + 1 * d2)
      - 3 * F (j0 + 2 * d0) (j1 + 2 * d1) (j2 + 2 * d2)
      + F (j0 + 3 * d0) (j1 + 3 * d1) (j2 + 3 * d2) ∧
    R (j0 + 1 * d0) (j1 + 1 * d1) (j2 + 1 * d2) ∧
    R (j0 + 2 * d0) (j1 + 2 * d1) (j2 + 2 * d2) ∧
    R (j0 + 3 * d0) (j1 + 3 * d1) (j2 + 3 * d2)

/-- The two components of the grid index `(i0,i1,i2)` other than the one along axis `a`:
they name the line through the point along that axis. -/
def otherIndices (a : Fin 3) (i0 i1 i2 : Int) : Int × Int :=
  ![(i1, i2), (i0, i2), (i0, i1)] a

/-- The line through `(i0,i1,i2)` along axis `a` crosses the interior: the other two indices
are interior. The ghost points on such a line are those of the two faces normal to `a`. -/
def onInteriorLine {K : Type} (p : paramstruct K) (a : Fin 3) (i0 i1 i2 : Int) : Prop :=
  ![(NGHOSTS ≤ i1 ∧ i1 < NGHOSTS + p.Nxx1) ∧ (NGHOSTS ≤ i2 ∧ i2 < NGHOSTS + p.Nxx2),
    (NGHOSTS ≤ i0 ∧ i0 < NGHOSTS + p.Nxx0) ∧ (NGHOSTS ≤ i2 ∧ i2 < NGHOSTS + p.Nxx2),
    (NGHOSTS ≤ i0 ∧ i0 < NGHOSTS + p.Nxx0) ∧ (NGHOSTS ≤ i1 ∧ i1 < NGHOSTS + p.Nxx1)] a

/-! ## The 0D diagnostic of `main` -/

/-- What the 0D diagnostic prints (ScalarWave_Playground.c:149-150): `params.time`, the
relative error (printed as its `log10`), the coordinates of the point, the numerical and
the exact `uu`. -/
structure output_0D_values (K : Type) where
  time : K
  relative_error : K
  xx0 : K
  xx1 : K
  xx2 : K
  numerical : K
  uu_exact : K

/-- The 0D diagnostic of the main loop (ScalarWave_Playground.c:138-150): the exact solution
at the point `(i0mid,i1mid,i2mid)`, the numerical `uu` there and
`relative_error = fabs((uu_exact-numerical)/uu_exact)`. -/
def main_output_0D {K : Type} [LinearOrderedField K] {n : Nat} (libm : math_h K)
    (params : paramstruct K) (xx : xxArrays K params) (y_n_gfs : Fin n → K) :
    output_0D_values K :=
  let i0mid := params.Nxx_plus_2NGHOSTS0 / 2
  let i1mid := params.Nxx_plus_2NGHOSTS1 / 2
  let i2mid := params.Nxx_plus_2NGHOSTS2 / 2
  let exact := exact_solution_single_point libm (loadREAL xx.xx0 i0mid) (loadREAL xx.xx1 i1mid)
    (loadREAL xx.xx2 i2mid) params
  let uu_exact := exact.1
  let numerical := loadREAL y_n_gfs (IDX4S params UUGF i0mid i1mid i2mid)
  let relative_error := |(uu_exact - numerical) / uu_exact|
  { time := params.time, relative_error := relative_error
    xx0 := loadREAL xx.xx0 i0mid, xx1 := loadREAL xx.xx1 i1mid, xx2 := loadREAL xx.xx2 i2mid
    numerical := numerical, uu_exact := uu_exact }

/-! ## The `double` arithmetic of the sum of squares -/

/-- Rounding of a rational to the nearest integer, ties to the even one. -/
def round_half_even (q : ℚ) : Int :=
  let f := ⌊q⌋
  let r := q - f
  if r < 1 / 2 then f
  else if 1 / 2 < r then f + 1
  else if f % 2 = 0 then f else f + 1

/-- The spacing of the `double` values (IEEE 754 binary64: 53-bit significand, least
exponent `-1022`, subnormal numbers) around `x`. -/
def double_ulp (x : ℚ) : ℚ := 2 ^ (max (Int.log 2 |x|) (-1022) - 52)

/-- The `double` nearest to the rational `x`, ties to even: the result of a `double`
operation whose exact result is `x`. Overflow to infinity is not modelled: this is the
machine result for `|x| < 2^1024`. -/
def round_double (x : ℚ) : ℚ := round_half_even (x / double_ulp x) * double_ulp x

/-- The argument `((kk0)*(kk0)) + ((kk1)*(kk1)) + ((kk2)*(kk2))` of `sqrt` in
`ScalarWave_PWID.h:23` as the program evaluates it on `double`: each product and each sum,
taken from left to right, is rounded. -/
def PWID_sqrt_arg_double (kk0 kk1 kk2 : ℚ) : ℚ :=
  round_double (round_double (round_double (kk0 * kk0) + round_double (kk1 * kk1))
    + round_double (kk2 * kk2))

/-! ## Integer numerals -/

theorem forLoop_done {σ : Type} (lo hi step : Int) (body : Int → σ → σ) (s : σ)
    (h : ¬ (lo < hi ∧ 0 < step)) : forLoop lo hi step body s = s := by
  rw [forLoop, dif_neg h]

theorem forLoop_next {σ : Type} (lo hi step : Int) (body : Int → σ → σ) (s : σ)
    (h : lo < hi) (hs : 0 < step) :
    forLoop lo hi step body s = forLoop (lo + step) hi step body (body lo s) := by
  rw [forLoop, dif_pos ⟨h, hs⟩]

open Classical in
/-- A loop whose body overwrites the entries in `D i` with the state-independent values `v`
and leaves the others alone overwrites exactly the union of the `D i` over the indices
`lo, lo+step, ...` below `hi`. -/
theorem forLoop_override {K : Type} {n : Nat} (v : Fin n → K) (D : Int → Fin n → Prop)
    (body : Int → (Fin n → K) → (Fin n → K)) (hi step : Int) (hstep : 0 < step)
    (m : Nat) : ∀ (lo : Int), (hi - lo).toNat ≤ m →
    (∀ i, lo ≤ i → i < hi → step ∣ (i - lo) →
      ∀ s f, body i s f = if D i f then v f else s f) →
    ∀ s f, forLoop lo hi step body s f =
      if (∃ i, lo ≤ i ∧ i < hi ∧ step ∣ (i - lo) ∧ D i f) then v f else s f := by
  induction m with
  | zero =>
    intro lo hm _ s f
    have hlo : ¬ lo < hi := by omega
    rw [forLoop_done _ _ _ _ _ (fun h => hlo h.1)]
    rw [if_neg]
    rintro ⟨i, h1, h2, -⟩
    omega
  | succ m ih =>
    intro lo hm hbody s f
    by_cases hlt : lo < hi
    · rw [forLoop_next _ _ _ _ _ hlt hstep]
      have hb' : ∀ i, lo + step ≤ i → i < hi → step ∣ (i - (lo + step)) →
          ∀ s f, body i s f = if D i f then v f else s f := by
        intro i h1 h2 h3
        apply hbody i (by omega) h2
        have : i - lo = (i - (lo + step)) + step := by ring
        rw [this]
        exact dvd_add h3 (dvd_refl _)
      rw [ih (lo + step) (by omega) hb' (body lo s) f]
      rw [hbody lo le_rfl hlt (by simp) s f]
      by_cases h1 : ∃ i, lo + step ≤ i ∧ i < hi ∧ step ∣ (i - (lo + step)) ∧ D i f
      · rw [if_pos h1, if_pos]
        obtain ⟨i, a, b, c, d⟩ := h1
        refine ⟨i, by omega, b, ?_, d⟩
        have : i - lo = (i - (lo + step)) + step := by ring
        rw [this]
        exact dvd_add c (dvd_refl _)
      · rw [if_neg h1]
        by_cases h2 : D lo f
        · rw [if_pos h2, if_pos]
          exact ⟨lo, le_rfl, hlt, by simp, h2⟩
        · rw [if_neg h2, if_neg]
          rintro ⟨i, a, b, c, d⟩
          by_cases hil : i = lo
          · subst hil; exact h2 d
          · apply h1
            obtain ⟨t, ht⟩ := c
            have ht1 : 1 ≤ t := by
              by_contra hcon
              have : t ≤ 0 := by omega
              have : step * t ≤ 0 := by nlinarith
              omega
            refine ⟨i, ?_, b, ?_, d⟩
            · have : step * 1 ≤ step * t := by nlinarith
              omega
            · exact ⟨t - 1, by rw [mul_sub, ← ht]; ring⟩
    · rw [forLoop_done _ _ _ _ _ (fun h => hlt h.1)]
      rw [if_neg]
      rintro ⟨i, h1, h2, -⟩
      omega

/-! ## Index arithmetic -/

theorem IDX4S_lane {K : Type} (p : paramstruct K) (g i j k l : Int) :
    IDX4S p g i j k + l = IDX4S p g (i + l) j k := by
  unfold IDX4S; ring

theorem IDX4S_flat {K : Type} (p : paramstruct K) (f : Int) : IDX4S p UUGF f 0 0 = f := by
  unfold IDX4S UUGF; ring

theorem IDX4S_VV {K : Type} (p : paramstruct K) (i j k : Int) :
    IDX4S p VVGF i j k = IDX4S p UUGF i j k + Nxx_plus_2NGHOSTS_tot p := by
  unfold IDX4S UUGF VVGF Nxx_plus_2NGHOSTS_tot; ring

/-- The offset of an in-range point lies in the buffer of `NUM_EVOL_GFS * tot` reals. -/
theorem IDX4S_bounds {K : Type} (p : paramstruct K) (g i j k : Int)
    (hg : 0 ≤ g ∧ g < NUM_EVOL_GFS)
    (hi : 0 ≤ i ∧ i < p.Nxx_plus_2NGHOSTS0) (hj : 0 ≤ j ∧ j < p.Nxx_plus_2NGHOSTS1)
    (hk : 0 ≤ k ∧ k < p.Nxx_plus_2NGHOSTS2) :
    0 ≤ IDX4S p g i j k ∧ IDX4S p g i j k < NUM_EVOL_GFS * Nxx_plus_2NGHOSTS_tot p := by
  unfold IDX4S Nxx_plus_2NGHOSTS_tot
  obtain ⟨hg0, hg1⟩ := hg
  obtain ⟨hi0, hi1⟩ := hi
  obtain ⟨hj0, hj1⟩ := hj
  obtain ⟨hk0, hk1⟩ := hk
  set A := p.Nxx_plus_2NGHOSTS0
  set B := p.Nxx_plus_2NGHOSTS1
  set C := p.Nxx_plus_2NGHOSTS2
  have hA : 0 < A := by omega
  have hB : 0 < B := by omega
  have hC : 0 < C := by omega
  have h1 : 0 ≤ C * g := mul_nonneg hC.le hg0
  have h2 : k + C * g + 1 ≤ C * NUM_EVOL_GFS := by
    have : C * (g + 1) ≤ C * NUM_EVOL_GFS := mul_le_mul_of_nonneg_left (by omega) hC.le
    rw [mul_add, mul_one] at this
    omega
  have h3 : 0 ≤ B * (k + C * g) := mul_nonneg hB.le (by omega)
  have h4 : j + B * (k + C * g) + 1 ≤ B * (C * NUM_EVOL_GFS) := by
    have : B * (k + C * g + 1) ≤ B * (C * NUM_EVOL_GFS) := mul_le_mul_of_nonneg_left h2 hB.le
    rw [mul_add, mul_one] at this
    omega
  have h5 : 0 ≤ A * (j + B * (k + C * g)) := mul_nonneg hA.le (by omega)
  have h6 : i + A * (j + B * (k + C * g)) + 1 ≤ A * (B * (C * NUM_EVOL_GFS)) := by
    have : A * (j + B * (k + C * g) + 1) ≤ A * (B * (C * NUM_EVOL_GFS)) :=
      mul_le_mul_of_nonneg_left h4 hA.le
    rw [mul_add, mul_one] at this
    omega
  constructor
  · omega
  · have e : NUM_EVOL_GFS * (A * B * C) = A * (B * (C * NUM_EVOL_GFS)) := by ring
    rw [e]
    omega

/-- Every intermediate value of the `IDX4S` expression at an in-range point is
non-negative and at most the offset itself: `int` arithmetic agrees with the integers as
long as the buffer size `NUM_EVOL_GFS * Nxx_plus_2NGHOSTS_tot` fits an `int`. -/
theorem IDX4S_intermediate_bounds {K : Type} (p : paramstruct K) (g i j k : Int)
    (hg : 0 ≤ g) (hi : 0 ≤ i ∧ i < p.Nxx_plus_2NGHOSTS0)
    (hj : 0 ≤ j ∧ j < p.Nxx_plus_2NGHOSTS1) (hk : 0 ≤ k ∧ k < p.Nxx_plus_2NGHOSTS2) :
    (0 ≤ p.Nxx_plus_2NGHOSTS2 * g ∧ p.Nxx_plus_2NGHOSTS2 * g ≤ IDX4S p g i j k) ∧
    (0 ≤ k + p.Nxx_plus_2NGHOSTS2 * g ∧ k + p.Nxx_plus_2NGHOSTS2 * g ≤ IDX4S p g i j k) ∧
    (0 ≤ p.Nxx_plus_2NGHOSTS1 * (k + p.Nxx_plus_2NGHOSTS2 * g) ∧
      p.Nxx_plus_2NGHOSTS1 * (k + p.Nxx_plus_2NGHOSTS2 * g) ≤ IDX4S p g i j k) ∧
    (0 ≤ j + p.Nxx_plus_2NGHOSTS1 * (k + p.Nxx_plus_2NGHOSTS2 * g) ∧
      j + p.Nxx_plus_2NGHOSTS1 * (k + p.Nxx_plus_2NGHOSTS2 * g) ≤ IDX4S p g i j k) ∧
    (0 ≤ p.Nxx_plus_2NGHOSTS0 * (j + p.Nxx_plus_2NGHOSTS1 * (k + p.Nxx_plus_2NGHOSTS2 * g)) ∧
      p.Nxx_plus_2NGHOSTS0 * (j + p.Nxx_plus_2NGHOSTS1 * (k + p.Nxx_plus_2NGHOSTS2 * g))
        ≤ IDX4S p g i j k) := by
  unfold IDX4S
  obtain ⟨hi0, hi1⟩ := hi
  obtain ⟨hj0, hj1⟩ := hj
  obtain ⟨hk0, hk1⟩ := hk
  set A := p.Nxx_plus_2NGHOSTS0
  set B := p.Nxx_plus_2NGHOSTS1
  set C := p.Nxx_plus_2NGHOSTS2
  have h1 : 0 ≤ C * g := mul_nonneg (by omega) hg
  have h2 : 0 ≤ k + C * g := by omega
  have h3 : 1 * (k + C * g) ≤ B * (k + C * g) := mul_le_mul_of_nonneg_right (by omega) h2
  have h4 : 0 ≤ j + B * (k + C * g) := by omega
  have h5 : 1 * (j + B * (k + C * g)) ≤ A * (j + B * (k + C * g)) :=
    mul_le_mul_of_nonneg_right (by omega) h4
  refine ⟨⟨h1, ?_⟩, ⟨h2, ?_⟩, ⟨?_, ?_⟩, ⟨h4, ?_⟩, ⟨?_, ?_⟩⟩ <;> omega

/-- Splitting the offset of an in-range point gives the point back. -/
theorem IDX4S_decode {K : Type} (p : paramstruct K) (g i j k : Int)
    (hi : 0 ≤ i ∧ i < p.Nxx_plus_2NGHOSTS0) (hj : 0 ≤ j ∧ j < p.Nxx_plus_2NGHOSTS1)
    (hk : 0 ≤ k ∧ k < p.Nxx_plus_2NGHOSTS2) :
    IDX4S p g i j k % p.Nxx_plus_2NGHOSTS0 = i ∧
    (IDX4S p g i j k / p.Nxx_plus_2NGHOSTS0) % p.Nxx_plus_2NGHOSTS1 = j ∧
    (IDX4S p g i j k / p.Nxx_plus_2NGHOSTS0 / p.Nxx_plus_2NGHOSTS1) % p.Nxx_plus_2NGHOSTS2 = k ∧
    IDX4S p g i j k / p.Nxx_plus_2NGHOSTS0 / p.Nxx_plus_2NGHOSTS1 / p.Nxx_plus_2NGHOSTS2 = g := by
  unfold IDX4S
  obtain ⟨hi0, hi1⟩ := hi
  obtain ⟨hj0, hj1⟩ := hj
  obtain ⟨hk0, hk1⟩ := hk
  set A := p.Nxx_plus_2NGHOSTS0
  set B := p.Nxx_plus_2NGHOSTS1
  set C := p.Nxx_plus_2NGHOSTS2
  have hA : A ≠ 0 := by omega
  have hB : B ≠ 0 := by omega
  have hC : C ≠ 0 := by omega
  have d0 : (i + A * (j + B * (k + C * g))) / A = j + B * (k + C * g) := by
    rw [Int.add_mul_ediv_left _ _ hA, Int.ediv_eq_zero_of_lt hi0 hi1, zero_add]
  have d1 : (j + B * (k + C * g)) / B = k + C * g := by
    rw [Int.add_mul_ediv_left _ _ hB, Int.ediv_eq_zero_of_lt hj0 hj1, zero_add]
  have d2 : (k + C * g) / C = g := by
    rw [Int.add_mul_ediv_left _ _ hC, Int.ediv_eq_zero_of_lt hk0 hk1, zero_add]
  refine ⟨?_, ?_, ?_, ?_⟩
  · rw [Int.add_mul_emod_self_left]; exact Int.emod_eq_of_lt hi0 hi1
  · rw [d0, Int.add_mul_emod_self_left]; exact Int.emod_eq_of_lt hj0 hj1
  · rw [d0, d1, Int.add_mul_emod_self_left]; exact Int.emod_eq_of_lt hk0 hk1
  · rw [d0, d1, d2]

/-- A batch of `W` lanes starting at an interior point stays inside the `UUGF` block of the
buffer as long as it ends within one further row. -/
theorem batch_offset_bounds {K : Type} (p : paramstruct K) (hp : gridConsistent p)
    (W i0 i1 i2 : Int) (hW : 0 ≤ W)
    (h0 : NGHOSTS ≤ i0 ∧ i0 + W ≤ 2 * p.Nxx_plus_2NGHOSTS0)
    (h1 : NGHOSTS ≤ i1 ∧ i1 < NGHOSTS + p.Nxx1) (h2 : NGHOSTS ≤ i2 ∧ i2 < NGHOSTS + p.Nxx2) :
    0 ≤ IDX4S p UUGF i0 i1 i2 ∧ IDX4S p UUGF i0 i1 i2 + W ≤ Nxx_plus_2NGHOSTS_tot p := by
  obtain ⟨hA, hB, hC⟩ := hp
  unfold IDX4S Nxx_plus_2NGHOSTS_tot UUGF
  have hG : NGHOSTS = 2 := rfl
  rw [hG] at hA hB hC h0 h1 h2
  set A := p.Nxx_plus_2NGHOSTS0
  set B := p.Nxx_plus_2NGHOSTS1
  set C := p.Nxx_plus_2NGHOSTS2
  have hA0 : 0 < A := by omega
  have hB0 : 0 < B := by omega
  have hC0 : 0 < C := by omega
  have hk : B * i2 ≤ B * (C - 3) := mul_le_mul_of_nonneg_left (by omega) hB0.le
  have hk0 : 0 ≤ B * i2 := mul_nonneg hB0.le (by omega)
  have hj : A * (i1 + B * i2) ≤ A * ((B - 3) + B * (C - 3)) :=
    mul_le_mul_of_nonneg_left (by omega) hA0.le
  have hj0 : 0 ≤ A * (i1 + B * i2) := mul_nonneg hA0.le (by omega)
  have hAB : 0 ≤ A * B := mul_nonneg hA0.le hB0.le
  have e : A * ((B - 3) + B * (C - 3)) = A * B * C - 2 * (A * B) - 3 * A := by ring
  rw [e] at hj
  simp only [mul_zero, add_zero]
  constructor
  · omega
  · omega

/-! ## Single-point values depend on the flat offset only -/

theorem rhs_point_UU_flat {K : Type} [Field K] {n : Nat} (p : paramstruct K)
    (in_gfs : Fin n → K) (i j k : Int) :
    rhs_point_UU p in_gfs (IDX4S p UUGF i j k) 0 0 = rhs_point_UU p in_gfs i j k := by
  unfold rhs_point_UU
  congr 1
  unfold IDX4S UUGF VVGF; ring

theorem rhs_point_VV_flat {K : Type} [Field K] {n : Nat} (p : paramstruct K)
    (in_gfs : Fin n → K) (i j k : Int) :
    rhs_point_VV p in_gfs (IDX4S p UUGF i j k) 0 0 = rhs_point_VV p in_gfs i j k := by
  unfold rhs_point_VV
  have e0 : IDX4S p UUGF (IDX4S p UUGF i j k) 0 0 = IDX4S p UUGF i j k := by
    unfold IDX4S UUGF; ring
  have e1 : IDX4S p UUGF (IDX4S p UUGF i j k + 1) 0 0 = IDX4S p UUGF (i + 1) j k := by
    unfold IDX4S UUGF; ring
  have e2 : IDX4S p UUGF (IDX4S p UUGF i j k + 2) 0 0 = IDX4S p UUGF (i + 2) j k := by
    unfold IDX4S UUGF; ring
  have e3 : IDX4S p UUGF (IDX4S p UUGF i j k - 1) 0 0 = IDX4S p UUGF (i - 1) j k := by
    unfold IDX4S UUGF; ring
  have e4 : IDX4S p UUGF (IDX4S p UUGF i j k - 2) 0 0 = IDX4S p UUGF (i - 2) j k := by
    unfold IDX4S UUGF; ring
  have f1 : IDX4S p UUGF (IDX4S p UUGF i j k) (0 + 1) 0 = IDX4S p UUGF i (j + 1) k := by
    unfold IDX4S UUGF; ring
  have f2 : IDX4S p UUGF (IDX4S p UUGF i j k) (0 + 2) 0 = IDX4S p UUGF i (j + 2) k := by
    unfold IDX4S UUGF; ring
  have f3 : IDX4S p UUGF (IDX4S p UUGF i j k) (0 - 1) 0 = IDX4S p UUGF i (j - 1) k := by
    unfold IDX4S UUGF; ring
  have f4 : IDX4S p UUGF (IDX4S p UUGF i j k) (0 - 2) 0 = IDX4S p UUGF i (j - 2) k := by
    unfold IDX4S UUGF; ring
  have g1 : IDX4S p UUGF (IDX4S p UUGF i j k) 0 (0 + 1) = IDX4S p UUGF i j (k + 1) := by
    unfold IDX4S UUGF; ring
  have g2 : IDX4S p UUGF (IDX4S p UUGF i j k) 0 (0 + 2) = IDX4S p UUGF i j (k + 2) := by
    unfold IDX4S UUGF; ring
  have g3 : IDX4S p UUGF (IDX4S p UUGF i j k) 0 (0 - 1) = IDX4S p UUGF i j (k - 1) := by
    unfold IDX4S UUGF; ring
  have g4 : IDX4S p UUGF (IDX4S p UUGF i j k) 0 (0 - 2) = IDX4S p UUGF i j (k - 2) := by
    unfold IDX4S UUGF; ring
  rw [e0, e1, e2, e3, e4, f1, f2, f3, f4, g1, g2, g3, g4]

theorem rhs_expected_UU {K : Type} [Field K] {n : Nat} (p : paramstruct K)
    (in_gfs : Fin n → K) (i j k : Int)
    (h : IDX4S p UUGF i j k < Nxx_plus_2NGHOSTS_tot p) :
    rhs_expected p in_gfs (IDX4S p UUGF i j k) = rhs_point_UU p in_gfs i j k := by
  unfold rhs_expected
  rw [if_pos h, rhs_point_UU_flat]

theorem rhs_expected_VV {K : Type} [Field K] {n : Nat} (p : paramstruct K)
    (in_gfs : Fin n → K) (i j k : Int) (h : 0 ≤ IDX4S p UUGF i j k) :
    rhs_expected p in_gfs (IDX4S p VVGF i j k) = rhs_point_VV p in_gfs i j k := by
  unfold rhs_expected
  rw [IDX4S_VV, if_neg (by omega), add_sub_cancel_right, rhs_point_VV_flat]

/-! ## The loop body of `rhs_eval` -/

theorem WriteSIMD_congr {K : Type} {n W : Nat} {a a' : Fin n → K} {idx : Int}
    {v v' : REAL_SIMD_ARRAY K W} (ha : a = a') (hv : v = v') :
    WriteSIMD a idx v = WriteSIMD a' idx v' := by
  subst ha hv; rfl

/-- The loop body is two SIMD stores whose lanes are the single-point values at
`i0, i0+1, ..., i0+SIMD_width-1`. -/
theorem rhs_eval_body_eq {K : Type} [Field K] {n : Nat} (W : Nat) (p : paramstruct K)
    (in_gfs : Fin n → K) (i0 i1 i2 : Int) (rhs_gfs : Fin n → K) :
    rhs_eval_body W p in_gfs i0 i1 i2 rhs_gfs =
      WriteSIMD (WriteSIMD rhs_gfs (IDX4S p UUGF i0 i1 i2)
          (fun l : Fin W => rhs_point_UU p in_gfs (i0 + (l.val : Int)) i1 i2))
        (IDX4S p VVGF i0 i1 i2)
        (fun l : Fin W => rhs_point_VV p in_gfs (i0 + (l.val : Int)) i1 i2) := by
  unfold rhs_eval_body
  dsimp only
  refine WriteSIMD_congr (WriteSIMD_congr rfl ?_) ?_
  · funext l
    simp only [ReadSIMD, rhs_point_UU, IDX4S_lane]
  · funext l
    simp only [ReadSIMD, MulSIMD, FusedMulAddSIMD, ConstSIMD, rhs_point_VV, IDX4S_lane]
    have a1 : i0 + 1 + (l.val : Int) = i0 + (l.val : Int) + 1 := by ring
    have a2 : i0 + 2 + (l.val : Int) = i0 + (l.val : Int) + 2 := by ring
    have s1 : i0 - 1 + (l.val : Int) = i0 + (l.val : Int) - 1 := by ring
    have s2 : i0 - 2 + (l.val : Int) = i0 + (l.val : Int) - 2 := by ring
    rw [a1, a2, s1, s2]

open Classical in
/-- The loop body overwrites exactly the entries `bodyWrites` with the expected values,
provided the `W` lanes stay inside the `UUGF` block of the buffer. -/
theorem rhs_eval_body_override {K : Type} [Field K] {n : Nat} (W : Nat) (p : paramstruct K)
    (in_gfs : Fin n → K) (i0 i1 i2 : Int)
    (h : 0 ≤ IDX4S p UUGF i0 i1 i2 ∧ IDX4S p UUGF i0 i1 i2 + W ≤ Nxx_plus_2NGHOSTS_tot p)
    (s : Fin n → K) (f : Fin n) :
    rhs_eval_body W p in_gfs i0 i1 i2 s f =
      if bodyWrites W p i0 i1 i2 f then rhs_expected p in_gfs (f.val : Int) else s f := by
  rw [rhs_eval_body_eq]
  simp only [WriteSIMD]
  by_cases hV : IDX4S p VVGF i0 i1 i2 ≤ (f.val : Int) ∧
      (f.val : Int) < IDX4S p VVGF i0 i1 i2 + W
  · rw [dif_pos hV]
    have hl : (((f.val : Int) - IDX4S p VVGF i0 i1 i2).toNat : Int)
        = (f.val : Int) - IDX4S p VVGF i0 i1 i2 := Int.toNat_of_nonneg (by omega)
    have hf : (f.val : Int)
        = IDX4S p VVGF (i0 + ((f.val : Int) - IDX4S p VVGF i0 i1 i2)) i1 i2 := by
      rw [← IDX4S_lane]; ring
    have hw : bodyWrites W p i0 i1 i2 f :=
      ⟨(f.val : Int) - IDX4S p VVGF i0 i1 i2, by omega, by omega, Or.inr hf⟩
    rw [if_pos hw]
    rw [hl]
    conv_rhs => rw [hf]
    rw [rhs_expected_VV]
    rw [← IDX4S_lane]
    omega
  · rw [dif_neg hV]
    by_cases hU : IDX4S p UUGF i0 i1 i2 ≤ (f.val : Int) ∧
        (f.val : Int) < IDX4S p UUGF i0 i1 i2 + W
    · rw [dif_pos hU]
      have hl : (((f.val : Int) - IDX4S p UUGF i0 i1 i2).toNat : Int)
          = (f.val : Int) - IDX4S p UUGF i0 i1 i2 := Int.toNat_of_nonneg (by omega)
      have hf : (f.val : Int)
          = IDX4S p UUGF (i0 + ((f.val : Int) - IDX4S p UUGF i0 i1 i2)) i1 i2 := by
        rw [← IDX4S_lane]; ring
      have hw : bodyWrites W p i0 i1 i2 f :=
        ⟨(f.val : Int) - IDX4S p UUGF i0 i1 i2, by omega, by omega, Or.inl hf⟩
      rw [if_pos hw]
      rw [hl]
      conv_rhs => rw [hf]
      rw [rhs_expected_UU]
      rw [← IDX4S_lane]
      omega
    · rw [dif_neg hU, if_neg]
      rintro ⟨l, hl0, hl1, hl | hl⟩
      · rw [← IDX4S_lane] at hl
        exact hU ⟨by omega, by omega⟩
      · rw [← IDX4S_lane] at hl
        exact hV ⟨by omega, by omega⟩

/-! ## The loop nest of `rhs_eval` -/

open Classical in
/-- As long as every batch stays inside the `UUGF` block, `rhs_eval` overwrites exactly the
entries some batch covers, with the expected values, and leaves every other entry of the
output buffer as it was. -/
theorem rhs_eval_apply_of_safe {K : Type} [Field K] {n : Nat} (W : Nat) (hW : 0 < W)
    (p : paramstruct K)
    (hsafe : ∀ i0 i1 i2 : Int, NGHOSTS ≤ i0 → i0 < NGHOSTS + p.Nxx0 →
      (W : Int) ∣ (i0 - NGHOSTS) → NGHOSTS ≤ i1 → i1 < NGHOSTS + p.Nxx1 →
      NGHOSTS ≤ i2 → i2 < NGHOSTS + p.Nxx2 →
      0 ≤ IDX4S p UUGF i0 i1 i2 ∧ IDX4S p UUGF i0 i1 i2 + W ≤ Nxx_plus_2NGHOSTS_tot p)
    (in_gfs rhs_gfs : Fin n → K) (f : Fin n) :
    rhs_eval W p in_gfs rhs_gfs f =
      if batchCovered W p f then rhs_expected p in_gfs (f.val : Int) else rhs_gfs f := by
  have hWi : (0 : Int) < (W : Int) := by exact_mod_cast hW
  unfold rhs_eval batchCovered
  have inner : ∀ i1 i2 : Int, (NGHOSTS ≤ i1 ∧ i1 < NGHOSTS + p.Nxx1) →
      (NGHOSTS ≤ i2 ∧ i2 < NGHOSTS + p.Nxx2) → ∀ (s : Fin n → K) (f : Fin n),
      forLoop NGHOSTS (NGHOSTS + p.Nxx0) (W : Int)
        (fun i0 rhs => rhs_eval_body W p in_gfs i0 i1 i2 rhs) s f =
      if (∃ i0, NGHOSTS ≤ i0 ∧ i0 < NGHOSTS + p.Nxx0 ∧ (W : Int) ∣ (i0 - NGHOSTS) ∧
          bodyWrites W p i0 i1 i2 f) then rhs_expected p in_gfs (f.val : Int) else s f := by
    intro i1 i2 h1 h2 s f
    refine forLoop_override (fun f => rhs_expected p in_gfs (f.val : Int))
      (fun i0 f => bodyWrites W p i0 i1 i2 f) _ _ _ hWi _ NGHOSTS le_rfl ?_ s f
    intro i0 a b c s f
    exact rhs_eval_body_override W p in_gfs i0 i1 i2
      (hsafe i0 i1 i2 a b c h1.1 h1.2 h2.1 h2.2) s f
  have middle : ∀ i2 : Int, (NGHOSTS ≤ i2 ∧ i2 < NGHOSTS + p.Nxx2) →
      ∀ (s : Fin n → K) (f : Fin n),
      forLoop NGHOSTS (NGHOSTS + p.Nxx1) 1 (fun i1 rhs =>
        forLoop NGHOSTS (NGHOSTS + p.Nxx0) (W : Int)
          (fun i0 rhs => rhs_eval_body W p in_gfs i0 i1 i2 rhs) rhs) s f =
      if (∃ i1, NGHOSTS ≤ i1 ∧ i1 < NGHOSTS + p.Nxx1 ∧ (1 : Int) ∣ (i1 - NGHOSTS) ∧
          ∃ i0, NGHOSTS ≤ i0 ∧ i0 < NGHOSTS + p.Nxx0 ∧ (W : Int) ∣ (i0 - NGHOSTS) ∧
            bodyWrites W p i0 i1 i2 f) then rhs_expected p in_gfs (f.val : Int) else s f := by
    intro i2 h2 s f
    refine forLoop_override (fun f => rhs_expected p in_gfs (f.val : Int))
      (fun i1 f => ∃ i0, NGHOSTS ≤ i0 ∧ i0 < NGHOSTS + p.Nxx0 ∧ (W : Int) ∣ (i0 - NGHOSTS) ∧
            bodyWrites W p i0 i1 i2 f) _ _ _ one_pos _ NGHOSTS le_rfl ?_ s f
    intro i1 a b _ s f
    exact inner i1 i2 ⟨a, b⟩ h2 s f
  exact forLoop_override (fun f : Fin n => rhs_expected p in_gfs (f.val : Int))
      (fun i2 f => ∃ i1, NGHOSTS ≤ i1 ∧ i1 < NGHOSTS + p.Nxx1 ∧ (1 : Int) ∣ (i1 - NGHOSTS) ∧
          ∃ i0, NGHOSTS ≤ i0 ∧ i0 < NGHOSTS + p.Nxx0 ∧ (W : Int) ∣ (i0 - NGHOSTS) ∧
            bodyWrites W p i0 i1 i2 f)
      (fun i2 rhs => forLoop NGHOSTS (NGHOSTS + p.Nxx1) 1 (fun i1 rhs =>
        forLoop NGHOSTS (NGHOSTS + p.Nxx0) (W : Int)
          (fun i0 rhs => rhs_eval_body W p in_gfs i0 i1 i2 rhs) rhs) rhs)
      (NGHOSTS + p.Nxx2) 1 one_pos _ NGHOSTS le_rfl
      (fun i2 a b _ s f => middle i2 ⟨a, b⟩ s f) rhs_gfs f

/-- A batch that starts on a multiple of `W` inside `[lo, lo+N)` ends inside it when
`W` divides `N`. -/
theorem batch_inside (W lo N i : Int) (hW : 0 < W) (hN : W ∣ N) (hi : W ∣ (i - lo))
    (h1 : i < lo + N) : i + W ≤ lo + N := by
  obtain ⟨a, ha⟩ := hi
  obtain ⟨b, hb⟩ := hN
  have hab : a < b := by
    by_contra hcon
    have : W * b ≤ W * a := mul_le_mul_of_nonneg_left (by omega) hW.le
    omega
  have : W * (a + 1) ≤ W * b := mul_le_mul_of_nonneg_left (by omega) hW.le
  rw [mul_add, mul_one] at this
  omega

/-- When the batch width divides the interior extent, the batches cover exactly the
interior points. -/
theorem batchCovered_iff_interior {K : Type} {n : Nat} (W : Nat) (hW : 0 < W)
    (p : paramstruct K) (hdiv : (W : Int) ∣ p.Nxx0) (f : Fin n) :
    batchCovered W p f ↔ interiorOffset p f := by
  have hWi : (0 : Int) < (W : Int) := by exact_mod_cast hW
  unfold batchCovered interiorOffset bodyWrites
  constructor
  · rintro ⟨i2, a2, b2, -, i1, a1, b1, -, i0, a0, b0, c0, l, l0, l1, hl⟩
    have := batch_inside (W : Int) NGHOSTS p.Nxx0 i0 hWi hdiv c0 b0
    rcases hl with hl | hl
    · exact ⟨UUGF, i0 + l, i1, i2, Or.inl rfl, ⟨by omega, by omega⟩, ⟨a1, b1⟩, ⟨a2, b2⟩, hl⟩
    · exact ⟨VVGF, i0 + l, i1, i2, Or.inr rfl, ⟨by omega, by omega⟩, ⟨a1, b1⟩, ⟨a2, b2⟩, hl⟩
  · rintro ⟨g, j0, i1, i2, hg, ⟨a0, b0⟩, ⟨a1, b1⟩, ⟨a2, b2⟩, hf⟩
    refine ⟨i2, a2, b2, one_dvd _, i1, a1, b1, one_dvd _,
      NGHOSTS + (W : Int) * ((j0 - NGHOSTS) / (W : Int)), ?_, ?_, ?_,
      (j0 - NGHOSTS) % (W : Int), Int.emod_nonneg _ hWi.ne', Int.emod_lt_of_pos _ hWi, ?_⟩
    · have := Int.ediv_add_emod (j0 - NGHOSTS) (W : Int)
      have := Int.emod_nonneg (j0 - NGHOSTS) hWi.ne'
      have := Int.emod_lt_of_pos (j0 - NGHOSTS) hWi
      have : 0 ≤ (j0 - NGHOSTS) / (W : Int) := Int.ediv_nonneg (by omega) hWi.le
      have := mul_nonneg hWi.le this
      omega
    · have := Int.ediv_add_emod (j0 - NGHOSTS) (W : Int)
      have := Int.emod_nonneg (j0 - NGHOSTS) hWi.ne'
      omega
    · exact ⟨(j0 - NGHOSTS) / (W : Int), by ring⟩
    · have e : NGHOSTS + (W : Int) * ((j0 - NGHOSTS) / (W : Int)) + (j0 - NGHOSTS) % (W : Int)
          = j0 := by
        have := Int.ediv_add_emod (j0 - NGHOSTS) (W : Int)
        omega
      rw [e]
      rcases hg with hg | hg
      · subst hg; exact Or.inl hf
      · subst hg; exact Or.inr hf

open Classical in
/-- When the batch width divides the interior extent along `i0` (in particular for the
scalar path `W = 1`), `rhs_eval` overwrites exactly the offsets of interior points with the
expected values and leaves every other entry of the output buffer as it was. -/
theorem rhs_eval_apply {K : Type} [Field K] {n : Nat} (W : Nat) (hW : 0 < W)
    (p : paramstruct K) (hp : gridConsistent p) (hdiv : (W : Int) ∣ p.Nxx0)
    (in_gfs rhs_gfs : Fin n → K) (f : Fin n) :
    rhs_eval W p in_gfs rhs_gfs f =
      if interiorOffset p f then rhs_expected p in_gfs (f.val : Int) else rhs_gfs f := by
  have hWi : (0 : Int) < (W : Int) := by exact_mod_cast hW
  have hG : NGHOSTS = 2 := rfl
  rw [rhs_eval_apply_of_safe W hW p ?_ in_gfs rhs_gfs f]
  · congr 1
    exact propext (batchCovered_iff_interior W hW p hdiv f)
  · intro i0 i1 i2 a0 b0 c0 a1 b1 a2 b2
    have := batch_inside (W : Int) NGHOSTS p.Nxx0 i0 hWi hdiv c0 b0
    have hA := hp.1
    exact batch_offset_bounds p hp W i0 i1 i2 hWi.le ⟨a0, by omega⟩ ⟨a1, b1⟩ ⟨a2, b2⟩

/-- Every interior point is covered by the batch it falls into, whatever the width. -/
theorem interior_batchCovered {K : Type} {n : Nat} (W : Nat) (hW : 0 < W)
    (p : paramstruct K) (f : Fin n) (h : interiorOffset p f) : batchCovered W p f := by
  have hWi : (0 : Int) < (W : Int) := by exact_mod_cast hW
  unfold batchCovered bodyWrites
  obtain ⟨g, j0, i1, i2, hg, ⟨a0, b0⟩, ⟨a1, b1⟩, ⟨a2, b2⟩, hf⟩ := h
  refine ⟨i2, a2, b2, one_dvd _, i1, a1, b1, one_dvd _,
    NGHOSTS + (W : Int) * ((j0 - NGHOSTS) / (W : Int)), ?_, ?_, ?_,
    (j0 - NGHOSTS) % (W : Int), Int.emod_nonneg _ hWi.ne', Int.emod_lt_of_pos _ hWi, ?_⟩
  · have : 0 ≤ (j0 - NGHOSTS) / (W : Int) := Int.ediv_nonneg (by omega) hWi.le
    have := mul_nonneg hWi.le this
    omega
  · have := Int.ediv_add_emod (j0 - NGHOSTS) (W : Int)
    have := Int.emod_nonneg (j0 - NGHOSTS) hWi.ne'
    omega
  · exact ⟨(j0 - NGHOSTS) / (W : Int), by ring⟩
  · have e : NGHOSTS + (W : Int) * ((j0 - NGHOSTS) / (W : Int)) + (j0 - NGHOSTS) % (W : Int)
        = j0 := by
      have := Int.ediv_add_emod (j0 - NGHOSTS) (W : Int)
      omega
    rw [e]
    rcases hg with hg | hg
    · subst hg; exact Or.inl hf
    · subst hg; exact Or.inr hf

open Classical in
/-- For a batch no wider than a row, `rhs_eval` overwrites exactly the entries its batches
cover, with the expected values. -/
theorem rhs_eval_apply_batch {K : Type} [Field K] {n : Nat} (W : Nat) (hW : 0 < W)
    (p : paramstruct K) (hp : gridConsistent p) (hrow : (W : Int) ≤ p.Nxx_plus_2NGHOSTS0)
    (in_gfs rhs_gfs : Fin n → K) (f : Fin n) :
    rhs_eval W p in_gfs rhs_gfs f =
      if batchCovered W p f then rhs_expected p in_gfs (f.val : Int) else rhs_gfs f := by
  have hWi : (0 : Int) < (W : Int) := by exact_mod_cast hW
  have hG : NGHOSTS = 2 := rfl
  apply rhs_eval_apply_of_safe W hW p
  intro i0 i1 i2 a0 b0 c0 a1 b1 a2 b2
  have hA := hp.1
  exact batch_offset_bounds p hp W i0 i1 i2 hWi.le ⟨a0, by omega⟩ ⟨a1, b1⟩ ⟨a2, b2⟩

theorem loadREAL_fin {K : Type} [Zero K] {n : Nat} (a : Fin n → K) (f : Fin n) :
    loadREAL a (f.val : Int) = a f := by
  unfold loadREAL
  rw [dif_pos ⟨by omega, by omega⟩]
  congr 1

theorem loadREAL_in_range {K : Type} [Zero K] {n : Nat} (i : Int) (h : 0 ≤ i ∧ i < n) :
    ∃ f : Fin n, (f.val : Int) = i ∧ ∀ a : Fin n → K, loadREAL a i = a f := by
  refine ⟨⟨i.toNat, by omega⟩, by simp; omega, ?_⟩
  intro a
  unfold loadREAL
  rw [dif_pos h]

/-- The scalar path at an interior point: the entry of either field holds the single-point
value. -/
theorem rhs_eval_interior {K : Type} [Field K] {n : Nat} (p : paramstruct K)
    (hp : gridConsistent p) (hn : (n : Int) = NUM_EVOL_GFS * Nxx_plus_2NGHOSTS_tot p)
    (in_gfs rhs_gfs : Fin n → K) (i0 i1 i2 : Int)
    (h0 : NGHOSTS ≤ i0 ∧ i0 < NGHOSTS + p.Nxx0) (h1 : NGHOSTS ≤ i1 ∧ i1 < NGHOSTS + p.Nxx1)
    (h2 : NGHOSTS ≤ i2 ∧ i2 < NGHOSTS + p.Nxx2) :
    loadREAL (rhs_eval 1 p in_gfs rhs_gfs) (IDX4S p UUGF i0 i1 i2)
      = rhs_point_UU p in_gfs i0 i1 i2 ∧
    loadREAL (rhs_eval 1 p in_gfs rhs_gfs) (IDX4S p VVGF i0 i1 i2)
      = rhs_point_VV p in_gfs i0 i1 i2 := by
  have hG : NGHOSTS = 2 := rfl
  obtain ⟨hA, hB, hC⟩ := hp
  have b0 : 0 ≤ i0 ∧ i0 < p.Nxx_plus_2NGHOSTS0 := ⟨by omega, by omega⟩
  have b1 : 0 ≤ i1 ∧ i1 < p.Nxx_plus_2NGHOSTS1 := ⟨by omega, by omega⟩
  have b2 : 0 ≤ i2 ∧ i2 < p.Nxx_plus_2NGHOSTS2 := ⟨by omega, by omega⟩
  have hU := IDX4S_bounds p UUGF i0 i1 i2 ⟨by decide, by decide⟩ b0 b1 b2
  have hV := IDX4S_bounds p VVGF i0 i1 i2 ⟨by decide, by decide⟩ b0 b1 b2
  have hVV := IDX4S_VV p i0 i1 i2
  have hNE : NUM_EVOL_GFS = 2 := rfl
  rw [hNE] at hU hV hn
  constructor
  · obtain ⟨f, hf, hload⟩ := loadREAL_in_range (K := K) (n := n) (IDX4S p UUGF i0 i1 i2)
      ⟨hU.1, by omega⟩
    rw [hload, rhs_eval_apply 1 one_pos p ⟨hA, hB, hC⟩ (one_dvd _) in_gfs rhs_gfs f]
    rw [if_pos ⟨UUGF, i0, i1, i2, Or.inl rfl, h0, h1, h2, hf⟩, hf]
    exact rhs_expected_UU p in_gfs i0 i1 i2 (by omega)
  · obtain ⟨f, hf, hload⟩ := loadREAL_in_range (K := K) (n := n) (IDX4S p VVGF i0 i1 i2)
      ⟨hV.1, by omega⟩
    rw [hload, rhs_eval_apply 1 one_pos p ⟨hA, hB, hC⟩ (one_dvd _) in_gfs rhs_gfs f]
    rw [if_pos ⟨VVGF, i0, i1, i2, Or.inr rfl, h0, h1, h2, hf⟩, hf]
    exact rhs_expected_VV p in_gfs i0 i1 i2 hU.1

/-- The code's evaluation order of the stencils agrees with the spec's formula. -/
theorem rhs_point_VV_eq_Lap {K : Type} [Field K] {n : Nat} (p : paramstruct K)
    (in_gfs : Fin n → K) (i0 i1 i2 : Int) :
    rhs_point_VV p in_gfs i0 i1 i2 = p.wavespeed ^ 2 *
      (Lap_axis p.invdx0 (loadREAL in_gfs (IDX4S p UUGF i0 i1 i2))
          (loadREAL in_gfs (IDX4S p UUGF (i0+1) i1 i2))
          (loadREAL in_gfs (IDX4S p UUGF (i0-1) i1 i2))
          (loadREAL in_gfs (IDX4S p UUGF (i0+2) i1 i2))
          (loadREAL in_gfs (IDX4S p UUGF (i0-2) i1 i2))
        + Lap_axis p.invdx1 (loadREAL in_gfs (IDX4S p UUGF i0 i1 i2))
          (loadREAL in_gfs (IDX4S p UUGF i0 (i1+1) i2))
          (loadREAL in_gfs (IDX4S p UUGF i0 (i1-1) i2))
          (loadREAL in_gfs (IDX4S p UUGF i0 (i1+2) i2))
          (loadREAL in_gfs (IDX4S p UUGF i0 (i1-2) i2))
        + Lap_axis p.invdx2 (loadREAL in_gfs (IDX4S p UUGF i0 i1 i2))
          (loadREAL in_gfs (IDX4S p UUGF i0 i1 (i2+1)))
          (loadREAL in_gfs (IDX4S p UUGF i0 i1 (i2-1)))
          (loadREAL in_gfs (IDX4S p UUGF i0 i1 (i2+2)))
          (loadREAL in_gfs (IDX4S p UUGF i0 i1 (i2-2)))) := by
  unfold rhs_point_VV Lap_axis
  ring

/-! ## C1: what `rhs_eval` writes at interior points -/

/-- C1: with batch width 1 and in exact arithmetic, at every interior point
`NGHOSTS ≤ i < NGHOSTS+N` on each axis `rhs_eval` writes `rhs[UU] = in[VV]` and
`rhs[VV] = wavespeed^2 * (Lap_x + Lap_y + Lap_z)` with the spec's five-point `Lap_axis`
taken along each axis of the UU field. -/
theorem C1_rhs_eval_interior {K : Type} [Field K] {n : Nat} (p : paramstruct K)
    (hp : gridConsistent p) (hn : (n : Int) = NUM_EVOL_GFS * Nxx_plus_2NGHOSTS_tot p)
    (in_gfs rhs_gfs : Fin n → K) (i0 i1 i2 : Int)
    (h0 : NGHOSTS ≤ i0 ∧ i0 < NGHOSTS + p.Nxx0) (h1 : NGHOSTS ≤ i1 ∧ i1 < NGHOSTS + p.Nxx1)
    (h2 : NGHOSTS ≤ i2 ∧ i2 < NGHOSTS + p.Nxx2) :
    loadREAL (rhs_eval 1 p in_gfs rhs_gfs) (IDX4S p UUGF i0 i1 i2)
      = loadREAL in_gfs (IDX4S p VVGF i0 i1 i2) ∧
    loadREAL (rhs_eval 1 p in_gfs rhs_gfs) (IDX4S p VVGF i0 i1 i2)
      = p.wavespeed ^ 2 *
      (Lap_axis p.invdx0 (loadREAL in_gfs (IDX4S p UUGF i0 i1 i2))
          (loadREAL in_gfs (IDX4S p UUGF (i0+1) i1 i2))
          (loadREAL in_gfs (IDX4S p UUGF (i0-1) i1 i2))
          (loadREAL in_gfs (IDX4S p UUGF (i0+2) i1 i2))
          (loadREAL in_gfs (IDX4S p UUGF (i0-2) i1 i2))
        + Lap_axis p.invdx1 (loadREAL in_gfs (IDX4S p UUGF i0 i1 i2))
          (loadREAL in_gfs (IDX4S p UUGF i0 (i1+1) i2))
          (loadREAL in_gfs (IDX4S p UUGF i0 (i1-1) i2))
          (loadREAL in_gfs (IDX4S p UUGF i0 (i1+2) i2))
          (loadREAL in_gfs (IDX4S p UUGF i0 (i1-2) i2))
        + Lap_axis p.invdx2 (loadREAL in_gfs (IDX4S p UUGF i0 i1 i2))
          (loadREAL in_gfs (IDX4S p UUGF i0 i1 (i2+1)))
          (loadREAL in_gfs (IDX4S p UUGF i0 i1 (i2-1)))
          (loadREAL in_gfs (IDX4S p UUGF i0 i1 (i2+2)))
          (loadREAL in_gfs (IDX4S p UUGF i0 i1 (i2-2)))) := by
  obtain ⟨hU, hV⟩ := rhs_eval_interior p hp hn in_gfs rhs_gfs i0 i1 i2 h0 h1 h2
  exact ⟨hU, by rw [hV, rhs_point_VV_eq_Lap]⟩

/-- C1 at the resolution `N = 2`, input `in_gfs[f] = f`, interior point `(2,2,2)`. -/
theorem C1_rhs_eval_interior_witness :
    loadREAL (rhs_eval 1 (free_parameters 2) (fun f : Fin 432 => (f.val : ℚ)) (fun _ => 0))
        (IDX4S (free_parameters (K := ℚ) 2) UUGF 2 2 2)
      = loadREAL (fun f : Fin 432 => (f.val : ℚ)) (IDX4S (free_parameters (K := ℚ) 2) VVGF 2 2 2) :=
  (C1_rhs_eval_interior (free_parameters (K := ℚ) 2) ⟨rfl, rfl, rfl⟩ (by decide)
    (fun f : Fin 432 => (f.val : ℚ)) (fun _ => 0) 2 2 2
    (by decide) (by decide) (by decide)).1

/-! ## C7: what `rhs_eval` overwrites -/

/-- C7 as stated fails: at `N = 2` two calls with the same (zero) input and prior output
contents `0` and `1` leave different output buffers (they differ at the ghost entry 0). -/
theorem C7_counterexample :
    rhs_eval 1 (free_parameters (K := ℚ) 2) (fun _ : Fin 432 => 0) (fun _ => 0)
      ≠ rhs_eval 1 (free_parameters (K := ℚ) 2) (fun _ : Fin 432 => 0) (fun _ => 1) := by
  intro h
  have h0 := congrFun h ⟨0, by decide⟩
  have hni : ¬ interiorOffset (free_parameters (K := ℚ) 2) (⟨0, by decide⟩ : Fin 432) := by
    rintro ⟨g, i0, i1, i2, hg, ⟨a0, b0⟩, ⟨a1, b1⟩, ⟨a2, b2⟩, hf⟩
    simp only [IDX4S, free_parameters, NGHOSTS, UUGF, VVGF] at hg a0 a1 a2 hf
    rcases hg with hg | hg <;> subst hg <;> simp at hf <;> omega
  rw [rhs_eval_apply 1 one_pos _ ⟨rfl, rfl, rfl⟩ (one_dvd _),
    rhs_eval_apply 1 one_pos _ ⟨rfl, rfl, rfl⟩ (one_dvd _), if_neg hni, if_neg hni] at h0
  exact zero_ne_one h0

/-! ## C8: batched against scalar evaluation -/

/-- C8 as stated fails: at `N = 3` with batches of `W = 2` the second batch of each row
covers `i0 = 4, 5`, and `i0 = 5` is a ghost point; with input `1` everywhere and prior
output `0` the batched path stores `1` at `rhs_gfs[IDX4S(UUGF,5,2,2)]` (offset 117), which
the scalar path leaves at `0`. -/
theorem C8_counterexample :
    rhs_eval 2 (free_parameters (K := ℚ) 3) (fun _ : Fin 686 => 1) (fun _ => 0)
      ≠ rhs_eval 1 (free_parameters (K := ℚ) 3) (fun _ : Fin 686 => 1) (fun _ => 0) := by
  intro h
  have h0 := congrFun h ⟨117, by decide⟩
  have hni : ¬ interiorOffset (free_parameters (K := ℚ) 3) (⟨117, by decide⟩ : Fin 686) := by
    rintro ⟨g, i0, i1, i2, hg, ⟨a0, b0⟩, ⟨a1, b1⟩, ⟨a2, b2⟩, hf⟩
    simp only [IDX4S, free_parameters, NGHOSTS, UUGF, VVGF] at hg a0 b0 a1 b1 a2 b2 hf
    rcases hg with hg | hg <;> subst hg <;> simp at hf <;> omega
  have hcov : batchCovered 2 (free_parameters (K := ℚ) 3) (⟨117, by decide⟩ : Fin 686) :=
    ⟨2, by decide, by decide, one_dvd _, 2, by decide, by decide, one_dvd _,
      4, by decide, by decide, ⟨1, by decide⟩, 1, by decide, by decide, Or.inl (by decide)⟩
  rw [rhs_eval_apply_batch 2 (by decide) _ ⟨rfl, rfl, rfl⟩ (by decide),
    rhs_eval_apply 1 one_pos _ ⟨rfl, rfl, rfl⟩ (one_dvd _), if_neg hni, if_pos hcov] at h0
  have hv : rhs_expected (free_parameters (K := ℚ) 3) (fun _ : Fin 686 => (1 : ℚ))
      (((⟨117, by decide⟩ : Fin 686).val : Nat) : Int) = 1 := by
    unfold rhs_expected
    rw [if_pos (by decide)]
    unfold rhs_point_UU loadREAL
    rw [dif_pos (by decide)]
  rw [hv] at h0
  exact one_ne_zero h0

/-- C8 (amended): for every batch width `W ≥ 1` that divides the interior extent along `i0`,
the batched `rhs_eval` leaves the same output buffer as the scalar path `W = 1`; and for
every batch width no wider than a row, dividing or not, the two output buffers agree on
every interior entry. -/
theorem C8_batched_equals_scalar {K : Type} [Field K] {n : Nat} (W : Nat) (hW : 1 ≤ W)
    (p : paramstruct K) (hp : gridConsistent p) (in_gfs rhs_gfs : Fin n → K) :
    ((W : Int) ∣ p.Nxx0 → rhs_eval W p in_gfs rhs_gfs = rhs_eval 1 p in_gfs rhs_gfs) ∧
    ((W : Int) ≤ p.Nxx_plus_2NGHOSTS0 → ∀ f : Fin n, interiorOffset p f →
      rhs_eval W p in_gfs rhs_gfs f = rhs_eval 1 p in_gfs rhs_gfs f) := by
  constructor
  · intro hdiv
    funext f
    rw [rhs_eval_apply W hW p hp hdiv, rhs_eval_apply 1 one_pos p hp (one_dvd _)]
  · intro hrow f hf
    rw [rhs_eval_apply_batch W hW p hp hrow, rhs_eval_apply 1 one_pos p hp (one_dvd _),
      if_pos hf, if_pos (interior_batchCovered W hW p f hf)]

/-- C8 (amended) at `N = 2`, `W = 2`. -/
theorem C8_batched_equals_scalar_witness :
    rhs_eval 2 (free_parameters (K := ℚ) 2) (fun f : Fin 432 => (f.val : ℚ)) (fun _ => 0)
      = rhs_eval 1 (free_parameters (K := ℚ) 2) (fun f : Fin 432 => (f.val : ℚ)) (fun _ => 0) :=
  (C8_batched_equals_scalar 2 (by decide) (free_parameters (K := ℚ) 2) ⟨rfl, rfl, rfl⟩
    (fun f : Fin 432 => (f.val : ℚ)) (fun _ => 0)).1 ⟨1, by decide⟩

/-! ## Loops that sweep a buffer entry by entry -/

/-- Invariant rule for a loop with unit stride. -/
theorem forLoop_invariant {σ : Type} (P : Int → σ → Prop) (body : Int → σ → σ) (hi : Int)
    (m : Nat) : ∀ (lo : Int) (s : σ), (hi - lo).toNat ≤ m → lo ≤ hi → P lo s →
    (∀ i s, lo ≤ i → i < hi → P i s → P (i + 1) (body i s)) →
    P hi (forLoop lo hi 1 body s) := by
  induction m with
  | zero =>
    intro lo s hm hle h0 _
    have : lo = hi := by omega
    subst this
    rw [forLoop_done _ _ _ _ _ (fun h => lt_irrefl _ h.1)]
    exact h0
  | succ m ih =>
    intro lo s hm hle h0 hstep
    by_cases hlt : lo < hi
    · rw [forLoop_next _ _ _ _ _ hlt one_pos]
      exact ih (lo + 1) (body lo s) (by omega) (by omega) (hstep lo s le_rfl hlt h0)
        (fun i s a b c => hstep i s (by omega) b c)
    · have : lo = hi := by omega
      subst this
      rw [forLoop_done _ _ _ _ _ (fun h => lt_irrefl _ h.1)]
      exact h0

/-- A loop over `0 ≤ i < n` whose body at `i` replaces the view of the state at offset `i`
by `G` of it, and leaves the view at the other offsets alone, applies `G` at every offset. -/
theorem forLoop_pointwise {σ C : Type} {n : Nat} (col : σ → Fin n → C) (G : C → C)
    (body : Int → σ → σ)
    (hbody : ∀ (i : Int) (s : σ) (f : Fin n),
      col (body i s) f = if (f.val : Int) = i then G (col s f) else col s f)
    (s : σ) (f : Fin n) : col (forLoop 0 (n : Int) 1 body s) f = G (col s f) := by
  have key := forLoop_invariant
    (fun i s' => ∀ f : Fin n, col s' f = if (f.val : Int) < i then G (col s f) else col s f)
    body (n : Int) n 0 s (by omega) (by omega)
    (by intro f; rw [if_neg (by omega)])
    (by
      intro i s' _ _ hP f
      rw [hbody i s' f, hP f]
      by_cases h1 : (f.val : Int) = i
      · rw [if_pos h1, if_neg (by omega), if_pos (by omega)]
      · rw [if_neg h1]
        by_cases h2 : (f.val : Int) < i
        · rw [if_pos h2, if_pos (by omega)]
        · rw [if_neg h2, if_neg (by omega)])
  rw [key f, if_pos (by omega)]

theorem MoLState.ext_col {K : Type} {n : Nat} (s t : MoLState K n)
    (h : ∀ f, s.col f = t.col f) : s = t := by
  cases s; cases t
  simp only [MoLState.col, Prod.mk.injEq] at h
  simp only [MoLState.mk.injEq]
  exact ⟨funext fun f => (h f).1, funext fun f => (h f).2.1,
    funext fun f => (h f).2.2.1, funext fun f => (h f).2.2.2⟩

/-- `LOOP_ALL_GFS_GPS` over buffers of exactly `Nxx_plus_2NGHOSTS_tot*NUM_EVOL_GFS` reals
with a body that acts on the entries at offset `i` only. -/
theorem LOOP_ALL_GFS_GPS_pointwise {K : Type} {n : Nat} (p : paramstruct K)
    (hn : (n : Int) = NUM_EVOL_GFS * Nxx_plus_2NGHOSTS_tot p)
    (G : K × K × K × K → K × K × K × K) (body : Int → MoLState K n → MoLState K n)
    (hbody : ∀ (i : Int) (s : MoLState K n) (f : Fin n),
      (body i s).col f = if (f.val : Int) = i then G (s.col f) else s.col f)
    (s : MoLState K n) : LOOP_ALL_GFS_GPS p body s = s.mapCols G := by
  unfold LOOP_ALL_GFS_GPS
  rw [mul_comm, ← hn]
  apply MoLState.ext_col
  intro f
  rw [forLoop_pointwise MoLState.col G body hbody s f]
  rfl

/-! ## The four sweeps of `RK_MoL.h` -/

theorem RK_MoL_sweep1 {K : Type} [Field K] {n : Nat} (p : paramstruct K)
    (hn : (n : Int) = NUM_EVOL_GFS * Nxx_plus_2NGHOSTS_tot p) (dt : K) (s : MoLState K n) :
    LOOP_ALL_GFS_GPS p (fun i (s : MoLState K n) =>
      let s := { s with
        y_nplus1_running_total_gfs :=
          storeREAL s.y_nplus1_running_total_gfs i (loadREAL s.k_odd_gfs i * dt * (1 / 6)) }
      { s with
        k_odd_gfs :=
          storeREAL s.k_odd_gfs i
            (loadREAL s.y_n_gfs i + loadREAL s.k_odd_gfs i * dt * (1 / 2)) }) s
    = s.mapCols (fun c => (c.1, c.2.2.1 * dt * (1 / 6), c.1 + c.2.2.1 * dt * (1 / 2), c.2.2.2)) := by
  apply LOOP_ALL_GFS_GPS_pointwise p hn
  intro i s f
  simp only [MoLState.col, storeREAL]
  by_cases h : (f.val : Int) = i
  · subst h
    simp only [if_true, loadREAL_fin]
  · simp only [if_neg h]

theorem RK_MoL_sweep2 {K : Type} [Field K] {n : Nat} (p : paramstruct K)
    (hn : (n : Int) = NUM_EVOL_GFS * Nxx_plus_2NGHOSTS_tot p) (dt : K) (s : MoLState K n) :
    LOOP_ALL_GFS_GPS p (fun i (s : MoLState K n) =>
      let s := { s with
        y_nplus1_running_total_gfs :=
          storeREAL s.y_nplus1_running_total_gfs i
            (loadREAL s.y_nplus1_running_total_gfs i + loadREAL s.k_even_gfs i * dt * (1 / 3)) }
      { s with
        k_even_gfs :=
          storeREAL s.k_even_gfs i
            (loadREAL s.y_n_gfs i + loadREAL s.k_even_gfs i * dt * (1 / 2)) }) s
    = s.mapCols (fun c =>
        (c.1, c.2.1 + c.2.2.2 * dt * (1 / 3), c.2.2.1, c.1 + c.2.2.2 * dt * (1 / 2))) := by
  apply LOOP_ALL_GFS_GPS_pointwise p hn
  intro i s f
  simp only [MoLState.col, storeREAL]
  by_cases h : (f.val : Int) = i
  · subst h
    simp only [if_true, loadREAL_fin]
  · simp only [if_neg h]

theorem RK_MoL_sweep3 {K : Type} [Field K] {n : Nat} (p : paramstruct K)
    (hn : (n : Int) = NUM_EVOL_GFS * Nxx_plus_2NGHOSTS_tot p) (dt : K) (s : MoLState K n) :
    LOOP_ALL_GFS_GPS p (fun i (s : MoLState K n) =>
      let s := { s with
        y_nplus1_running_total_gfs :=
          storeREAL s.y_nplus1_running_total_gfs i
            (loadREAL s.y_nplus1_running_total_gfs i + loadREAL s.k_odd_gfs i * dt * (1 / 3)) }
      { s with
        k_odd_gfs :=
          storeREAL s.k_odd_gfs i (loadREAL s.y_n_gfs i + loadREAL s.k_odd_gfs i * dt) }) s
    = s.mapCols (fun c =>
        (c.1, c.2.1 + c.2.2.1 * dt * (1 / 3), c.1 + c.2.2.1 * dt, c.2.2.2)) := by
  apply LOOP_ALL_GFS_GPS_pointwise p hn
  intro i s f
  simp only [MoLState.col, storeREAL]
  by_cases h : (f.val : Int) = i
  · subst h
    simp only [if_true, loadREAL_fin]
  · simp only [if_neg h]

theorem RK_MoL_sweep4 {K : Type} [Field K] {n : Nat} (p : paramstruct K)
    (hn : (n : Int) = NUM_EVOL_GFS * Nxx_plus_2NGHOSTS_tot p) (dt : K) (s : MoLState K n) :
    LOOP_ALL_GFS_GPS p (fun i (s : MoLState K n) =>
      { s with
        y_n_gfs :=
          storeREAL s.y_n_gfs i
            (loadREAL s.y_n_gfs i + loadREAL s.y_nplus1_running_total_gfs i
              + loadREAL s.k_even_gfs i * dt * (1 / 6)) }) s
    = s.mapCols (fun c =>
        (c.1 + c.2.1 + c.2.2.2 * dt * (1 / 6), c.2.1, c.2.2.1, c.2.2.2)) := by
  apply LOOP_ALL_GFS_GPS_pointwise p hn
  intro i s f
  simp only [MoLState.col, storeREAL]
  by_cases h : (f.val : Int) = i
  · subst h
    simp only [if_true, loadREAL_fin]
  · simp only [if_neg h]

/-- One `RK_MoL.h` pass in closed form: the new `y_n_gfs` is the boundary operator applied
to `y_n + k1*dt/6 + k2*dt/3 + k3*dt/3 + k4*dt/6`, the `k`'s being what the four
`rhs_eval` calls leave in their output buffers. -/
theorem RK_MoL_y_n {K : Type} [Field K] {n : Nat}
    (rhs_eval : paramstruct K → (Fin n → K) → (Fin n → K) → (Fin n → K))
    (apply_bcs : paramstruct K → (Fin n → K) → (Fin n → K))
    (p : paramstruct K) (hn : (n : Int) = NUM_EVOL_GFS * Nxx_plus_2NGHOSTS_tot p)
    (dt : K) (s : MoLState K n) :
    (RK_MoL rhs_eval apply_bcs p dt s).y_n_gfs =
      apply_bcs p (fun f => s.y_n_gfs f
        + (RK4_k1 rhs_eval p s f * dt * (1 / 6)
          + RK4_k2 rhs_eval apply_bcs p dt s f * dt * (1 / 3)
          + RK4_k3 rhs_eval apply_bcs p dt s f * dt * (1 / 3))
        + RK4_k4 rhs_eval apply_bcs p dt s f * dt * (1 / 6)) := by
  unfold RK_MoL
  simp only [RK_MoL_sweep1 p hn, RK_MoL_sweep2 p hn, RK_MoL_sweep3 p hn, RK_MoL_sweep4 p hn]
  rfl

/-! ## C2, C3: the RK4 block -/

/-- C2: for every RHS operator, boundary operator `BC`, step `dt` and state, one pass of
the RK4 block leaves `y_n = BC(y_n + dt/6*k1 + dt/3*k2 + dt/3*k3 + dt/6*k4)` with
`k1 = RHS(y_n)`, `k2 = RHS(BC(y_n + dt/2*k1))`, `k3 = RHS(BC(y_n + dt/2*k2))`,
`k4 = RHS(BC(y_n + dt*k3))` (buffers of `NUM_EVOL_GFS * Nxx_plus_2NGHOSTS_tot` reals,
whatever the scratch buffers held before). -/
theorem C2_RK4_block {K : Type} [Field K] {n : Nat}
    (RHS : paramstruct K → (Fin n → K) → (Fin n → K))
    (BC : paramstruct K → (Fin n → K) → (Fin n → K))
    (p : paramstruct K) (hn : (n : Int) = NUM_EVOL_GFS * Nxx_plus_2NGHOSTS_tot p)
    (dt : K) (s : MoLState K n) :
    let y := s.y_n_gfs
    let k1 := RHS p y
    let k2 := RHS p (BC p (y + (dt / 2) • k1))
    let k3 := RHS p (BC p (y + (dt / 2) • k2))
    let k4 := RHS p (BC p (y + dt • k3))
    (RK_MoL (fun q in_gfs _ => RHS q in_gfs) BC p dt s).y_n_gfs
      = BC p (y + (dt / 6) • k1 + (dt / 3) • k2 + (dt / 3) • k3 + (dt / 6) • k4) := by
  intro y k1 k2 k3 k4
  rw [RK_MoL_y_n _ _ p hn]
  have e1 : RK4_y1 (fun q in_gfs _ => RHS q in_gfs) BC p dt s = BC p (y + (dt / 2) • k1) := by
    unfold RK4_y1 RK4_k1
    refine congrArg (BC p) ?_
    funext f
    simp only [Pi.add_apply, Pi.smul_apply, smul_eq_mul]
    ring
  have e2 : RK4_k2 (fun q in_gfs _ => RHS q in_gfs) BC p dt s = k2 := by
    unfold RK4_k2; rw [e1]
  have e3 : RK4_y2 (fun q in_gfs _ => RHS q in_gfs) BC p dt s = BC p (y + (dt / 2) • k2) := by
    unfold RK4_y2; rw [e2]
    refine congrArg (BC p) ?_
    funext f
    simp only [Pi.add_apply, Pi.smul_apply, smul_eq_mul]
    ring
  have e4 : RK4_k3 (fun q in_gfs _ => RHS q in_gfs) BC p dt s = k3 := by
    unfold RK4_k3; rw [e3]
  have e5 : RK4_y3 (fun q in_gfs _ => RHS q in_gfs) BC p dt s = BC p (y + dt • k3) := by
    unfold RK4_y3; rw [e4]
    refine congrArg (BC p) ?_
    funext f
    simp only [Pi.add_apply, Pi.smul_apply, smul_eq_mul]
    ring
  have e6 : RK4_k4 (fun q in_gfs _ => RHS q in_gfs) BC p dt s = k4 := by
    unfold RK4_k4; rw [e5]
  have e0 : RK4_k1 (fun q in_gfs _ => RHS q in_gfs) p s = k1 := rfl
  rw [e0, e2, e4, e6]
  refine congrArg (BC p) ?_
  funext f
  simp only [Pi.add_apply, Pi.smul_apply, smul_eq_mul]
  ring

/-- C2 at `N = 2` with `RHS(y) = y`, the identity as boundary operator, `dt = 1` and all
buffers zero. -/
theorem C2_RK4_block_witness :
    let p : paramstruct ℚ := free_parameters 2
    let RHS : paramstruct ℚ → (Fin 432 → ℚ) → (Fin 432 → ℚ) := fun _ y => y
    let BC : paramstruct ℚ → (Fin 432 → ℚ) → (Fin 432 → ℚ) := fun _ b => b
    let s : MoLState ℚ 432 := ⟨fun _ => 0, fun _ => 0, fun _ => 0, fun _ => 0⟩
    let y := s.y_n_gfs
    let k1 := RHS p y
    let k2 := RHS p (BC p (y + ((1 : ℚ) / 2) • k1))
    let k3 := RHS p (BC p (y + ((1 : ℚ) / 2) • k2))
    let k4 := RHS p (BC p (y + (1 : ℚ) • k3))
    (RK_MoL (fun q in_gfs _ => RHS q in_gfs) BC p 1 s).y_n_gfs
      = BC p (y + ((1 : ℚ) / 6) • k1 + ((1 : ℚ) / 3) • k2 + ((1 : ℚ) / 3) • k3
          + ((1 : ℚ) / 6) • k4) :=
  C2_RK4_block (fun _ y => y) (fun _ b => b) (free_parameters (K := ℚ) 2) (by decide) 1
    ⟨fun _ => 0, fun _ => 0, fun _ => 0, fun _ => 0⟩

/-- C3: with the manufactured linear right-hand side `RHS(y) = lambda*y` at every buffer
entry and the identity as boundary operator, one pass of the RK4 block maps every entry
`y` to `y*(1 + z + z^2/2 + z^3/6 + z^4/24)`, `z = lambda*dt`, exactly over the rationals. -/
theorem C3_RK4_linear {n : Nat} (p : paramstruct ℚ)
    (hn : (n : Int) = NUM_EVOL_GFS * Nxx_plus_2NGHOSTS_tot p)
    (lambda dt : ℚ) (s : MoLState ℚ n) (f : Fin n) :
    (RK_MoL (fun _ in_gfs _ => fun g => lambda * in_gfs g) (fun _ b => b) p dt s).y_n_gfs f
      = s.y_n_gfs f * (1 + lambda * dt + (lambda * dt) ^ 2 / 2 + (lambda * dt) ^ 3 / 6
          + (lambda * dt) ^ 4 / 24) := by
  rw [RK_MoL_y_n _ _ p hn]
  simp only [RK4_k1, RK4_k2, RK4_k3, RK4_k4, RK4_y1, RK4_y2, RK4_y3]
  ring

/-- C3 at `N = 2`, `lambda = 3`, `dt = 1/2`, every entry of `y_n_gfs` equal to 7,
at entry 0. -/
theorem C3_RK4_linear_witness :
    (RK_MoL (fun _ in_gfs _ => fun g => (3 : ℚ) * in_gfs g) (fun _ b => b)
        (free_parameters (K := ℚ) 2) (1 / 2)
        (⟨fun _ => 7, fun _ => 0, fun _ => 0, fun _ => 0⟩ : MoLState ℚ 432)).y_n_gfs
        (⟨0, by decide⟩ : Fin 432)
      = 7 * (1 + 3 * (1 / 2) + (3 * (1 / 2)) ^ 2 / 2 + (3 * (1 / 2)) ^ 3 / 6
          + (3 * (1 / 2)) ^ 4 / 24) :=
  C3_RK4_linear (free_parameters (K := ℚ) 2) (by decide) 3 (1 / 2)
    ⟨fun _ => 7, fun _ => 0, fun _ => 0, fun _ => 0⟩ ⟨0, by decide⟩

/-! ## C5: order of accuracy of the stencil -/

/-- The five-point stencil differentiates polynomials of degree at most 5 twice, exactly. -/
theorem stencil_poly (P : Polynomial ℚ) (hdeg : P.natDegree ≤ 5) (x dx : ℚ) (hdx : dx ≠ 0) :
    Lap_axis (1 / dx) (P.eval x) (P.eval (x + dx)) (P.eval (x - dx)) (P.eval (x + 2 * dx))
      (P.eval (x - 2 * dx)) = (Polynomial.derivative (Polynomial.derivative P)).eval x := by
  have h := Polynomial.as_sum_range' P 6 (by omega)
  rw [h]
  unfold Lap_axis
  simp only [Finset.sum_range_succ, Finset.sum_range_zero, Polynomial.eval_add, Polynomial.eval_monomial, Polynomial.derivative_add,
    Polynomial.derivative_monomial, zero_add]
  field_simp
  ring

/-- The stencil on samples `P(x0 + j*dx)`, `j = i-2..i+2`, of a polynomial of degree at most
5 is the second derivative at `x0 + i*dx`. -/
theorem Lap_axis_poly (P : Polynomial ℚ) (hdeg : P.natDegree ≤ 5) (x0 dx : ℚ) (hdx : dx ≠ 0)
    (i : Int) (invdx v0 vp1 vm1 vp2 vm2 : ℚ) (hinv : invdx = 1 / dx)
    (h0 : v0 = P.eval (x0 + (i : ℚ) * dx))
    (hp1 : vp1 = P.eval (x0 + ((i + 1 : Int) : ℚ) * dx))
    (hm1 : vm1 = P.eval (x0 + ((i - 1 : Int) : ℚ) * dx))
    (hp2 : vp2 = P.eval (x0 + ((i + 2 : Int) : ℚ) * dx))
    (hm2 : vm2 = P.eval (x0 + ((i - 2 : Int) : ℚ) * dx)) :
    Lap_axis invdx v0 vp1 vm1 vp2 vm2 = (Polynomial.derivative (Polynomial.derivative P)).eval (x0 + (i : ℚ) * dx) := by
  rw [← stencil_poly P hdeg (x0 + (i : ℚ) * dx) dx hdx, hinv, h0, hp1, hm1, hp2, hm2]
  have e1 : x0 + ((i + 1 : Int) : ℚ) * dx = x0 + (i : ℚ) * dx + dx := by push_cast; ring
  have e2 : x0 + ((i - 1 : Int) : ℚ) * dx = x0 + (i : ℚ) * dx - dx := by push_cast; ring
  have e3 : x0 + ((i + 2 : Int) : ℚ) * dx = x0 + (i : ℚ) * dx + 2 * dx := by push_cast; ring
  have e4 : x0 + ((i - 2 : Int) : ℚ) * dx = x0 + (i : ℚ) * dx - 2 * dx := by push_cast; ring
  rw [e1, e2, e3, e4]

/-- The stencil annihilates constants. -/
theorem Lap_axis_const (invdx c v0 vp1 vm1 vp2 vm2 : ℚ) (h0 : v0 = c) (hp1 : vp1 = c)
    (hm1 : vm1 = c) (hp2 : vp2 = c) (hm2 : vm2 = c) :
    Lap_axis invdx v0 vp1 vm1 vp2 vm2 = 0 := by
  subst h0 hp1 hm1 hp2 hm2
  unfold Lap_axis
  ring

/-- C5: the stencil is exact on polynomials of degree at most 5. If along axis `a` the UU
input samples `P(x0 + i*dx)` (constant along the other two axes), with `dx > 0` and
`invdx = 1/dx` on that axis, then at every interior point the spec's stencil along `a`
equals `P''(x_i)`, the stencils along the other two axes are 0, and `rhs_eval` writes
`rhs[VV] = wavespeed^2 * P''(x_i)`. -/
theorem C5_stencil_exact {n : Nat} (p : paramstruct ℚ) (hp : gridConsistent p)
    (hn : (n : Int) = NUM_EVOL_GFS * Nxx_plus_2NGHOSTS_tot p)
    (P : Polynomial ℚ) (hdeg : P.natDegree ≤ 5) (x0 dx : ℚ) (hdx : 0 < dx)
    (a : Fin 3) (hinv : invdx_axis p a = 1 / dx) (in_gfs rhs_gfs : Fin n → ℚ)
    (huu : ∀ i j k : Int, (0 ≤ i ∧ i < p.Nxx_plus_2NGHOSTS0) → (0 ≤ j ∧ j < p.Nxx_plus_2NGHOSTS1) →
      (0 ≤ k ∧ k < p.Nxx_plus_2NGHOSTS2) →
      loadREAL in_gfs (IDX4S p UUGF i j k) = P.eval (x0 + (axisIndex a i j k : ℚ) * dx))
    (i0 i1 i2 : Int)
    (h0 : NGHOSTS ≤ i0 ∧ i0 < NGHOSTS + p.Nxx0) (h1 : NGHOSTS ≤ i1 ∧ i1 < NGHOSTS + p.Nxx1)
    (h2 : NGHOSTS ≤ i2 ∧ i2 < NGHOSTS + p.Nxx2) :
    (∀ b : Fin 3, Lap_along p in_gfs b i0 i1 i2
      = if b = a then (Polynomial.derivative (Polynomial.derivative P)).eval (x0 + (axisIndex a i0 i1 i2 : ℚ) * dx)
        else 0) ∧
    loadREAL (rhs_eval 1 p in_gfs rhs_gfs) (IDX4S p VVGF i0 i1 i2)
      = p.wavespeed ^ 2
        * (Polynomial.derivative (Polynomial.derivative P)).eval (x0 + (axisIndex a i0 i1 i2 : ℚ) * dx) := by
  have hG : NGHOSTS = 2 := rfl
  have hdx' : dx ≠ 0 := ne_of_gt hdx
  have u : ∀ d0 d1 d2 : Int, (-2 ≤ d0 ∧ d0 ≤ 2) → (-2 ≤ d1 ∧ d1 ≤ 2) → (-2 ≤ d2 ∧ d2 ≤ 2) →
      loadREAL in_gfs (IDX4S p UUGF (i0 + d0) (i1 + d1) (i2 + d2))
        = P.eval (x0 + (axisIndex a (i0 + d0) (i1 + d1) (i2 + d2) : ℚ) * dx) := by
    obtain ⟨hA, hB, hC⟩ := hp
    intro d0 d1 d2 e0 e1 e2
    exact huu _ _ _ ⟨by omega, by omega⟩ ⟨by omega, by omega⟩ ⟨by omega, by omega⟩
  have u00 := u 0 0 0 (by decide) (by decide) (by decide)
  have xp1 := u 1 0 0 (by decide) (by decide) (by decide)
  have xm1 := u (-1) 0 0 (by decide) (by decide) (by decide)
  have xp2 := u 2 0 0 (by decide) (by decide) (by decide)
  have xm2 := u (-2) 0 0 (by decide) (by decide) (by decide)
  have yp1 := u 0 1 0 (by decide) (by decide) (by decide)
  have ym1 := u 0 (-1) 0 (by decide) (by decide) (by decide)
  have yp2 := u 0 2 0 (by decide) (by decide) (by decide)
  have ym2 := u 0 (-2) 0 (by decide) (by decide) (by decide)
  have zp1 := u 0 0 1 (by decide) (by decide) (by decide)
  have zm1 := u 0 0 (-1) (by decide) (by decide) (by decide)
  have zp2 := u 0 0 2 (by decide) (by decide) (by decide)
  have zm2 := u 0 0 (-2) (by decide) (by decide) (by decide)
  simp only [add_zero, ← sub_eq_add_neg] at u00 xp1 xm1 xp2 xm2 yp1 ym1 yp2 ym2 zp1 zm1 zp2 zm2
  have hVV : loadREAL (rhs_eval 1 p in_gfs rhs_gfs) (IDX4S p VVGF i0 i1 i2)
      = p.wavespeed ^ 2
        * (Lap_x p in_gfs i0 i1 i2 + Lap_y p in_gfs i0 i1 i2 + Lap_z p in_gfs i0 i1 i2) := by
    rw [(rhs_eval_interior p hp hn in_gfs rhs_gfs i0 i1 i2 h0 h1 h2).2, rhs_point_VV_eq_Lap]
    rfl
  rw [hVV]
  fin_cases a
  · simp only [axisIndex, invdx_axis, Fin.zero_eta, Matrix.cons_val_zero] at *
    have hx : Lap_x p in_gfs i0 i1 i2
        = (Polynomial.derivative (Polynomial.derivative P)).eval (x0 + (i0 : ℚ) * dx) :=
      Lap_axis_poly P hdeg x0 dx hdx' i0 _ _ _ _ _ _ hinv u00 xp1 xm1 xp2 xm2
    have hy : Lap_y p in_gfs i0 i1 i2 = 0 := Lap_axis_const _ _ _ _ _ _ _ u00 yp1 ym1 yp2 ym2
    have hz : Lap_z p in_gfs i0 i1 i2 = 0 := Lap_axis_const _ _ _ _ _ _ _ u00 zp1 zm1 zp2 zm2
    refine ⟨fun b => ?_, by rw [hx, hy, hz, add_zero, add_zero]⟩
    fin_cases b
    · show Lap_x p in_gfs i0 i1 i2 = _
      exact hx.trans (if_pos rfl).symm
    · show Lap_y p in_gfs i0 i1 i2 = _
      rw [if_neg (by decide)]; exact hy
    · show Lap_z p in_gfs i0 i1 i2 = _
      rw [if_neg (by decide)]; exact hz
  · simp only [axisIndex, invdx_axis, Fin.mk_one, Matrix.cons_val_one, Matrix.head_cons] at *
    have hx : Lap_x p in_gfs i0 i1 i2 = 0 := Lap_axis_const _ _ _ _ _ _ _ u00 xp1 xm1 xp2 xm2
    have hy : Lap_y p in_gfs i0 i1 i2
        = (Polynomial.derivative (Polynomial.derivative P)).eval (x0 + (i1 : ℚ) * dx) :=
      Lap_axis_poly P hdeg x0 dx hdx' i1 _ _ _ _ _ _ hinv u00 yp1 ym1 yp2 ym2
    have hz : Lap_z p in_gfs i0 i1 i2 = 0 := Lap_axis_const _ _ _ _ _ _ _ u00 zp1 zm1 zp2 zm2
    refine ⟨fun b => ?_, by rw [hx, hy, hz, add_zero, zero_add]⟩
    fin_cases b
    · show Lap_x p in_gfs i0 i1 i2 = _
      rw [if_neg (by decide)]; exact hx
    · show Lap_y p in_gfs i0 i1 i2 = _
      exact hy.trans (if_pos rfl).symm
    · show Lap_z p in_gfs i0 i1 i2 = _
      rw [if_neg (by decide)]; exact hz
  · simp only [axisIndex, invdx_axis, Fin.reduceFinMk, Matrix.cons_val_two, Matrix.tail_cons,
      Matrix.head_cons] at *
    have hx : Lap_x p in_gfs i0 i1 i2 = 0 := Lap_axis_const _ _ _ _ _ _ _ u00 xp1 xm1 xp2 xm2
    have hy : Lap_y p in_gfs i0 i1 i2 = 0 := Lap_axis_const _ _ _ _ _ _ _ u00 yp1 ym1 yp2 ym2
    have hz : Lap_z p in_gfs i0 i1 i2
        = (Polynomial.derivative (Polynomial.derivative P)).eval (x0 + (i2 : ℚ) * dx) :=
      Lap_axis_poly P hdeg x0 dx hdx' i2 _ _ _ _ _ _ hinv u00 zp1 zm1 zp2 zm2
    refine ⟨fun b => ?_, by rw [hx, hy, hz, zero_add, zero_add]⟩
    fin_cases b
    · show Lap_x p in_gfs i0 i1 i2 = _
      rw [if_neg (by decide)]; exact hx
    · show Lap_y p in_gfs i0 i1 i2 = _
      rw [if_neg (by decide)]; exact hy
    · show Lap_z p in_gfs i0 i1 i2 = _
      exact hz.trans (if_pos rfl).symm

/-- C5 at `N = 2` along the x axis: `dx = 10`, `x0 = -30`, `P = X^2`, interior point
`(2,2,2)`. -/
theorem C5_stencil_exact_witness :
    loadREAL (rhs_eval 1 (free_parameters (K := ℚ) 2)
        (fun f : Fin 432 => (-30 + ((f.val % 6 : Nat) : ℚ) * 10) ^ 2) (fun _ => 0))
        (IDX4S (free_parameters (K := ℚ) 2) VVGF 2 2 2)
      = (free_parameters (K := ℚ) 2).wavespeed ^ 2
        * (Polynomial.derivative (Polynomial.derivative (Polynomial.X ^ 2 : Polynomial ℚ))).eval
            (-30 + (axisIndex 0 2 2 2 : ℚ) * 10) :=
  (C5_stencil_exact (free_parameters (K := ℚ) 2) ⟨rfl, rfl, rfl⟩ (by decide)
    (Polynomial.X ^ 2) (Polynomial.natDegree_X_pow_le 2 |>.trans (by decide)) (-30) 10 (by norm_num) 0
    (by norm_num [invdx_axis, free_parameters, xxmax, xxmin])
    (fun f : Fin 432 => (-30 + ((f.val % 6 : Nat) : ℚ) * 10) ^ 2) (fun _ => 0)
    (by
      intro i j k hi hj hk
      simp only [free_parameters, NGHOSTS] at hi hj hk
      have hb : 0 ≤ IDX4S (free_parameters (K := ℚ) 2) UUGF i j k ∧
          IDX4S (free_parameters (K := ℚ) 2) UUGF i j k < ((432 : Nat) : Int) := by
        simp only [IDX4S, free_parameters, NGHOSTS, UUGF]
        omega
      unfold loadREAL
      rw [dif_pos hb]
      have hm : ((IDX4S (free_parameters (K := ℚ) 2) UUGF i j k).toNat % 6 : Nat) = i.toNat := by
        simp only [IDX4S, free_parameters, NGHOSTS, UUGF]
        omega
      simp only [hm, axisIndex, Matrix.cons_val_zero, Polynomial.eval_pow, Polynomial.eval_X]
      have hc : ((i.toNat : Nat) : ℚ) = (i : ℚ) := by
        have : ((i.toNat : Nat) : Int) = i := Int.toNat_of_nonneg hi.1
        exact_mod_cast this
      rw [hc])
    2 2 2 (by decide) (by decide) (by decide)).2


/-! ## The accesses of `rhs_eval` -/

/-- Membership in the result of a loop that appends a list per iteration. -/
theorem forLoop_append_mem {α : Type} (Q : Int → α → Prop) (body : Int → List α → List α)
    (hbody : ∀ i acc x, x ∈ body i acc ↔ x ∈ acc ∨ Q i x)
    (lo hi : Int) (hle : lo ≤ hi) (acc : List α) (x : α) :
    x ∈ forLoop lo hi 1 body acc ↔ x ∈ acc ∨ ∃ i, lo ≤ i ∧ i < hi ∧ Q i x := by
  have key := forLoop_invariant
    (fun i acc' => ∀ x, x ∈ acc' ↔ x ∈ acc ∨ ∃ j, lo ≤ j ∧ j < i ∧ Q j x)
    body hi (hi - lo).toNat lo acc le_rfl hle
    (by
      intro x
      constructor
      · intro h; exact Or.inl h
      · rintro (h | ⟨j, a, b, -⟩)
        · exact h
        · omega)
    (by
      intro i acc' a b hP x
      rw [hbody, hP]
      constructor
      · rintro ((h | ⟨j, c, d, e⟩) | h)
        · exact Or.inl h
        · exact Or.inr ⟨j, c, by omega, e⟩
        · exact Or.inr ⟨i, a, by omega, h⟩
      · rintro (h | ⟨j, c, d, e⟩)
        · exact Or.inl (Or.inl h)
        · by_cases hji : j = i
          · subst hji; exact Or.inr e
          · exact Or.inl (Or.inr ⟨j, c, by omega, e⟩))
  exact key x

/-- The accesses of `rhs_eval` are those of its loop body at the interior points. -/
theorem mem_rhs_eval_accesses {K : Type} (p : paramstruct K)
    (h0 : 0 ≤ p.Nxx0) (h1 : 0 ≤ p.Nxx1) (h2 : 0 ≤ p.Nxx2) (a : Int × Int × Int × Int) :
    a ∈ rhs_eval_accesses p ↔
      ∃ i2, NGHOSTS ≤ i2 ∧ i2 < NGHOSTS + p.Nxx2 ∧
      ∃ i1, NGHOSTS ≤ i1 ∧ i1 < NGHOSTS + p.Nxx1 ∧
      ∃ i0, NGHOSTS ≤ i0 ∧ i0 < NGHOSTS + p.Nxx0 ∧ a ∈ rhs_eval_body_accesses i0 i1 i2 := by
  unfold rhs_eval_accesses
  rw [forLoop_append_mem
    (fun i2 x => ∃ i1, NGHOSTS ≤ i1 ∧ i1 < NGHOSTS + p.Nxx1 ∧
      ∃ i0, NGHOSTS ≤ i0 ∧ i0 < NGHOSTS + p.Nxx0 ∧ x ∈ rhs_eval_body_accesses i0 i1 i2)
    _ ?_ _ _ (by omega)]
  · simp
  · intro i2 acc x
    rw [forLoop_append_mem
      (fun i1 x => ∃ i0, NGHOSTS ≤ i0 ∧ i0 < NGHOSTS + p.Nxx0 ∧ x ∈ rhs_eval_body_accesses i0 i1 i2)
      _ ?_ _ _ (by omega)]
    intro i1 acc x
    rw [forLoop_append_mem (fun i0 x => x ∈ rhs_eval_body_accesses i0 i1 i2)
      _ ?_ _ _ (by omega)]
    intro i0 acc x
    exact List.mem_append

/-- The access list is the footprint of the scalar loop body: the body depends on the input
only through the listed reads, and changes the output only at listed offsets. -/
theorem rhs_eval_body_footprint {K : Type} [Field K] {n : Nat} (p : paramstruct K)
    (in_gfs in_gfs' rhs_gfs : Fin n → K) (i0 i1 i2 : Int) :
    ((∀ a ∈ rhs_eval_body_accesses i0 i1 i2,
        loadREAL in_gfs (IDX4S p a.1 a.2.1 a.2.2.1 a.2.2.2)
          = loadREAL in_gfs' (IDX4S p a.1 a.2.1 a.2.2.1 a.2.2.2)) →
      rhs_eval_body 1 p in_gfs i0 i1 i2 rhs_gfs = rhs_eval_body 1 p in_gfs' i0 i1 i2 rhs_gfs) ∧
    (∀ f : Fin n, (∀ a ∈ rhs_eval_body_accesses i0 i1 i2,
        (f.val : Int) ≠ IDX4S p a.1 a.2.1 a.2.2.1 a.2.2.2) →
      rhs_eval_body 1 p in_gfs i0 i1 i2 rhs_gfs f = rhs_gfs f) := by
  constructor
  · intro h
    simp only [rhs_eval_body_accesses, List.forall_mem_cons, List.not_mem_nil, false_imp_iff,
      implies_true, and_true] at h
    obtain ⟨r1, r2, r3, r4, r5, r6, r7, r8, r9, r10, r11, r12, r13, r14, -, -⟩ := h
    rw [rhs_eval_body_eq, rhs_eval_body_eq]
    refine WriteSIMD_congr (WriteSIMD_congr rfl ?_) ?_
    · funext l
      have hl : (l.val : Int) = 0 := by omega
      rw [hl, add_zero]
      exact r14
    · funext l
      have hl : (l.val : Int) = 0 := by omega
      rw [hl, add_zero]
      unfold rhs_point_VV
      rw [r1, r2, r3, r4, r5, r6, r7, r8, r9, r10, r11, r12, r13]
  · intro f h
    simp only [rhs_eval_body_accesses, List.forall_mem_cons, List.not_mem_nil, false_imp_iff,
      implies_true, and_true] at h
    obtain ⟨-, -, -, -, -, -, -, -, -, -, -, -, -, -, hU, hV⟩ := h
    rw [rhs_eval_body_eq]
    unfold WriteSIMD
    rw [dif_neg (by push_cast; omega), dif_neg (by push_cast; omega)]


/-! ## C9: grid set-up -/

/-- A loop storing `v i` to `a[i]` for `0 ≤ i < hi` fills every entry of a buffer of `hi`
reals. -/
theorem forLoop_store_fill {K : Type} [Zero K] (hi : Int) (v : Int → K)
    (a : Fin hi.toNat → K) (i : Int) (h0 : 0 ≤ i) (h1 : i < hi) :
    loadREAL (forLoop 0 hi 1 (fun j a => storeREAL a j (v j)) a) i = v i := by
  classical
  obtain ⟨f, hf, hload⟩ := loadREAL_in_range (K := K) (n := hi.toNat) i ⟨h0, by omega⟩
  rw [hload]
  rw [forLoop_override (fun f : Fin hi.toNat => v (f.val : Int))
    (fun j f => (f.val : Int) = j) (fun j a => storeREAL a j (v j)) hi 1 one_pos
    (hi - 0).toNat 0 le_rfl ?_ a f]
  · rw [if_pos ⟨i, h0, h1, one_dvd _, hf⟩, hf]
  · intro j _ _ _ s g
    unfold storeREAL
    dsimp only
    by_cases h : (g.val : Int) = j
    · rw [if_pos h, if_pos h, h]
    · rw [if_neg h, if_neg h]

/-- C9: for every `N > 0` the grid set-up of the driver gives, on each axis,
`dx = (xmax - xmin)/N` and a coordinate array of length `N + 2*NGHOSTS` with
`x[i] = xmin + (i - NGHOSTS)*dx` for every `0 ≤ i < N + 2*NGHOSTS`, whatever the arrays
held before. -/
theorem C9_grid_setup {K : Type} [Field K] (N : Int) (hN : 0 < N)
    (xx : xxArrays K (free_parameters N)) :
    ((free_parameters (K := K) N).dxx0 = (xxmax 0 - xxmin 0) / (N : K) ∧
     (free_parameters (K := K) N).dxx1 = (xxmax 1 - xxmin 1) / (N : K) ∧
     (free_parameters (K := K) N).dxx2 = (xxmax 2 - xxmin 2) / (N : K)) ∧
    (((free_parameters (K := K) N).Nxx_plus_2NGHOSTS0.toNat : Int) = N + 2 * NGHOSTS ∧
     ((free_parameters (K := K) N).Nxx_plus_2NGHOSTS1.toNat : Int) = N + 2 * NGHOSTS ∧
     ((free_parameters (K := K) N).Nxx_plus_2NGHOSTS2.toNat : Int) = N + 2 * NGHOSTS) ∧
    ∀ i : Int, 0 ≤ i → i < N + 2 * NGHOSTS →
      loadREAL (set_coordinates (free_parameters N) xx).xx0 i
        = xxmin 0 + ((i : K) - (NGHOSTS : K)) * (free_parameters (K := K) N).dxx0 ∧
      loadREAL (set_coordinates (free_parameters N) xx).xx1 i
        = xxmin 1 + ((i : K) - (NGHOSTS : K)) * (free_parameters (K := K) N).dxx1 ∧
      loadREAL (set_coordinates (free_parameters N) xx).xx2 i
        = xxmin 2 + ((i : K) - (NGHOSTS : K)) * (free_parameters (K := K) N).dxx2 := by
  have hG : NGHOSTS = 2 := rfl
  refine ⟨⟨rfl, rfl, rfl⟩, ⟨?_, ?_, ?_⟩, ?_⟩
  · show ((N + 2 * NGHOSTS).toNat : Int) = _
    omega
  · show ((N + 2 * NGHOSTS).toNat : Int) = _
    omega
  · show ((N + 2 * NGHOSTS).toNat : Int) = _
    omega
  · intro i h0 h1
    unfold set_coordinates
    dsimp only
    refine ⟨?_, ?_, ?_⟩
    · refine (forLoop_store_fill (free_parameters (K := K) N).Nxx_plus_2NGHOSTS0
        (fun j => xxmin 0 + ((j - NGHOSTS : Int) : K) * (free_parameters (K := K) N).dxx0)
        xx.xx0 i h0 h1).trans ?_
      push_cast; rfl
    · refine (forLoop_store_fill (free_parameters (K := K) N).Nxx_plus_2NGHOSTS1
        (fun j => xxmin 1 + ((j - NGHOSTS : Int) : K) * (free_parameters (K := K) N).dxx1)
        xx.xx1 i h0 h1).trans ?_
      push_cast; rfl
    · refine (forLoop_store_fill (free_parameters (K := K) N).Nxx_plus_2NGHOSTS2
        (fun j => xxmin 2 + ((j - NGHOSTS : Int) : K) * (free_parameters (K := K) N).dxx2)
        xx.xx2 i h0 h1).trans ?_
      push_cast; rfl

/-- C9 at `N = 2`, entry `i = 3` of the x array, arrays initially zero. -/
theorem C9_grid_setup_witness :
    loadREAL (set_coordinates (free_parameters (K := ℚ) 2)
        ⟨fun _ => 0, fun _ => 0, fun _ => 0⟩).xx0 3
      = xxmin 0 + (((3 : Int) : ℚ) - (NGHOSTS : ℚ)) * (free_parameters (K := ℚ) 2).dxx0 :=
  ((C9_grid_setup (K := ℚ) 2 (by decide) ⟨fun _ => 0, fun _ => 0, fun _ => 0⟩).2.2
    3 (by decide) (by decide)).1

/-! ## C10: the numbers of the `N = 64` run -/

/-- C10 as stated fails: for `N = 64` the driver's `dxx0` is `20/64`, not `20/66`. -/
theorem C10_counterexample : (free_parameters (K := ℚ) 64).dxx0 ≠ 20 / 66 := by
  norm_num [free_parameters, xxmax, xxmin]

/-- C10 (amended): for `N = 64` with the fixed parameters the driver computes
`dx = 20/64` on each axis, `dt = 0.5*dx`, `t_final = 8.0` and
`Nt = floor(t_final/dt + 0.5)`, which is 51, in exact rational arithmetic. -/
theorem C10_driver_numbers :
    ((free_parameters (K := ℚ) 64).dxx0 = 20 / 64 ∧ (free_parameters (K := ℚ) 64).dxx1 = 20 / 64 ∧
      (free_parameters (K := ℚ) 64).dxx2 = 20 / 64) ∧
    dt (free_parameters (K := ℚ) 64) = (1 / 2) * (free_parameters (K := ℚ) 64).dxx0 ∧
    (t_final : ℚ) = 8 ∧
    Nt (dt (free_parameters (K := ℚ) 64))
      = Int.floor ((t_final : ℚ) / dt (free_parameters (K := ℚ) 64) + 1 / 2) ∧
    Nt (dt (free_parameters (K := ℚ) 64)) = 51 := by
  have hdx : (free_parameters (K := ℚ) 64).dxx0 = 20 / 64 := by
    norm_num [free_parameters, xxmax, xxmin]
  have hdy : (free_parameters (K := ℚ) 64).dxx1 = 20 / 64 := by
    norm_num [free_parameters, xxmax, xxmin]
  have hdz : (free_parameters (K := ℚ) 64).dxx2 = 20 / 64 := by
    norm_num [free_parameters, xxmax, xxmin]
  have hdt : dt (free_parameters (K := ℚ) 64) = 5 / 32 := by
    unfold dt
    rw [hdx, hdy, hdz]
    norm_num [MIN, CFL_FACTOR]
  have htf : (t_final : ℚ) = 8 := by norm_num [t_final, xxmax]
  have hfl : Int.floor ((8 : ℚ) / (5 / 32) + 1 / 2) = 51 := by
    rw [Int.floor_eq_iff]; norm_num
  refine ⟨⟨hdx, hdy, hdz⟩, ?_, htf, ?_, ?_⟩
  · rw [hdt, hdx]; norm_num
  · unfold Nt REAL_to_int
    rw [if_pos]
    rw [hdt, htf]; norm_num
  · unfold Nt REAL_to_int
    rw [hdt, htf, if_pos (by norm_num), hfl]


/-! ## C4: the time loop with `Nt = 0` -/

/-- With `Nt = 0` the loop `for(n=0;n<=Nt;n++)` runs its body once, at `n = 0`. -/
theorem main_loop_zero {K : Type} [Field K] {m : Nat}
    (rhs_eval : paramstruct K → (Fin m → K) → (Fin m → K) → (Fin m → K))
    (apply_bcs : paramstruct K → (Fin m → K) → (Fin m → K))
    (dt : K) (s : DriverState K m) :
    main_loop rhs_eval apply_bcs dt 0 s = main_loop_body rhs_eval apply_bcs dt 0 s := by
  unfold main_loop
  rw [forLoop_next _ _ _ _ _ (by decide) one_pos, forLoop_done _ _ _ _ _ (by decide)]

/-- With `Nt = 0` the loop leaves the buffers as one `RK_MoL.h` pass leaves them. -/
theorem main_loop_zero_gfs {K : Type} [Field K] {m : Nat}
    (rhs_eval : paramstruct K → (Fin m → K) → (Fin m → K) → (Fin m → K))
    (apply_bcs : paramstruct K → (Fin m → K) → (Fin m → K))
    (dt : K) (s : DriverState K m) :
    (main_loop rhs_eval apply_bcs dt 0 s).gfs
      = RK_MoL rhs_eval apply_bcs { s.params with time := 0 } dt s.gfs := by
  rw [main_loop_zero]
  unfold main_loop_body
  simp

/-- C4 (amended): running the time loop with `Nt = 0` executes the body once: the
diagnostics of that iteration are handed `y_n_gfs` identical to the seeded data, with
`params.time = 0`, and the loop then leaves the buffers as one `RK_MoL.h` pass on the
seeded state leaves them. -/
theorem C4_zero_timesteps {K : Type} [Field K] {m : Nat}
    (rhs_eval : paramstruct K → (Fin m → K) → (Fin m → K) → (Fin m → K))
    (apply_bcs : paramstruct K → (Fin m → K) → (Fin m → K))
    (dt : K) (s : DriverState K m) :
    (main_loop rhs_eval apply_bcs dt 0 s).diagnostics
      = s.diagnostics ++
        [DiagnosticCall.output_2D 0 { s.params with time := 0 } s.gfs.y_n_gfs,
         DiagnosticCall.output_0D 0 { s.params with time := 0 } s.gfs.y_n_gfs] ∧
    (main_loop rhs_eval apply_bcs dt 0 s).gfs
      = RK_MoL rhs_eval apply_bcs { s.params with time := 0 } dt s.gfs := by
  refine ⟨?_, main_loop_zero_gfs rhs_eval apply_bcs dt s⟩
  rw [main_loop_zero]
  unfold main_loop_body
  simp [NSKIP_2D_OUTPUT, NSKIP_0D_OUTPUT]

theorem loadREAL_axpy {n : Nat} (a k : Fin n → ℚ) (c : ℚ) (o : Int) :
    loadREAL (fun f => a f + k f * c) o = loadREAL a o + loadREAL k o * c := by
  unfold loadREAL
  by_cases h : 0 ≤ o ∧ o < n
  · simp only [dif_pos h]
  · simp only [dif_neg h]; ring

theorem loadREAL_axpy2 {n : Nat} (a k : Fin n → ℚ) (c d : ℚ) (o : Int) :
    loadREAL (fun f => a f + k f * c * d) o = loadREAL a o + loadREAL k o * c * d := by
  unfold loadREAL
  by_cases h : 0 ≤ o ∧ o < n
  · simp only [dif_pos h]
  · simp only [dif_neg h]; ring

/-- The stencils vanish where the UU input is constant on the neighbourhood of the point. -/
theorem rhs_point_VV_const {n : Nat} (q : paramstruct ℚ) (in_gfs : Fin n → ℚ)
    (i0 i1 i2 : Int) (c : ℚ)
    (h : ∀ i j k : Int, (i0 - 2 ≤ i ∧ i ≤ i0 + 2) → (i1 - 2 ≤ j ∧ j ≤ i1 + 2) →
      (i2 - 2 ≤ k ∧ k ≤ i2 + 2) → loadREAL in_gfs (IDX4S q UUGF i j k) = c) :
    rhs_point_VV q in_gfs i0 i1 i2 = 0 := by
  rw [rhs_point_VV_eq_Lap]
  rw [Lap_axis_const _ c, Lap_axis_const _ c, Lap_axis_const _ c]
  · ring
  all_goals exact h _ _ _ ⟨by omega, by omega⟩ ⟨by omega, by omega⟩ ⟨by omega, by omega⟩

/-- On the `N = 5` grid, from the state `uu = 0`, `vv = 1`, one RK4 pass with any boundary
operator that leaves interior entries alone moves `uu` at the centre point `(4,4,4)`
(offset 364) from `0` to `dt`. -/
theorem RK_MoL_moves_centre (q : paramstruct ℚ)
    (hN : q.Nxx0 = 5 ∧ q.Nxx1 = 5 ∧ q.Nxx2 = 5) (hp : gridConsistent q)
    (apply_bcs : paramstruct ℚ → (Fin 1458 → ℚ) → (Fin 1458 → ℚ))
    (hBC : ∀ (b : Fin 1458 → ℚ) (f : Fin 1458), interiorOffset q f → apply_bcs q b f = b f)
    (dt : ℚ) (s : MoLState ℚ 1458)
    (hy : s.y_n_gfs = fun f : Fin 1458 => if f.val < 729 then (0 : ℚ) else 1) :
    (RK_MoL (rhs_eval 1) apply_bcs q dt s).y_n_gfs (⟨364, by decide⟩ : Fin 1458) = dt := by
  obtain ⟨hN0, hN1, hN2⟩ := hN
  have hG : NGHOSTS = 2 := rfl
  have hA : q.Nxx_plus_2NGHOSTS0 = 9 := by rw [hp.1, hN0, hG]; rfl
  have hB : q.Nxx_plus_2NGHOSTS1 = 9 := by rw [hp.2.1, hN1, hG]; rfl
  have hC : q.Nxx_plus_2NGHOSTS2 = 9 := by rw [hp.2.2, hN2, hG]; rfl
  have hn : ((1458 : Nat) : Int) = NUM_EVOL_GFS * Nxx_plus_2NGHOSTS_tot q := by
    unfold Nxx_plus_2NGHOSTS_tot; rw [hA, hB, hC]; rfl
  have hidx : ∀ g i j k : Int, IDX4S q g i j k = i + 9 * (j + 9 * (k + 9 * g)) := by
    intro g i j k; unfold IDX4S; rw [hA, hB, hC]
  -- the boundary operator leaves interior loads alone
  have hB' : ∀ (b : Fin 1458 → ℚ) (g i j k : Int), (g = UUGF ∨ g = VVGF) →
      (2 ≤ i ∧ i < 7) → (2 ≤ j ∧ j < 7) → (2 ≤ k ∧ k < 7) →
      loadREAL (apply_bcs q b) (IDX4S q g i j k) = loadREAL b (IDX4S q g i j k) := by
    intro b g i j k hg hi hj hk
    have hr : 0 ≤ IDX4S q g i j k ∧ IDX4S q g i j k < ((1458 : Nat) : Int) := by
      rw [hidx]
      rcases hg with hg | hg <;> subst hg <;> simp only [UUGF, VVGF] <;> omega
    obtain ⟨f, hf, hload⟩ := loadREAL_in_range (K := ℚ) (n := 1458) (IDX4S q g i j k) hr
    rw [hload, hload]
    exact hBC b f ⟨g, i, j, k, hg, ⟨by omega, by omega⟩, ⟨by omega, by omega⟩,
      ⟨by omega, by omega⟩, hf⟩
  -- what rhs_eval leaves at interior points
  have hR : ∀ (inp out : Fin 1458 → ℚ) (i j k : Int),
      (2 ≤ i ∧ i < 7) → (2 ≤ j ∧ j < 7) → (2 ≤ k ∧ k < 7) →
      loadREAL (rhs_eval 1 q inp out) (IDX4S q UUGF i j k) = loadREAL inp (IDX4S q VVGF i j k) ∧
      loadREAL (rhs_eval 1 q inp out) (IDX4S q VVGF i j k) = rhs_point_VV q inp i j k := by
    intro inp out i j k hi hj hk
    exact rhs_eval_interior q hp hn inp out i j k ⟨by omega, by omega⟩ ⟨by omega, by omega⟩
      ⟨by omega, by omega⟩
  -- the seeded state
  have hy0U : ∀ i j k : Int, (0 ≤ i ∧ i < 9) → (0 ≤ j ∧ j < 9) → (0 ≤ k ∧ k < 9) →
      loadREAL s.y_n_gfs (IDX4S q UUGF i j k) = 0 := by
    intro i j k hi hj hk
    rw [hy, hidx]
    unfold loadREAL
    simp only [UUGF]
    rw [dif_pos ⟨by omega, by omega⟩, if_pos (by omega)]
  have hy0V : ∀ i j k : Int, (0 ≤ i ∧ i < 9) → (0 ≤ j ∧ j < 9) → (0 ≤ k ∧ k < 9) →
      loadREAL s.y_n_gfs (IDX4S q VVGF i j k) = 1 := by
    intro i j k hi hj hk
    rw [hy, hidx]
    unfold loadREAL
    simp only [VVGF]
    rw [dif_pos ⟨by omega, by omega⟩, if_neg (by omega)]
  -- stage 1
  have k1U : ∀ i j k : Int, (2 ≤ i ∧ i < 7) → (2 ≤ j ∧ j < 7) → (2 ≤ k ∧ k < 7) →
      loadREAL (RK4_k1 (rhs_eval 1) q s) (IDX4S q UUGF i j k) = 1 := by
    intro i j k hi hj hk
    unfold RK4_k1
    rw [(hR _ _ i j k hi hj hk).1]
    exact hy0V i j k ⟨by omega, by omega⟩ ⟨by omega, by omega⟩ ⟨by omega, by omega⟩
  have k1V : ∀ i j k : Int, (2 ≤ i ∧ i < 7) → (2 ≤ j ∧ j < 7) → (2 ≤ k ∧ k < 7) →
      loadREAL (RK4_k1 (rhs_eval 1) q s) (IDX4S q VVGF i j k) = 0 := by
    intro i j k hi hj hk
    unfold RK4_k1
    rw [(hR _ _ i j k hi hj hk).2]
    apply rhs_point_VV_const q _ i j k 0
    intro a b c ha hb hc
    exact hy0U a b c ⟨by omega, by omega⟩ ⟨by omega, by omega⟩ ⟨by omega, by omega⟩
  have y1U : ∀ i j k : Int, (2 ≤ i ∧ i < 7) → (2 ≤ j ∧ j < 7) → (2 ≤ k ∧ k < 7) →
      loadREAL (RK4_y1 (rhs_eval 1) apply_bcs q dt s) (IDX4S q UUGF i j k) = dt * (1 / 2) := by
    intro i j k hi hj hk
    unfold RK4_y1
    rw [hB' _ UUGF i j k (Or.inl rfl) hi hj hk, loadREAL_axpy2, k1U i j k hi hj hk,
      hy0U i j k ⟨by omega, by omega⟩ ⟨by omega, by omega⟩ ⟨by omega, by omega⟩]
    ring
  have y1V : ∀ i j k : Int, (2 ≤ i ∧ i < 7) → (2 ≤ j ∧ j < 7) → (2 ≤ k ∧ k < 7) →
      loadREAL (RK4_y1 (rhs_eval 1) apply_bcs q dt s) (IDX4S q VVGF i j k) = 1 := by
    intro i j k hi hj hk
    unfold RK4_y1
    rw [hB' _ VVGF i j k (Or.inr rfl) hi hj hk, loadREAL_axpy2, k1V i j k hi hj hk,
      hy0V i j k ⟨by omega, by omega⟩ ⟨by omega, by omega⟩ ⟨by omega, by omega⟩]
    ring
  -- stage 2
  have k2U : ∀ i j k : Int, (2 ≤ i ∧ i < 7) → (2 ≤ j ∧ j < 7) → (2 ≤ k ∧ k < 7) →
      loadREAL (RK4_k2 (rhs_eval 1) apply_bcs q dt s) (IDX4S q UUGF i j k) = 1 := by
    intro i j k hi hj hk
    unfold RK4_k2
    rw [(hR _ _ i j k hi hj hk).1]
    exact y1V i j k hi hj hk
  have k2V : loadREAL (RK4_k2 (rhs_eval 1) apply_bcs q dt s) (IDX4S q VVGF 4 4 4) = 0 := by
    unfold RK4_k2
    rw [(hR _ _ 4 4 4 (by decide) (by decide) (by decide)).2]
    apply rhs_point_VV_const q _ 4 4 4 (dt * (1 / 2))
    intro a b c ha hb hc
    exact y1U a b c ⟨by omega, by omega⟩ ⟨by omega, by omega⟩ ⟨by omega, by omega⟩
  have y2U : ∀ i j k : Int, (2 ≤ i ∧ i < 7) → (2 ≤ j ∧ j < 7) → (2 ≤ k ∧ k < 7) →
      loadREAL (RK4_y2 (rhs_eval 1) apply_bcs q dt s) (IDX4S q UUGF i j k) = dt * (1 / 2) := by
    intro i j k hi hj hk
    unfold RK4_y2
    rw [hB' _ UUGF i j k (Or.inl rfl) hi hj hk, loadREAL_axpy2, k2U i j k hi hj hk,
      hy0U i j k ⟨by omega, by omega⟩ ⟨by omega, by omega⟩ ⟨by omega, by omega⟩]
    ring
  have y2V : loadREAL (RK4_y2 (rhs_eval 1) apply_bcs q dt s) (IDX4S q VVGF 4 4 4) = 1 := by
    unfold RK4_y2
    rw [hB' _ VVGF 4 4 4 (Or.inr rfl) (by decide) (by decide) (by decide), loadREAL_axpy2, k2V,
      hy0V 4 4 4 (by decide) (by decide) (by decide)]
    ring
  -- stage 3
  have k3U : loadREAL (RK4_k3 (rhs_eval 1) apply_bcs q dt s) (IDX4S q UUGF 4 4 4) = 1 := by
    unfold RK4_k3
    rw [(hR _ _ 4 4 4 (by decide) (by decide) (by decide)).1]
    exact y2V
  have k3V : loadREAL (RK4_k3 (rhs_eval 1) apply_bcs q dt s) (IDX4S q VVGF 4 4 4) = 0 := by
    unfold RK4_k3
    rw [(hR _ _ 4 4 4 (by decide) (by decide) (by decide)).2]
    apply rhs_point_VV_const q _ 4 4 4 (dt * (1 / 2))
    intro a b c ha hb hc
    exact y2U a b c ⟨by omega, by omega⟩ ⟨by omega, by omega⟩ ⟨by omega, by omega⟩
  have y3V : loadREAL (RK4_y3 (rhs_eval 1) apply_bcs q dt s) (IDX4S q VVGF 4 4 4) = 1 := by
    unfold RK4_y3
    rw [hB' _ VVGF 4 4 4 (Or.inr rfl) (by decide) (by decide) (by decide), loadREAL_axpy, k3V,
      hy0V 4 4 4 (by decide) (by decide) (by decide)]
    ring
  -- stage 4
  have k4U : loadREAL (RK4_k4 (rhs_eval 1) apply_bcs q dt s) (IDX4S q UUGF 4 4 4) = 1 := by
    unfold RK4_k4
    rw [(hR _ _ 4 4 4 (by decide) (by decide) (by decide)).1]
    exact y3V
  -- the committed state at the centre
  have hc : IDX4S q UUGF 4 4 4 = (((⟨364, by decide⟩ : Fin 1458).val : Nat) : Int) := by
    rw [hidx]; rfl
  rw [hc, loadREAL_fin] at k3U k4U
  have k1c := k1U 4 4 4 (by decide) (by decide) (by decide)
  have k2c := k2U 4 4 4 (by decide) (by decide) (by decide)
  have y0c := hy0U 4 4 4 (by decide) (by decide) (by decide)
  rw [hc, loadREAL_fin] at k1c k2c y0c
  rw [RK_MoL_y_n _ _ q hn, hBC _ _ ⟨UUGF, 4, 4, 4, Or.inl rfl, ⟨by omega, by omega⟩,
    ⟨by omega, by omega⟩, ⟨by omega, by omega⟩, hc.symm⟩]
  rw [k1c, k2c, k3U, k4U, y0c]
  ring

/-- C4 as stated fails: on the `N = 5` grid with the driver's `dt`, seeded with `uu = 0`,
`vv = 1`, the time loop with `Nt = 0` does not leave `y_n_gfs` identical to the seed, for
whatever boundary operator that leaves interior entries alone and whatever scratch
contents: the one RK4 pass it runs moves `uu` at the centre from 0 to `dt = 2`. -/
theorem C4_counterexample :
    ¬ ∃ apply_bcs : paramstruct ℚ → (Fin 1458 → ℚ) → (Fin 1458 → ℚ),
      (∀ (q : paramstruct ℚ) (b : Fin 1458 → ℚ) (f : Fin 1458),
        interiorOffset q f → apply_bcs q b f = b f) ∧
      ∃ scratch1 scratch2 scratch3 : Fin 1458 → ℚ,
        (main_loop (rhs_eval 1) apply_bcs (dt (free_parameters (K := ℚ) 5)) 0
          { params := free_parameters 5
            gfs := ⟨fun f => if f.val < 729 then 0 else 1, scratch1, scratch2, scratch3⟩
            diagnostics := [] }).gfs.y_n_gfs
        = fun f => if f.val < 729 then 0 else 1 := by
  rintro ⟨apply_bcs, hBC, t, ko, ke, h⟩
  have h0 := congrFun h ⟨364, by decide⟩
  rw [main_loop_zero_gfs] at h0
  rw [RK_MoL_moves_centre _ ⟨rfl, rfl, rfl⟩ ⟨rfl, rfl, rfl⟩ apply_bcs (hBC _) _ _ rfl] at h0
  have hdt : dt (free_parameters (K := ℚ) 5) = 2 := by
    norm_num [dt, MIN, CFL_FACTOR, free_parameters, xxmax, xxmin]
  rw [hdt] at h0
  norm_num at h0

/-! ## The parameter check of the thorn in exact arithmetic -/

/-- In exact arithmetic over any ordered field, `IDScalarWaveNRPy_param_check` raises its
fatal error if and only if `kk0 = kk1 = kk2 = 0`, and for every wavevector it accepts
`kk0^2 + kk1^2 + kk2^2 > 0`. -/
theorem IDScalarWaveNRPy_param_check_exact {K : Type} [LinearOrderedField K] (kk0 kk1 kk2 : K) :
    (IDScalarWaveNRPy_param_check kk0 kk1 kk2 = Except.error zero_wavevector_message
      ↔ (kk0 = 0 ∧ kk1 = 0 ∧ kk2 = 0)) ∧
    (IDScalarWaveNRPy_param_check kk0 kk1 kk2 = Except.ok ()
      → 0 < kk0 ^ 2 + kk1 ^ 2 + kk2 ^ 2) := by
  unfold IDScalarWaveNRPy_param_check
  by_cases h : kk0 = 0 ∧ kk1 = 0 ∧ kk2 = 0
  · rw [if_pos h]
    exact ⟨⟨fun _ => h, fun _ => rfl⟩, fun hc => (by cases hc)⟩
  · rw [if_neg h]
    refine ⟨⟨fun hc => (by cases hc), fun hc => absurd hc h⟩, fun _ => ?_⟩
    by_contra hle
    have h0 := sq_nonneg kk0
    have h1 := sq_nonneg kk1
    have h2 := sq_nonneg kk2
    have e0 : kk0 ^ 2 = 0 := by linarith
    have e1 : kk1 ^ 2 = 0 := by linarith
    have e2 : kk2 ^ 2 = 0 := by linarith
    exact h ⟨(pow_eq_zero_iff two_ne_zero).1 e0, (pow_eq_zero_iff two_ne_zero).1 e1,
      (pow_eq_zero_iff two_ne_zero).1 e2⟩

/-! ## C19: the command-line check of `main` -/

/-- When no conversion can be performed `strtol` returns 0. -/
theorem strtol_of_no_conversion (s : String) (h : atoi_no_conversion s = true) :
    strtol s = 0 := by
  unfold atoi_no_conversion at h
  unfold strtol
  split at h
  · rename_i c cs heq
    by_cases hm : c = '-'
    · rw [if_pos hm]
      rw [if_pos (Or.inl hm)] at h
      cases cs with
      | nil => rfl
      | cons d ds =>
        simp only [Bool.not_eq_true_eq_eq_false] at h
        simp [atoi_digits, h, LONG_MAX]
    · rw [if_neg hm]
      by_cases hp : c = '+'
      · rw [if_pos hp]
        rw [if_pos (Or.inr hp)] at h
        cases cs with
        | nil => rfl
        | cons d ds =>
          simp only [Bool.not_eq_true_eq_eq_false] at h
          simp [atoi_digits, h, LONG_MAX]
      · rw [if_neg hp]
        rw [if_neg (by tauto)] at h
        simp only [Bool.not_eq_true_eq_eq_false] at h
        simp [atoi_digits, h, LONG_MAX]
  · rfl

/-- When `atoi` can perform no conversion it returns 0. -/
theorem atoi_of_no_conversion (s : String) (h : atoi_no_conversion s = true) : atoi s = 0 := by
  unfold atoi
  rw [strtol_of_no_conversion s h]
  rfl

/-- The argument check of `main`: the outcome is `exit(1)` with the usage text exactly when
`argc != 2 || atoi(argv[1]) < NGHOSTS`, and otherwise the run with `Nx = atoi(argv[1])`. -/
theorem main_check {K : Type} [LinearOrderedField K] [FloorRing K] (env : MainCallees K)
    (argv : List String) :
    (((argv.length : Int) ≠ 2 ∨ atoi (argv.getD 1 default) < NGHOSTS) →
      main env argv = MainOutcome.exit 1 usage_text) ∧
    (¬ ((argv.length : Int) ≠ 2 ∨ atoi (argv.getD 1 default) < NGHOSTS) →
      ∃ s, main env argv = MainOutcome.returned 0 (atoi (argv.getD 1 default)) s) := by
  constructor
  · intro h
    unfold main
    simp only [if_pos h]
  · intro h
    unfold main
    simp only [if_neg h]
    exact ⟨_, rfl⟩

/-- `atoi` stops at the first character that is not a digit: an argument with trailing
characters after a number at least 2 is accepted. -/
theorem main_accepts_trailing_characters {K : Type} [LinearOrderedField K] [FloorRing K]
    (env : MainCallees K) :
    ∃ s, main env ["./ScalarWave_Playground", "64abc"] = MainOutcome.returned 0 64 s :=
  (main_check env ["./ScalarWave_Playground", "64abc"]).2 (by decide)

/-- C19 fails on the command line `./ScalarWave_Playground 2`: the argument check accepts
`Nx = 2`, which is not larger than `NGHOSTS = 2`. -/
theorem C19_accepts_Nx_equal_NGHOSTS {K : Type} [LinearOrderedField K] [FloorRing K]
    (env : MainCallees K) :
    (∃ s, main env ["./ScalarWave_Playground", "2"] = MainOutcome.returned 0 2 s) ∧
    ¬ (NGHOSTS < (2 : Int)) :=
  ⟨(main_check env ["./ScalarWave_Playground", "2"]).2 (by decide), by decide⟩

/-! ## C17: the point where the error is reported -/

/-- The entries of the coordinate arrays after `set_coordinates`. -/
theorem set_coordinates_entry {K : Type} [Field K] (p : paramstruct K) (xx : xxArrays K p)
    (i : Int) (h0 : 0 ≤ i) :
    (i < p.Nxx_plus_2NGHOSTS0 → loadREAL (set_coordinates p xx).xx0 i
        = xxmin 0 + ((i - NGHOSTS : Int) : K) * p.dxx0) ∧
    (i < p.Nxx_plus_2NGHOSTS1 → loadREAL (set_coordinates p xx).xx1 i
        = xxmin 1 + ((i - NGHOSTS : Int) : K) * p.dxx1) ∧
    (i < p.Nxx_plus_2NGHOSTS2 → loadREAL (set_coordinates p xx).xx2 i
        = xxmin 2 + ((i - NGHOSTS : Int) : K) * p.dxx2) := by
  unfold set_coordinates
  dsimp only
  exact ⟨fun h1 => forLoop_store_fill p.Nxx_plus_2NGHOSTS0
      (fun j => xxmin 0 + ((j - NGHOSTS : Int) : K) * p.dxx0) xx.xx0 i h0 h1,
    fun h1 => forLoop_store_fill p.Nxx_plus_2NGHOSTS1
      (fun j => xxmin 1 + ((j - NGHOSTS : Int) : K) * p.dxx1) xx.xx1 i h0 h1,
    fun h1 => forLoop_store_fill p.Nxx_plus_2NGHOSTS2
      (fun j => xxmin 2 + ((j - NGHOSTS : Int) : K) * p.dxx2) xx.xx2 i h0 h1⟩

/-- The coordinate the driver reports as the centre: `-10 + (mid - 2) * 20/N`. -/
theorem centre_coordinate (N : Int) (hN : NGHOSTS ≤ N) :
    ((2 ∣ N) → xxmin (K := ℚ) 0 + (((N + 2 * NGHOSTS) / 2 - NGHOSTS : Int) : ℚ)
        * ((xxmax 0 - xxmin 0) / (N : ℚ)) = 0) ∧
    ((¬ 2 ∣ N) → xxmin (K := ℚ) 0 + (((N + 2 * NGHOSTS) / 2 - NGHOSTS : Int) : ℚ)
        * ((xxmax 0 - xxmin 0) / (N : ℚ)) = -10 / (N : ℚ)) := by
  have hG : NGHOSTS = 2 := rfl
  rw [hG] at hN ⊢
  have hN0 : (N : ℚ) ≠ 0 := by
    have : (0 : ℚ) < (N : ℚ) := by exact_mod_cast (by omega : (0 : Int) < N)
    exact ne_of_gt this
  constructor
  · rintro ⟨m, hm⟩
    have e : (N + 2 * 2) / 2 - 2 = m := by omega
    rw [e, hm]
    have hm0 : (m : ℚ) ≠ 0 := by
      intro h0
      have : m = 0 := by exact_mod_cast h0
      omega
    simp only [xxmin, xxmax, Matrix.cons_val_zero]
    push_cast
    field_simp
    ring
  · intro hodd
    have hm : ∃ m, N = 2 * m + 1 := ⟨N / 2, by omega⟩
    obtain ⟨m, hm⟩ := hm
    have e : (N + 2 * 2) / 2 - 2 = m := by omega
    rw [e]
    have hmq : (N : ℚ) = 2 * (m : ℚ) + 1 := by exact_mod_cast hm
    simp only [xxmin, xxmax, Matrix.cons_val_zero]
    field_simp
    rw [hmq]
    ring

/-- C17 as stated fails: for the accepted resolution `N = 3` the reported point has index
`i0mid = 7/2 = 3` and coordinate `xx[0][3] = -10 + 1*(20/3) = -10/3`, not 0. -/
theorem C17_counterexample :
    loadREAL (set_coordinates (free_parameters (K := ℚ) 3)
        ⟨fun _ => 0, fun _ => 0, fun _ => 0⟩).xx0
      ((free_parameters (K := ℚ) 3).Nxx_plus_2NGHOSTS0 / 2) ≠ 0 := by
  rw [(set_coordinates_entry (free_parameters (K := ℚ) 3) _ _ (by decide)).1 (by decide)]
  have h := (centre_coordinate 3 (by decide)).2 (by decide)
  intro h0
  have e : xxmin (K := ℚ) 0 + (((3 + 2 * NGHOSTS) / 2 - NGHOSTS : Int) : ℚ)
      * ((xxmax 0 - xxmin 0) / ((3 : Int) : ℚ)) = 0 := h0
  rw [h] at e
  norm_num at e

/-- C17 (amended): for every resolution `N` the driver accepts, the point
`(i0mid,i1mid,i2mid)`, each `(N+2*NGHOSTS)/2` in integer division, has coordinates
`xx[0][i0mid] = xx[1][i1mid] = xx[2][i2mid] = 0` when `N` is even, and `-10/N` on each axis
(half a cell below the centre) when `N` is odd. -/
theorem C17_centre_point (N : Int) (hN : NGHOSTS ≤ N)
    (xx : xxArrays ℚ (free_parameters N)) :
    ((2 ∣ N) →
      loadREAL (set_coordinates (free_parameters N) xx).xx0
          ((free_parameters (K := ℚ) N).Nxx_plus_2NGHOSTS0 / 2) = 0 ∧
      loadREAL (set_coordinates (free_parameters N) xx).xx1
          ((free_parameters (K := ℚ) N).Nxx_plus_2NGHOSTS1 / 2) = 0 ∧
      loadREAL (set_coordinates (free_parameters N) xx).xx2
          ((free_parameters (K := ℚ) N).Nxx_plus_2NGHOSTS2 / 2) = 0) ∧
    ((¬ 2 ∣ N) →
      loadREAL (set_coordinates (free_parameters N) xx).xx0
          ((free_parameters (K := ℚ) N).Nxx_plus_2NGHOSTS0 / 2) = -10 / (N : ℚ) ∧
      loadREAL (set_coordinates (free_parameters N) xx).xx1
          ((free_parameters (K := ℚ) N).Nxx_plus_2NGHOSTS1 / 2) = -10 / (N : ℚ) ∧
      loadREAL (set_coordinates (free_parameters N) xx).xx2
          ((free_parameters (K := ℚ) N).Nxx_plus_2NGHOSTS2 / 2) = -10 / (N : ℚ)) := by
  have hG : NGHOSTS = 2 := rfl
  have hmid0 : (0 : Int) ≤ (N + 2 * NGHOSTS) / 2 := by omega
  have hmid1 : (N + 2 * NGHOSTS) / 2 < N + 2 * NGHOSTS := by omega
  obtain ⟨e0, e1, e2⟩ := set_coordinates_entry (free_parameters (K := ℚ) N) xx
    ((N + 2 * NGHOSTS) / 2) hmid0
  have e0 := e0 hmid1
  have e1 := e1 hmid1
  have e2 := e2 hmid1
  obtain ⟨heven, hodd⟩ := centre_coordinate N hN
  constructor
  · intro h
    exact ⟨e0.trans (heven h), e1.trans (heven h), e2.trans (heven h)⟩
  · intro h
    exact ⟨e0.trans (hodd h), e1.trans (hodd h), e2.trans (hodd h)⟩

/-- C17 (amended) at `N = 64`: the x coordinate of the reported point is 0. -/
theorem C17_centre_point_witness :
    loadREAL (set_coordinates (free_parameters (K := ℚ) 64)
        ⟨fun _ => 0, fun _ => 0, fun _ => 0⟩).xx0
      ((free_parameters (K := ℚ) 64).Nxx_plus_2NGHOSTS0 / 2) = 0 :=
  ((C17_centre_point 64 (by decide) ⟨fun _ => 0, fun _ => 0, fun _ => 0⟩).1
    ⟨32, by decide⟩).1

/-! ## Every offset is the `IDX4S` of an index tuple -/

/-- Every offset of the buffer is the `IDX4S` of the tuple it splits into. -/
theorem IDX4S_encode {K : Type} (p : paramstruct K)
    (hA : 0 < p.Nxx_plus_2NGHOSTS0) (hB : 0 < p.Nxx_plus_2NGHOSTS1)
    (hC : 0 < p.Nxx_plus_2NGHOSTS2) (f : Int)
    (hf : 0 ≤ f ∧ f < Nxx_plus_2NGHOSTS_tot p * NUM_EVOL_GFS) :
    (f / p.Nxx_plus_2NGHOSTS0 / p.Nxx_plus_2NGHOSTS1 / p.Nxx_plus_2NGHOSTS2,
      f % p.Nxx_plus_2NGHOSTS0, f / p.Nxx_plus_2NGHOSTS0 % p.Nxx_plus_2NGHOSTS1,
      f / p.Nxx_plus_2NGHOSTS0 / p.Nxx_plus_2NGHOSTS1 % p.Nxx_plus_2NGHOSTS2) ∈ indexBox p ∧
    IDX4S p (f / p.Nxx_plus_2NGHOSTS0 / p.Nxx_plus_2NGHOSTS1 / p.Nxx_plus_2NGHOSTS2)
      (f % p.Nxx_plus_2NGHOSTS0) (f / p.Nxx_plus_2NGHOSTS0 % p.Nxx_plus_2NGHOSTS1)
      (f / p.Nxx_plus_2NGHOSTS0 / p.Nxx_plus_2NGHOSTS1 % p.Nxx_plus_2NGHOSTS2) = f := by
  unfold indexBox IDX4S
  unfold Nxx_plus_2NGHOSTS_tot at hf
  obtain ⟨hf0, hf1⟩ := hf
  set A := p.Nxx_plus_2NGHOSTS0
  set B := p.Nxx_plus_2NGHOSTS1
  set C := p.Nxx_plus_2NGHOSTS2
  have q1 : 0 ≤ f / A := Int.ediv_nonneg hf0 hA.le
  have q2 : 0 ≤ f / A / B := Int.ediv_nonneg q1 hB.le
  have q3 : 0 ≤ f / A / B / C := Int.ediv_nonneg q2 hC.le
  have l1 : f / A < B * C * NUM_EVOL_GFS := by
    apply Int.ediv_lt_of_lt_mul hA
    calc f < A * B * C * NUM_EVOL_GFS := hf1
      _ = B * C * NUM_EVOL_GFS * A := by ring
  have l2 : f / A / B < C * NUM_EVOL_GFS := by
    apply Int.ediv_lt_of_lt_mul hB
    calc f / A < B * C * NUM_EVOL_GFS := l1
      _ = C * NUM_EVOL_GFS * B := by ring
  have l3 : f / A / B / C < NUM_EVOL_GFS := by
    apply Int.ediv_lt_of_lt_mul hC
    calc f / A / B < C * NUM_EVOL_GFS := l2
      _ = NUM_EVOL_GFS * C := by ring
  refine ⟨⟨⟨q3, l3⟩, ⟨Int.emod_nonneg _ hA.ne', Int.emod_lt_of_pos _ hA⟩,
    ⟨Int.emod_nonneg _ hB.ne', Int.emod_lt_of_pos _ hB⟩,
    ⟨Int.emod_nonneg _ hC.ne', Int.emod_lt_of_pos _ hC⟩⟩, ?_⟩
  rw [Int.emod_add_ediv (f / A / B) C, Int.emod_add_ediv (f / A) B, Int.emod_add_ediv f A]

/-! ## C16: the loop invariant of the driver -/

/-- `rhs_eval` does not read `params.time`. -/
theorem rhs_eval_time {K : Type} [Field K] {n : Nat} (W : Nat) (p : paramstruct K) (t : K)
    (in_gfs rhs_gfs : Fin n → K) :
    rhs_eval W { p with time := t } in_gfs rhs_gfs = rhs_eval W p in_gfs rhs_gfs := rfl

/-- The state of the driver when iteration `k` begins, for `0 ≤ k ≤ Nt+1`: the buffers are
the initial ones advanced by `k` RK4 steps, the diagnostics are those of the iterations
before, and the struct differs from the initial one in `time` only. -/
theorem main_loop_entry {K : Type} [Field K] {m : Nat}
    (rhs_eval : paramstruct K → (Fin m → K) → (Fin m → K) → (Fin m → K))
    (apply_bcs : paramstruct K → (Fin m → K) → (Fin m → K))
    (dt : K) (s0 : DriverState K m) (k : Nat) :
    (forLoop 0 (k : Int) 1 (main_loop_body rhs_eval apply_bcs dt) s0).gfs
        = RK4_steps rhs_eval apply_bcs s0.params dt k s0.gfs ∧
      (forLoop 0 (k : Int) 1 (main_loop_body rhs_eval apply_bcs dt) s0).diagnostics
        = s0.diagnostics ++ diagnostics_upto rhs_eval apply_bcs dt s0 k ∧
      ∀ t : K, { (forLoop 0 (k : Int) 1 (main_loop_body rhs_eval apply_bcs dt) s0).params
          with time := t } = { s0.params with time := t } := by
  have key := forLoop_invariant
    (fun (i : Int) (s : DriverState K m) =>
      s.gfs = RK4_steps rhs_eval apply_bcs s0.params dt i.toNat s0.gfs ∧
      s.diagnostics = s0.diagnostics ++ diagnostics_upto rhs_eval apply_bcs dt s0 i.toNat ∧
      ∀ t : K, { s.params with time := t } = { s0.params with time := t })
    (main_loop_body rhs_eval apply_bcs dt) (k : Int) k 0 s0 (by simp) (by simp)
    ⟨rfl, by simp [diagnostics_upto], fun _ => rfl⟩
    (by
      intro i s hi0 _ ⟨hg, hd, hp⟩
      obtain ⟨j, rfl⟩ := Int.eq_ofNat_of_zero_le hi0
      have e1 : ((j : Int) + 1).toNat = j + 1 := by omega
      have e0 : ((j : Int)).toNat = j := by omega
      rw [e0] at hg hd
      rw [e1]
      refine ⟨?_, ?_, ?_⟩
      · show RK_MoL rhs_eval apply_bcs { s.params with time := ((j : Int) : K) * dt } dt s.gfs
          = RK_MoL rhs_eval apply_bcs { s0.params with time := ((j : Int) : K) * dt } dt
              (RK4_steps rhs_eval apply_bcs s0.params dt j s0.gfs)
        rw [hp, hg]
      · show (if (j : Int) % NSKIP_0D_OUTPUT = 0
            then (if (j : Int) % NSKIP_2D_OUTPUT = 0
              then s.diagnostics ++ [DiagnosticCall.output_2D (j : Int)
                { s.params with time := ((j : Int) : K) * dt } s.gfs.y_n_gfs]
              else s.diagnostics) ++ [DiagnosticCall.output_0D (j : Int)
                { s.params with time := ((j : Int) : K) * dt } s.gfs.y_n_gfs]
            else (if (j : Int) % NSKIP_2D_OUTPUT = 0
              then s.diagnostics ++ [DiagnosticCall.output_2D (j : Int)
                { s.params with time := ((j : Int) : K) * dt } s.gfs.y_n_gfs]
              else s.diagnostics)) = _
        have h1 : (j : Int) % NSKIP_0D_OUTPUT = 0 := by unfold NSKIP_0D_OUTPUT; omega
        rw [if_pos h1, hp, hg, hd]
        show _ = s0.diagnostics ++ (diagnostics_upto rhs_eval apply_bcs dt s0 j ++
          diagnostics_due rhs_eval apply_bcs dt s0 j)
        unfold diagnostics_due
        by_cases h2 : (j : Int) % NSKIP_2D_OUTPUT = 0
        · rw [if_pos h2, if_pos h2]
          simp only [List.append_assoc]
        · rw [if_neg h2, if_neg h2]
          simp only [List.append_assoc, List.nil_append]
      · intro t
        exact hp t)
  have e : ((k : Int)).toNat = k := by omega
  simp only [e] at key
  exact key

/-- The diagnostics of iteration `n` are among those of the iterations before `k > n`. -/
theorem diagnostics_due_subset {K : Type} [Field K] {m : Nat}
    (rhs_eval : paramstruct K → (Fin m → K) → (Fin m → K) → (Fin m → K))
    (apply_bcs : paramstruct K → (Fin m → K) → (Fin m → K))
    (dt : K) (s0 : DriverState K m) (n : Nat) :
    ∀ k : Nat, n < k → ∀ d ∈ diagnostics_due rhs_eval apply_bcs dt s0 n,
      d ∈ diagnostics_upto rhs_eval apply_bcs dt s0 k := by
  intro k
  induction k with
  | zero => intro h; omega
  | succ k ih =>
    intro h d hd
    show d ∈ diagnostics_upto rhs_eval apply_bcs dt s0 k ++
      diagnostics_due rhs_eval apply_bcs dt s0 k
    rcases Nat.lt_succ_iff_lt_or_eq.1 h with h' | h'
    · exact List.mem_append_left _ (ih h' d hd)
    · subst h'
      exact List.mem_append_right _ hd

/-- Every diagnostic of the iterations before `k` is one due in some iteration `n < k`. -/
theorem diagnostics_upto_mem {K : Type} [Field K] {m : Nat}
    (rhs_eval : paramstruct K → (Fin m → K) → (Fin m → K) → (Fin m → K))
    (apply_bcs : paramstruct K → (Fin m → K) → (Fin m → K))
    (dt : K) (s0 : DriverState K m) :
    ∀ k : Nat, ∀ d ∈ diagnostics_upto rhs_eval apply_bcs dt s0 k,
      ∃ n : Nat, n < k ∧ d ∈ diagnostics_due rhs_eval apply_bcs dt s0 n := by
  intro k
  induction k with
  | zero => intro d hd; cases hd
  | succ k ih =>
    intro d hd
    rcases List.mem_append.1 hd with h | h
    · obtain ⟨n, hn, hd'⟩ := ih d h
      exact ⟨n, by omega, hd'⟩
    · exact ⟨k, by omega, h⟩

/-- C16: loop invariant of the driver. The diagnostics the main loop issues are, in order,
those of the iterations `n = 0, ..., Nt`, and the sample of iteration `n` is handed
`params.time = n*dt` together with the `y_n_gfs` obtained from the initial (seeded) state
by exactly `n` passes of the RK4 block: the 0D output of every iteration `0 ≤ n ≤ Nt` is
in the log with these arguments, and every entry the loop adds to the log has them. -/
theorem C16_loop_invariant {K : Type} [Field K] {m : Nat}
    (rhs_eval : paramstruct K → (Fin m → K) → (Fin m → K) → (Fin m → K))
    (apply_bcs : paramstruct K → (Fin m → K) → (Fin m → K))
    (dt : K) (Nt : Int) (s0 : DriverState K m) :
    (main_loop rhs_eval apply_bcs dt Nt s0).diagnostics
      = s0.diagnostics ++ diagnostics_upto rhs_eval apply_bcs dt s0 (Nt + 1).toNat ∧
    (∀ n : Nat, (n : Int) ≤ Nt →
      ({ s0.params with time := ((n : Int) : K) * dt } : paramstruct K).time
        = ((n : Int) : K) * dt ∧
      DiagnosticCall.output_0D (n : Int) { s0.params with time := ((n : Int) : K) * dt }
        (RK4_steps rhs_eval apply_bcs s0.params dt n s0.gfs).y_n_gfs
          ∈ (main_loop rhs_eval apply_bcs dt Nt s0).diagnostics) ∧
    (∀ d ∈ diagnostics_upto rhs_eval apply_bcs dt s0 (Nt + 1).toNat,
      ∃ n : Nat, (n : Int) ≤ Nt ∧
        (d = DiagnosticCall.output_0D (n : Int)
            { s0.params with time := ((n : Int) : K) * dt }
            (RK4_steps rhs_eval apply_bcs s0.params dt n s0.gfs).y_n_gfs ∨
          d = DiagnosticCall.output_2D (n : Int)
            { s0.params with time := ((n : Int) : K) * dt }
            (RK4_steps rhs_eval apply_bcs s0.params dt n s0.gfs).y_n_gfs)) := by
  have hlog : (main_loop rhs_eval apply_bcs dt Nt s0).diagnostics
      = s0.diagnostics ++ diagnostics_upto rhs_eval apply_bcs dt s0 (Nt + 1).toNat := by
    unfold main_loop
    by_cases h : 0 ≤ Nt + 1
    · obtain ⟨k, hk⟩ := Int.eq_ofNat_of_zero_le h
      rw [hk]
      exact (main_loop_entry rhs_eval apply_bcs dt s0 k).2.1
    · have e : (Nt + 1).toNat = 0 := by omega
      rw [e, forLoop_done _ _ _ _ _ (by omega)]
      simp [diagnostics_upto]
  refine ⟨hlog, ?_, ?_⟩
  · intro n hn
    refine ⟨rfl, ?_⟩
    rw [hlog]
    refine List.mem_append_right _ (diagnostics_due_subset rhs_eval apply_bcs dt s0 n _
      (by omega) _ ?_)
    unfold diagnostics_due
    exact List.mem_append_right _ (List.mem_singleton.2 rfl)
  · intro d hd
    obtain ⟨n, hn, hd'⟩ := diagnostics_upto_mem rhs_eval apply_bcs dt s0 _ d hd
    refine ⟨n, by omega, ?_⟩
    unfold diagnostics_due at hd'
    rcases List.mem_append.1 hd' with h | h
    · split at h
      · exact Or.inr (List.mem_singleton.1 h)
      · cases h
    · exact Or.inl (List.mem_singleton.1 h)

/-- C16 for the `N = 2` grid, no boundary update and `Nt = 1`: the 0D sample of iteration 1
is taken at `params.time = 1*dt` on the state after one RK4 step. -/
theorem C16_loop_invariant_witness :
    DiagnosticCall.output_0D (1 : Int)
      { free_parameters (K := ℚ) 2 with time := (((1 : Nat) : Int) : ℚ) * (5 : ℚ) }
      (RK4_steps (rhs_eval 1) (fun _ b => b) (free_parameters (K := ℚ) 2) 5 1
        (⟨fun _ => 1, fun _ => 0, fun _ => 0, fun _ => 0⟩ : MoLState ℚ 432)).y_n_gfs
      ∈ (main_loop (rhs_eval 1) (fun _ b => b) 5 1
          ⟨free_parameters (K := ℚ) 2, ⟨fun _ => 1, fun _ => 0, fun _ => 0, fun _ => 0⟩,
            []⟩).diagnostics :=
  ((C16_loop_invariant (rhs_eval 1) (fun _ b => b) (5 : ℚ) 1
    ⟨free_parameters (K := ℚ) 2, ⟨fun _ => 1, fun _ => 0, fun _ => 0, fun _ => 0⟩,
      []⟩).2.1 1 (by decide)).2

/-! ## C20: the scratch buffers do not influence `y_n_gfs` -/

/-- Two runs of a loop agree at an entry that some iteration settles, or at which the
initial states agree, when each iteration settles the entries `D i` whatever the state and
keeps agreement elsewhere. -/
theorem forLoop_settles {K : Type} {n : Nat} (D : Int → Fin n → Prop)
    (body : Int → (Fin n → K) → (Fin n → K)) (hi step : Int) (hstep : 0 < step) (m : Nat) :
    ∀ (lo : Int), (hi - lo).toNat ≤ m →
    (∀ i, lo ≤ i → i < hi → step ∣ (i - lo) →
      ∀ s s' f, (D i f ∨ s f = s' f) → body i s f = body i s' f) →
    ∀ s s' f, ((∃ i, lo ≤ i ∧ i < hi ∧ step ∣ (i - lo) ∧ D i f) ∨ s f = s' f) →
      forLoop lo hi step body s f = forLoop lo hi step body s' f := by
  induction m with
  | zero =>
    intro lo hm _ s s' f h
    have hlo : ¬ lo < hi := by omega
    rw [forLoop_done _ _ _ _ _ (fun h => hlo h.1), forLoop_done _ _ _ _ _ (fun h => hlo h.1)]
    rcases h with ⟨i, h1, h2, -⟩ | h
    · omega
    · exact h
  | succ m ih =>
    intro lo hm hbody s s' f h
    by_cases hlt : lo < hi
    · rw [forLoop_next _ _ _ _ _ hlt hstep, forLoop_next _ _ _ _ _ hlt hstep]
      have hb' : ∀ i, lo + step ≤ i → i < hi → step ∣ (i - (lo + step)) →
          ∀ s s' f, (D i f ∨ s f = s' f) → body i s f = body i s' f := by
        intro i h1 h2 h3
        apply hbody i (by omega) h2
        have : i - lo = (i - (lo + step)) + step := by ring
        rw [this]
        exact dvd_add h3 (dvd_refl _)
      apply ih (lo + step) (by omega) hb'
      rcases h with ⟨i, a, b, c, d⟩ | h
      · by_cases hil : i = lo
        · subst hil
          exact Or.inr (hbody i le_rfl hlt (by simp) s s' f (Or.inl d))
        · left
          obtain ⟨t, ht⟩ := c
          have ht1 : 1 ≤ t := by
            by_contra hcon
            have : t ≤ 0 := by omega
            have : step * t ≤ 0 := by nlinarith
            omega
          refine ⟨i, ?_, b, ?_, d⟩
          · have : step * 1 ≤ step * t := by nlinarith
            omega
          · exact ⟨t - 1, by rw [mul_sub, ← ht]; ring⟩
      · exact Or.inr (hbody lo le_rfl hlt (by simp) s s' f (Or.inr h))
    · rw [forLoop_done _ _ _ _ _ (fun h => hlt h.1), forLoop_done _ _ _ _ _ (fun h => hlt h.1)]
      rcases h with ⟨i, h1, h2, -⟩ | h
      · omega
      · exact h

/-- The body of `rhs_eval` settles the entries of its two SIMD stores: there the result
does not depend on the prior contents of the output buffer. -/
theorem rhs_eval_body_settles {K : Type} [Field K] {n : Nat} (W : Nat) (p : paramstruct K)
    (in_gfs : Fin n → K) (i0 i1 i2 : Int) (s s' : Fin n → K) (f : Fin n)
    (h : bodyWrites W p i0 i1 i2 f ∨ s f = s' f) :
    rhs_eval_body W p in_gfs i0 i1 i2 s f = rhs_eval_body W p in_gfs i0 i1 i2 s' f := by
  rw [rhs_eval_body_eq, rhs_eval_body_eq]
  simp only [WriteSIMD]
  by_cases hV : IDX4S p VVGF i0 i1 i2 ≤ (f.val : Int) ∧
      (f.val : Int) < IDX4S p VVGF i0 i1 i2 + W
  · rw [dif_pos hV, dif_pos hV]
  · rw [dif_neg hV, dif_neg hV]
    by_cases hU : IDX4S p UUGF i0 i1 i2 ≤ (f.val : Int) ∧
        (f.val : Int) < IDX4S p UUGF i0 i1 i2 + W
    · rw [dif_pos hU, dif_pos hU]
    · rw [dif_neg hU, dif_neg hU]
      rcases h with ⟨l, l0, l1, hl | hl⟩ | h
      · rw [← IDX4S_lane] at hl
        exact absurd ⟨by omega, by omega⟩ hU
      · rw [← IDX4S_lane] at hl
        exact absurd ⟨by omega, by omega⟩ hV
      · exact h

/-- At the offset of an interior point the value `rhs_eval` leaves does not depend on the
prior contents of the output buffer, whatever the batch width. -/
theorem rhs_eval_interior_indep {K : Type} [Field K] {n : Nat} (W : Nat) (hW : 0 < W)
    (p : paramstruct K) (in_gfs in_gfs' rhs_gfs rhs_gfs' : Fin n → K) (hin : in_gfs = in_gfs')
    (f : Fin n) (hf : interiorOffset p f) :
    rhs_eval W p in_gfs rhs_gfs f = rhs_eval W p in_gfs' rhs_gfs' f := by
  subst hin
  have hWi : (0 : Int) < (W : Int) := by exact_mod_cast hW
  have hcov := interior_batchCovered W hW p f hf
  unfold batchCovered at hcov
  unfold rhs_eval
  refine forLoop_settles (fun i2 f => ∃ i1, NGHOSTS ≤ i1 ∧ i1 < NGHOSTS + p.Nxx1 ∧
      (1 : Int) ∣ (i1 - NGHOSTS) ∧ ∃ i0, NGHOSTS ≤ i0 ∧ i0 < NGHOSTS + p.Nxx0 ∧
        (W : Int) ∣ (i0 - NGHOSTS) ∧ bodyWrites W p i0 i1 i2 f) _ _ _ one_pos _ NGHOSTS le_rfl
    ?_ rhs_gfs rhs_gfs' f (Or.inl hcov)
  intro i2 _ _ _ s s' f h
  refine forLoop_settles (fun i1 f => ∃ i0, NGHOSTS ≤ i0 ∧ i0 < NGHOSTS + p.Nxx0 ∧
        (W : Int) ∣ (i0 - NGHOSTS) ∧ bodyWrites W p i0 i1 i2 f) _ _ _ one_pos _ NGHOSTS le_rfl
    ?_ s s' f h
  intro i1 _ _ _ s s' f h
  refine forLoop_settles (fun i0 f => bodyWrites W p i0 i1 i2 f) _ _ _ hWi _ NGHOSTS le_rfl
    ?_ s s' f h
  intro i0 _ _ _ s s' f h
  exact rhs_eval_body_settles W p in_gfs i0 i1 i2 s s' f h

/-- C20: if `apply_bcs` leaves the interior entries unchanged and sets every ghost entry to
a function of the interior entries of the same buffer only, then the `y_n_gfs` left by one
pass of the RK4 block (with the `rhs_eval` of `rhs_eval.h`, whatever its batch width
`W > 0`) does not depend on the prior contents of `k_odd_gfs`, `k_even_gfs` and
`y_nplus1_running_total_gfs`: two states with the same `y_n_gfs` end with the same
`y_n_gfs`. -/
theorem C20_scratch_independence {K : Type} [Field K] {n : Nat} (W : Nat) (hW : 0 < W)
    (p : paramstruct K) (hn : (n : Int) = NUM_EVOL_GFS * Nxx_plus_2NGHOSTS_tot p)
    (apply_bcs : paramstruct K → (Fin n → K) → (Fin n → K))
    (hint : ∀ (b : Fin n → K) (f : Fin n), interiorOffset p f → apply_bcs p b f = b f)
    (hghost : ∀ b b' : Fin n → K, (∀ f, interiorOffset p f → b f = b' f) →
      ∀ f, ¬ interiorOffset p f → apply_bcs p b f = apply_bcs p b' f)
    (dt : K) (s s' : MoLState K n) (hy : s.y_n_gfs = s'.y_n_gfs) :
    (RK_MoL (rhs_eval W) apply_bcs p dt s).y_n_gfs
      = (RK_MoL (rhs_eval W) apply_bcs p dt s').y_n_gfs := by
  have hBC : ∀ b b' : Fin n → K, (∀ f, interiorOffset p f → b f = b' f) →
      apply_bcs p b = apply_bcs p b' := by
    intro b b' h
    funext f
    by_cases hf : interiorOffset p f
    · rw [hint b f hf, hint b' f hf, h f hf]
    · exact hghost b b' h f hf
  have hR := rhs_eval_interior_indep (n := n) W hW p
  have k1 : ∀ f, interiorOffset p f → RK4_k1 (rhs_eval W) p s f = RK4_k1 (rhs_eval W) p s' f :=
    fun f hf => hR _ _ _ _ hy f hf
  have y1 : RK4_y1 (rhs_eval W) apply_bcs p dt s = RK4_y1 (rhs_eval W) apply_bcs p dt s' := by
    unfold RK4_y1
    exact hBC _ _ (fun f hf => by rw [hy, k1 f hf])
  have k2 : ∀ f, interiorOffset p f →
      RK4_k2 (rhs_eval W) apply_bcs p dt s f = RK4_k2 (rhs_eval W) apply_bcs p dt s' f :=
    fun f hf => hR _ _ _ _ y1 f hf
  have y2 : RK4_y2 (rhs_eval W) apply_bcs p dt s = RK4_y2 (rhs_eval W) apply_bcs p dt s' := by
    unfold RK4_y2
    exact hBC _ _ (fun f hf => by rw [hy, k2 f hf])
  have k3 : ∀ f, interiorOffset p f →
      RK4_k3 (rhs_eval W) apply_bcs p dt s f = RK4_k3 (rhs_eval W) apply_bcs p dt s' f :=
    fun f hf => hR _ _ _ _ y2 f hf
  have y3 : RK4_y3 (rhs_eval W) apply_bcs p dt s = RK4_y3 (rhs_eval W) apply_bcs p dt s' := by
    unfold RK4_y3
    exact hBC _ _ (fun f hf => by rw [hy, k3 f hf])
  have k4 : ∀ f, interiorOffset p f →
      RK4_k4 (rhs_eval W) apply_bcs p dt s f = RK4_k4 (rhs_eval W) apply_bcs p dt s' f :=
    fun f hf => hR _ _ _ _ y3 f hf
  rw [RK_MoL_y_n (rhs_eval W) apply_bcs p hn dt s, RK_MoL_y_n (rhs_eval W) apply_bcs p hn dt s']
  exact hBC _ _ (fun f hf => by rw [hy, k1 f hf, k2 f hf, k3 f hf, k4 f hf])

/-- C20 on the `N = 2` grid with the boundary operator that zeroes the ghost entries:
scratch buffers full of ones or of zeros give the same `y_n_gfs`. -/
theorem C20_scratch_independence_witness :
    (RK_MoL (rhs_eval 1)
        (fun p b f => @ite _ (interiorOffset p f) (Classical.propDecidable _) (b f) 0)
        (free_parameters (K := ℚ) 2) 5
        (⟨fun _ => 1, fun _ => 1, fun _ => 1, fun _ => 1⟩ : MoLState ℚ 432)).y_n_gfs
      = (RK_MoL (rhs_eval 1)
        (fun p b f => @ite _ (interiorOffset p f) (Classical.propDecidable _) (b f) 0)
        (free_parameters (K := ℚ) 2) 5
        (⟨fun _ => 1, fun _ => 0, fun _ => 0, fun _ => 0⟩ : MoLState ℚ 432)).y_n_gfs :=
  C20_scratch_independence 1 (by decide) (free_parameters (K := ℚ) 2) (by decide)
    (fun p b f => @ite _ (interiorOffset p f) (Classical.propDecidable _) (b f) 0)
    (fun _ _ hf => if_pos hf)
    (fun _ _ _ _ hf => (if_neg hf).trans (if_neg hf).symm)
    5 _ _ rfl

/-! ## C13, C14: the exact solution and the initial data of the thorn -/

/-- Derivative of `2 - sin` of an affine phase. -/
theorem hasDerivAt_two_sub_sin_affine (a b x : ℝ) :
    HasDerivAt (fun ξ : ℝ => 2 - Real.sin (a * ξ + b)) (-(a * Real.cos (a * x + b))) x := by
  have h1 : HasDerivAt (fun ξ : ℝ => a * ξ + b) a x := by
    simpa using ((hasDerivAt_id x).const_mul a).add_const b
  have h2 := (h1.sin).const_sub 2
  convert h2 using 1
  ring

/-- Derivative of a multiple of `cos` of an affine phase. -/
theorem hasDerivAt_mul_cos_affine (C a b x : ℝ) :
    HasDerivAt (fun ξ : ℝ => C * Real.cos (a * ξ + b)) (C * a * Real.sin (a * x + b) * (-1)) x := by
  have h1 : HasDerivAt (fun ξ : ℝ => a * ξ + b) a x := by
    simpa using ((hasDerivAt_id x).const_mul a).add_const b
  have h2 := (h1.cos).const_mul C
  convert h2 using 1
  ring

/-- Second derivative of `2 - sin` of an affine phase, with the differentiability that makes
the `deriv`s genuine. -/
theorem deriv2_two_sub_sin_affine (a b x : ℝ) :
    deriv (deriv (fun ξ : ℝ => 2 - Real.sin (a * ξ + b))) x = a ^ 2 * Real.sin (a * x + b) ∧
    DifferentiableAt ℝ (fun ξ : ℝ => 2 - Real.sin (a * ξ + b)) x ∧
    DifferentiableAt ℝ (deriv (fun ξ : ℝ => 2 - Real.sin (a * ξ + b))) x := by
  have hd : deriv (fun ξ : ℝ => 2 - Real.sin (a * ξ + b))
      = fun ξ : ℝ => (-a) * Real.cos (a * ξ + b) := by
    funext ξ
    rw [(hasDerivAt_two_sub_sin_affine a b ξ).deriv]
    ring
  have h2 := hasDerivAt_mul_cos_affine (-a) a b x
  refine ⟨?_, (hasDerivAt_two_sub_sin_affine a b x).differentiableAt, ?_⟩
  · rw [hd, h2.deriv]
    ring
  · rw [hd]
    exact h2.differentiableAt

/-- The exact solution over the reals as `2 - sin` and `-wavespeed * cos` of the phase
`t*wavespeed - (kk.x)/|kk|`. -/
theorem exact_solution_single_point_real (p : paramstruct ℝ) (x y z : ℝ) :
    exact_solution_single_point ⟨Real.sin, Real.cos, Real.sqrt⟩ x y z p
      = (2 - Real.sin (p.time * p.wavespeed - (p.kk0 * x + p.kk1 * y + p.kk2 * z)
            / Real.sqrt (p.kk0 * p.kk0 + p.kk1 * p.kk1 + p.kk2 * p.kk2)),
         -p.wavespeed * Real.cos (p.time * p.wavespeed - (p.kk0 * x + p.kk1 * y + p.kk2 * z)
            / Real.sqrt (p.kk0 * p.kk0 + p.kk1 * p.kk1 + p.kk2 * p.kk2))) := rfl

/-- C13: for every nonzero wavevector and every wavespeed, the pair that
`exact_solution_single_point` returns over the reals (with the real `sin`, `cos`, `sqrt`)
is `uu = 2 - sin(phase)`, `vv = -wavespeed*cos(phase)` with
`phase = t*wavespeed - (kk.x)/|kk|`, `|kk| = sqrt(kk0^2 + kk1^2 + kk2^2)`, and as a function
of `(x,y,z,t)` it solves the system the RHS discretises: `d(uu)/dt = vv` and
`d(vv)/dt = wavespeed^2 * (d2/dx2 + d2/dy2 + d2/dz2) uu`, the derivatives existing. -/
theorem C13_exact_solution (p : paramstruct ℝ)
    (hk : ¬ (p.kk0 = 0 ∧ p.kk1 = 0 ∧ p.kk2 = 0)) (x y z t : ℝ) :
    exact_solution_single_point ⟨Real.sin, Real.cos, Real.sqrt⟩ x y z { p with time := t } =
      (2 - Real.sin (t * p.wavespeed - (p.kk0 * x + p.kk1 * y + p.kk2 * z) /
          Real.sqrt (p.kk0 ^ 2 + p.kk1 ^ 2 + p.kk2 ^ 2)),
        -p.wavespeed * Real.cos (t * p.wavespeed - (p.kk0 * x + p.kk1 * y + p.kk2 * z) /
          Real.sqrt (p.kk0 ^ 2 + p.kk1 ^ 2 + p.kk2 ^ 2))) ∧
    HasDerivAt
      (fun τ => (exact_solution_single_point ⟨Real.sin, Real.cos, Real.sqrt⟩ x y z
        { p with time := τ }).1)
      (exact_solution_single_point ⟨Real.sin, Real.cos, Real.sqrt⟩ x y z
        { p with time := t }).2 t ∧
    HasDerivAt
      (fun τ => (exact_solution_single_point ⟨Real.sin, Real.cos, Real.sqrt⟩ x y z
        { p with time := τ }).2)
      (p.wavespeed ^ 2 *
        (deriv (deriv (fun ξ => (exact_solution_single_point ⟨Real.sin, Real.cos, Real.sqrt⟩
            ξ y z { p with time := t }).1)) x
          + deriv (deriv (fun η => (exact_solution_single_point ⟨Real.sin, Real.cos, Real.sqrt⟩
            x η z { p with time := t }).1)) y
          + deriv (deriv (fun ζ => (exact_solution_single_point ⟨Real.sin, Real.cos, Real.sqrt⟩
            x y ζ { p with time := t }).1)) z)) t ∧
    (DifferentiableAt ℝ (fun ξ => (exact_solution_single_point
        ⟨Real.sin, Real.cos, Real.sqrt⟩ ξ y z { p with time := t }).1) x ∧
      DifferentiableAt ℝ (deriv (fun ξ => (exact_solution_single_point
        ⟨Real.sin, Real.cos, Real.sqrt⟩ ξ y z { p with time := t }).1)) x) ∧
    (DifferentiableAt ℝ (fun η => (exact_solution_single_point
        ⟨Real.sin, Real.cos, Real.sqrt⟩ x η z { p with time := t }).1) y ∧
      DifferentiableAt ℝ (deriv (fun η => (exact_solution_single_point
        ⟨Real.sin, Real.cos, Real.sqrt⟩ x η z { p with time := t }).1)) y) ∧
    (DifferentiableAt ℝ (fun ζ => (exact_solution_single_point
        ⟨Real.sin, Real.cos, Real.sqrt⟩ x y ζ { p with time := t }).1) z ∧
      DifferentiableAt ℝ (deriv (fun ζ => (exact_solution_single_point
        ⟨Real.sin, Real.cos, Real.sqrt⟩ x y ζ { p with time := t }).1)) z) := by
  refine ⟨?_, ?_⟩
  · rw [exact_solution_single_point_real]
    simp only [sq]
  simp only [exact_solution_single_point_real]
  set c := p.wavespeed with hc
  set k0 := p.kk0
  set k1 := p.kk1
  set k2 := p.kk2
  set s := Real.sqrt (k0 * k0 + k1 * k1 + k2 * k2) with hs
  have hpos : 0 < k0 * k0 + k1 * k1 + k2 * k2 := by
    by_contra hle
    have h0 := mul_self_nonneg k0
    have h1 := mul_self_nonneg k1
    have h2 := mul_self_nonneg k2
    have e0 : k0 * k0 = 0 := by linarith
    have e1 : k1 * k1 = 0 := by linarith
    have e2 : k2 * k2 = 0 := by linarith
    exact hk ⟨mul_self_eq_zero.1 e0, mul_self_eq_zero.1 e1, mul_self_eq_zero.1 e2⟩
  have hs0 : s ≠ 0 := (Real.sqrt_pos.2 hpos).ne'
  have hss : s * s = k0 * k0 + k1 * k1 + k2 * k2 := Real.mul_self_sqrt hpos.le
  -- the four one-variable restrictions, as `2 - sin` of an affine phase
  have eT : (fun τ : ℝ => 2 - Real.sin (τ * c - (k0 * x + k1 * y + k2 * z) / s))
      = fun τ : ℝ => 2 - Real.sin (c * τ + (-((k0 * x + k1 * y + k2 * z) / s))) := by
    funext τ; congr 2; ring
  have eV : (fun τ : ℝ => -c * Real.cos (τ * c - (k0 * x + k1 * y + k2 * z) / s))
      = fun τ : ℝ => (-c) * Real.cos (c * τ + (-((k0 * x + k1 * y + k2 * z) / s))) := by
    funext τ; congr 2; ring
  have eX : (fun ξ : ℝ => 2 - Real.sin (t * c - (k0 * ξ + k1 * y + k2 * z) / s))
      = fun ξ : ℝ => 2 - Real.sin ((-(k0 / s)) * ξ + (t * c - (k1 * y + k2 * z) / s)) := by
    funext ξ; congr 2; ring
  have eY : (fun η : ℝ => 2 - Real.sin (t * c - (k0 * x + k1 * η + k2 * z) / s))
      = fun η : ℝ => 2 - Real.sin ((-(k1 / s)) * η + (t * c - (k0 * x + k2 * z) / s)) := by
    funext η; congr 2; ring
  have eZ : (fun ζ : ℝ => 2 - Real.sin (t * c - (k0 * x + k1 * y + k2 * ζ) / s))
      = fun ζ : ℝ => 2 - Real.sin ((-(k2 / s)) * ζ + (t * c - (k0 * x + k1 * y) / s)) := by
    funext ζ; congr 2; ring
  rw [eT, eV, eX, eY, eZ]
  obtain ⟨dX, dX1, dX2⟩ := deriv2_two_sub_sin_affine (-(k0 / s)) (t * c - (k1 * y + k2 * z) / s) x
  obtain ⟨dY, dY1, dY2⟩ := deriv2_two_sub_sin_affine (-(k1 / s)) (t * c - (k0 * x + k2 * z) / s) y
  obtain ⟨dZ, dZ1, dZ2⟩ := deriv2_two_sub_sin_affine (-(k2 / s)) (t * c - (k0 * x + k1 * y) / s) z
  refine ⟨?_, ?_, ⟨dX1, dX2⟩, ⟨dY1, dY2⟩, ⟨dZ1, dZ2⟩⟩
  · have h := hasDerivAt_two_sub_sin_affine c (-((k0 * x + k1 * y + k2 * z) / s)) t
    convert h using 1
    have : t * c - (k0 * x + k1 * y + k2 * z) / s = c * t + -((k0 * x + k1 * y + k2 * z) / s) := by
      ring
    rw [this]
    ring
  · have h := hasDerivAt_mul_cos_affine (-c) c (-((k0 * x + k1 * y + k2 * z) / s)) t
    convert h using 1
    rw [dX, dY, dZ]
    have e1 : -(k0 / s) * x + (t * c - (k1 * y + k2 * z) / s)
        = c * t + -((k0 * x + k1 * y + k2 * z) / s) := by ring
    have e2 : -(k1 / s) * y + (t * c - (k0 * x + k2 * z) / s)
        = c * t + -((k0 * x + k1 * y + k2 * z) / s) := by ring
    have e3 : -(k2 / s) * z + (t * c - (k0 * x + k1 * y) / s)
        = c * t + -((k0 * x + k1 * y + k2 * z) / s) := by ring
    rw [e1, e2, e3]
    have hsum : (-(k0 / s)) ^ 2 + (-(k1 / s)) ^ 2 + (-(k2 / s)) ^ 2 = 1 := by
      field_simp
      nlinarith [hss]
    have : ∀ S : ℝ, c ^ 2 * ((-(k0 / s)) ^ 2 * S + (-(k1 / s)) ^ 2 * S + (-(k2 / s)) ^ 2 * S)
        = c ^ 2 * (((-(k0 / s)) ^ 2 + (-(k1 / s)) ^ 2 + (-(k2 / s)) ^ 2) * S) := by
      intro S; ring
    rw [this, hsum]
    ring

/-- A loop commutes with a projection of the state that its body respects. -/
theorem forLoop_map {σ τ : Type} (π : σ → τ) (body : Int → σ → σ) (body' : Int → τ → τ)
    (hi step : Int) (h : ∀ i s, π (body i s) = body' i (π s)) (m : Nat) :
    ∀ (lo : Int) (s : σ), (hi - lo).toNat ≤ m →
      π (forLoop lo hi step body s) = forLoop lo hi step body' (π s) := by
  induction m with
  | zero =>
    intro lo s hm
    have hlo : ¬ lo < hi := by omega
    rw [forLoop_done _ _ _ _ _ (fun h => hlo h.1), forLoop_done _ _ _ _ _ (fun h => hlo h.1)]
  | succ m ih =>
    intro lo s hm
    by_cases hc : lo < hi ∧ 0 < step
    · rw [forLoop_next _ _ _ _ _ hc.1 hc.2, forLoop_next _ _ _ _ _ hc.1 hc.2,
        ih (lo + step) (body lo s) (by omega), h]
    · rw [forLoop_done _ _ _ _ _ hc, forLoop_done _ _ _ _ _ hc]

open Classical in
/-- A nest of three unit-stride loops whose body stores, at the offset `idx i0 i1 i2`, a
value that depends on the offset only: afterwards an entry holds that value if its offset is
the `idx` of a visited index triple, and is unchanged otherwise. -/
theorem forLoop3_store {K : Type} {n : Nat} (idx : Int → Int → Int → Int) (v : Fin n → K)
    (val : Int → Int → Int → K) (lo0 hi0 lo1 hi1 lo2 hi2 : Int)
    (hval : ∀ i0 i1 i2 (f : Fin n), (lo0 ≤ i0 ∧ i0 < hi0) → (lo1 ≤ i1 ∧ i1 < hi1) →
      (lo2 ≤ i2 ∧ i2 < hi2) → (f.val : Int) = idx i0 i1 i2 → val i0 i1 i2 = v f)
    (a : Fin n → K) (f : Fin n) :
    forLoop lo2 hi2 1 (fun i2 a => forLoop lo1 hi1 1 (fun i1 a => forLoop lo0 hi0 1
        (fun i0 a => storeREAL a (idx i0 i1 i2) (val i0 i1 i2)) a) a) a f =
      if (∃ i0 i1 i2, (lo0 ≤ i0 ∧ i0 < hi0) ∧ (lo1 ≤ i1 ∧ i1 < hi1) ∧ (lo2 ≤ i2 ∧ i2 < hi2) ∧
          (f.val : Int) = idx i0 i1 i2) then v f else a f := by
  have inner : ∀ i1 i2, (lo1 ≤ i1 ∧ i1 < hi1) → (lo2 ≤ i2 ∧ i2 < hi2) →
      ∀ (s : Fin n → K) (f : Fin n),
      forLoop lo0 hi0 1 (fun i0 a => storeREAL a (idx i0 i1 i2) (val i0 i1 i2)) s f =
        if (∃ i0, lo0 ≤ i0 ∧ i0 < hi0 ∧ (1 : Int) ∣ (i0 - lo0) ∧ (f.val : Int) = idx i0 i1 i2)
          then v f else s f := by
    intro i1 i2 h1 h2 s f
    refine forLoop_override v (fun i0 f => (f.val : Int) = idx i0 i1 i2) _ _ _ one_pos _ lo0
      le_rfl ?_ s f
    intro i0 a0 b0 _ s f
    unfold storeREAL
    by_cases hf : (f.val : Int) = idx i0 i1 i2
    · rw [if_pos hf, if_pos hf]
      exact hval i0 i1 i2 f ⟨a0, b0⟩ h1 h2 hf
    · rw [if_neg hf, if_neg hf]
  have middle : ∀ i2, (lo2 ≤ i2 ∧ i2 < hi2) → ∀ (s : Fin n → K) (f : Fin n),
      forLoop lo1 hi1 1 (fun i1 a => forLoop lo0 hi0 1
        (fun i0 a => storeREAL a (idx i0 i1 i2) (val i0 i1 i2)) a) s f =
        if (∃ i1, lo1 ≤ i1 ∧ i1 < hi1 ∧ (1 : Int) ∣ (i1 - lo1) ∧
          ∃ i0, lo0 ≤ i0 ∧ i0 < hi0 ∧ (1 : Int) ∣ (i0 - lo0) ∧ (f.val : Int) = idx i0 i1 i2)
          then v f else s f := by
    intro i2 h2 s f
    refine forLoop_override v (fun i1 f => ∃ i0, lo0 ≤ i0 ∧ i0 < hi0 ∧ (1 : Int) ∣ (i0 - lo0) ∧
      (f.val : Int) = idx i0 i1 i2) _ _ _ one_pos _ lo1 le_rfl ?_ s f
    intro i1 a1 b1 _ s f
    exact inner i1 i2 ⟨a1, b1⟩ h2 s f
  have outer := forLoop_override v (fun i2 f => ∃ i1, lo1 ≤ i1 ∧ i1 < hi1 ∧
      (1 : Int) ∣ (i1 - lo1) ∧ ∃ i0, lo0 ≤ i0 ∧ i0 < hi0 ∧ (1 : Int) ∣ (i0 - lo0) ∧
        (f.val : Int) = idx i0 i1 i2)
    (fun i2 a => forLoop lo1 hi1 1 (fun i1 a => forLoop lo0 hi0 1
        (fun i0 a => storeREAL a (idx i0 i1 i2) (val i0 i1 i2)) a) a)
    hi2 1 one_pos _ lo2 le_rfl (fun i2 a2 b2 _ s f => middle i2 ⟨a2, b2⟩ s f) a f
  rw [outer]
  refine if_congr ?_ rfl rfl
  constructor
  · rintro ⟨i2, a2, b2, -, i1, a1, b1, -, i0, a0, b0, -, h⟩
    exact ⟨i0, i1, i2, ⟨a0, b0⟩, ⟨a1, b1⟩, ⟨a2, b2⟩, h⟩
  · rintro ⟨i0, i1, i2, ⟨a0, b0⟩, ⟨a1, b1⟩, ⟨a2, b2⟩, h⟩
    exact ⟨i2, a2, b2, one_dvd _, i1, a1, b1, one_dvd _, i0, a0, b0, one_dvd _, h⟩

open Classical in
/-- What `IDScalarWaveNRPy_InitialData` leaves in `uuGF` and `vvGF`: at the offset of a
visited point the value `exact_solution_single_point` gives for the coordinates stored at
that offset and the time `cctk_time`; any other entry as it was. -/
theorem IDScalarWaveNRPy_InitialData_apply {K : Type} [Field K] {n : Nat} (libm : math_h K)
    (cctkGH : CCTK_ARGUMENTS K n) (p : paramstruct K) (gfs : ScalarWaveGFs K n) (f : Fin n) :
    (IDScalarWaveNRPy_InitialData libm cctkGH gfs).uuGF f =
      (if (∃ i0 i1 i2, PWID_point cctkGH i0 i1 i2 ∧
          (f.val : Int) = CCTK_GFINDEX3D cctkGH i0 i1 i2)
        then (exact_solution_single_point libm (cctkGH.x f) (cctkGH.y f) (cctkGH.z f)
          (thorn_params cctkGH p cctkGH.cctk_time)).1 else gfs.uuGF f) ∧
    (IDScalarWaveNRPy_InitialData libm cctkGH gfs).vvGF f =
      (if (∃ i0 i1 i2, PWID_point cctkGH i0 i1 i2 ∧
          (f.val : Int) = CCTK_GFINDEX3D cctkGH i0 i1 i2)
        then (exact_solution_single_point libm (cctkGH.x f) (cctkGH.y f) (cctkGH.z f)
          (thorn_params cctkGH p cctkGH.cctk_time)).2 else gfs.vvGF f) := by
  have hP : (∃ i0 i1 i2, PWID_point cctkGH i0 i1 i2 ∧
        (f.val : Int) = CCTK_GFINDEX3D cctkGH i0 i1 i2) ↔
      (∃ i0 i1 i2, (1 ≤ i0 ∧ i0 < cctkGH.cctk_lsh 0 - 1) ∧
        (1 ≤ i1 ∧ i1 < cctkGH.cctk_lsh 1 - 1) ∧ (1 ≤ i2 ∧ i2 < cctkGH.cctk_lsh 2 - 1) ∧
        (f.val : Int) = CCTK_GFINDEX3D cctkGH i0 i1 i2) := by
    unfold PWID_point
    constructor
    · rintro ⟨i0, i1, i2, ⟨h0, h1, h2⟩, h⟩
      exact ⟨i0, i1, i2, h0, h1, h2, h⟩
    · rintro ⟨i0, i1, i2, h0, h1, h2, h⟩
      exact ⟨i0, i1, i2, ⟨h0, h1, h2⟩, h⟩
  unfold IDScalarWaveNRPy_InitialData
  constructor
  · rw [forLoop_map ScalarWaveGFs.uuGF _
      (fun i2 a => forLoop 1 (cctkGH.cctk_lsh 1 - 1) 1 (fun i1 a =>
        forLoop 1 (cctkGH.cctk_lsh 0 - 1) 1 (fun i0 a =>
          storeREAL a (CCTK_GFINDEX3D cctkGH i0 i1 i2)
            (exact_solution_single_point libm
              (loadREAL cctkGH.x (CCTK_GFINDEX3D cctkGH i0 i1 i2))
              (loadREAL cctkGH.y (CCTK_GFINDEX3D cctkGH i0 i1 i2))
              (loadREAL cctkGH.z (CCTK_GFINDEX3D cctkGH i0 i1 i2))
              (thorn_params cctkGH p cctkGH.cctk_time)).1) a) a) _ _
      (fun i2 s => forLoop_map ScalarWaveGFs.uuGF _ _ _ _
        (fun i1 s => forLoop_map ScalarWaveGFs.uuGF _ _ _ _ (fun i0 s => rfl) _ _ _ le_rfl)
        _ _ _ le_rfl) _ _ _ le_rfl]
    rw [forLoop3_store (fun i0 i1 i2 => CCTK_GFINDEX3D cctkGH i0 i1 i2)
      (fun f => (exact_solution_single_point libm (cctkGH.x f) (cctkGH.y f) (cctkGH.z f)
          (thorn_params cctkGH p cctkGH.cctk_time)).1)]
    · exact if_congr hP.symm rfl rfl
    · intro i0 i1 i2 f _ _ _ hf
      dsimp only
      rw [← hf, loadREAL_fin, loadREAL_fin, loadREAL_fin]
  · rw [forLoop_map ScalarWaveGFs.vvGF _
      (fun i2 a => forLoop 1 (cctkGH.cctk_lsh 1 - 1) 1 (fun i1 a =>
        forLoop 1 (cctkGH.cctk_lsh 0 - 1) 1 (fun i0 a =>
          storeREAL a (CCTK_GFINDEX3D cctkGH i0 i1 i2)
            (exact_solution_single_point libm
              (loadREAL cctkGH.x (CCTK_GFINDEX3D cctkGH i0 i1 i2))
              (loadREAL cctkGH.y (CCTK_GFINDEX3D cctkGH i0 i1 i2))
              (loadREAL cctkGH.z (CCTK_GFINDEX3D cctkGH i0 i1 i2))
              (thorn_params cctkGH p cctkGH.cctk_time)).2) a) a) _ _
      (fun i2 s => forLoop_map ScalarWaveGFs.vvGF _ _ _ _
        (fun i1 s => forLoop_map ScalarWaveGFs.vvGF _ _ _ _ (fun i0 s => rfl) _ _ _ le_rfl)
        _ _ _ le_rfl) _ _ _ le_rfl]
    rw [forLoop3_store (fun i0 i1 i2 => CCTK_GFINDEX3D cctkGH i0 i1 i2)
      (fun f => (exact_solution_single_point libm (cctkGH.x f) (cctkGH.y f) (cctkGH.z f)
          (thorn_params cctkGH p cctkGH.cctk_time)).2)]
    · exact if_congr hP.symm rfl rfl
    · intro i0 i1 i2 f _ _ _ hf
      dsimp only
      rw [← hf, loadREAL_fin, loadREAL_fin, loadREAL_fin]

/-- The offset of a point of the local grid lies inside the buffers. -/
theorem CCTK_GFINDEX3D_bounds {K : Type} {n : Nat} (cctkGH : CCTK_ARGUMENTS K n)
    (hs : CCTK_storage_ok cctkGH) (i0 i1 i2 : Int) (h0 : 0 ≤ i0 ∧ i0 < cctkGH.cctk_lsh 0)
    (h1 : 0 ≤ i1 ∧ i1 < cctkGH.cctk_lsh 1) (h2 : 0 ≤ i2 ∧ i2 < cctkGH.cctk_lsh 2) :
    0 ≤ CCTK_GFINDEX3D cctkGH i0 i1 i2 ∧ CCTK_GFINDEX3D cctkGH i0 i1 i2 < n := by
  obtain ⟨hle, hn⟩ := hs
  have l0 := hle 0
  have l1 := hle 1
  have l2 := hle 2
  unfold CCTK_GFINDEX3D
  rw [hn]
  set A := cctkGH.cctk_ash 0
  set B := cctkGH.cctk_ash 1
  set C := cctkGH.cctk_ash 2
  have hA : 0 < A := by omega
  have hB : 0 < B := by omega
  have e1 : 0 ≤ B * i2 := mul_nonneg hB.le h2.1
  have e2 : B * i2 ≤ B * (C - 1) := mul_le_mul_of_nonneg_left (by omega) hB.le
  have e3 : 0 ≤ A * (i1 + B * i2) := mul_nonneg hA.le (by omega)
  have e4 : A * (i1 + B * i2) ≤ A * (B * C - 1) :=
    mul_le_mul_of_nonneg_left (by rw [mul_sub, mul_one] at e2; omega) hA.le
  have e5 : A * (B * C - 1) = A * B * C - A := by ring
  constructor
  · omega
  · omega

/-- C14 as stated fails when `cctk_time` is not 0: on a `3 x 3 x 3` local grid with
`cctk_time = pi/2`, `wavespeed = 1`, wavevector `(1,0,0)` and all coordinates 0, the value
written to `uuGF` at the point `(1,1,1)` is not the value of
`exact_solution_single_point` at time 0 (it is 1, the other is 2). -/
theorem C14_counterexample :
    loadREAL (IDScalarWaveNRPy_InitialData ⟨Real.sin, Real.cos, Real.sqrt⟩
        (⟨fun _ => 3, fun _ => 3, Real.pi / 2, fun _ => 0, fun _ => 0, fun _ => 0, 1, 1, 0, 0⟩ :
          CCTK_ARGUMENTS ℝ 27) ⟨fun _ => 0, fun _ => 0⟩).uuGF 13
      ≠ (exact_solution_single_point ⟨Real.sin, Real.cos, Real.sqrt⟩ 0 0 0
          (thorn_params (⟨fun _ => 3, fun _ => 3, Real.pi / 2, fun _ => 0, fun _ => 0,
            fun _ => 0, 1, 1, 0, 0⟩ : CCTK_ARGUMENTS ℝ 27) (free_parameters 3) 0)).1 := by
  have h := (IDScalarWaveNRPy_InitialData_apply ⟨Real.sin, Real.cos, Real.sqrt⟩
    (⟨fun _ => 3, fun _ => 3, Real.pi / 2, fun _ => 0, fun _ => 0, fun _ => 0, 1, 1, 0, 0⟩ :
      CCTK_ARGUMENTS ℝ 27) (free_parameters 3) ⟨fun _ => 0, fun _ => 0⟩ ⟨13, by decide⟩).1
  rw [if_pos ⟨1, 1, 1, ⟨⟨by decide, by decide⟩, ⟨by decide, by decide⟩,
    ⟨by decide, by decide⟩⟩, by decide⟩] at h
  have e := loadREAL_fin (IDScalarWaveNRPy_InitialData ⟨Real.sin, Real.cos, Real.sqrt⟩
        (⟨fun _ => 3, fun _ => 3, Real.pi / 2, fun _ => 0, fun _ => 0, fun _ => 0, 1, 1, 0, 0⟩ :
          CCTK_ARGUMENTS ℝ 27) ⟨fun _ => 0, fun _ => 0⟩).uuGF ⟨13, by decide⟩
  have e13 : (((⟨13, by decide⟩ : Fin 27).val : Nat) : Int) = 13 := rfl
  rw [e13] at e
  rw [e, h]
  simp [exact_solution_single_point, thorn_params]

/-- C14, amended: at every point the loop nest visits (`1 ≤ i < cctk_lsh - 1` on each axis:
all but the outermost layer, so every non-ghost point of a grid with ghost width at least 1)
`IDScalarWaveNRPy_InitialData` leaves in `uuGF` and `vvGF` exactly the pair
`exact_solution_single_point` gives for the coordinates `x`, `y`, `z` stored at that point
and the time `cctk_time`; this is the `t = 0` pair when `cctk_time = 0`. -/
theorem C14_InitialData {K : Type} [Field K] {n : Nat} (libm : math_h K)
    (cctkGH : CCTK_ARGUMENTS K n) (hs : CCTK_storage_ok cctkGH) (p : paramstruct K)
    (gfs : ScalarWaveGFs K n) (i0 i1 i2 : Int) (hpt : PWID_point cctkGH i0 i1 i2) :
    (0 ≤ CCTK_GFINDEX3D cctkGH i0 i1 i2 ∧ CCTK_GFINDEX3D cctkGH i0 i1 i2 < n) ∧
    (loadREAL (IDScalarWaveNRPy_InitialData libm cctkGH gfs).uuGF
        (CCTK_GFINDEX3D cctkGH i0 i1 i2),
      loadREAL (IDScalarWaveNRPy_InitialData libm cctkGH gfs).vvGF
        (CCTK_GFINDEX3D cctkGH i0 i1 i2))
      = exact_solution_single_point libm
          (loadREAL cctkGH.x (CCTK_GFINDEX3D cctkGH i0 i1 i2))
          (loadREAL cctkGH.y (CCTK_GFINDEX3D cctkGH i0 i1 i2))
          (loadREAL cctkGH.z (CCTK_GFINDEX3D cctkGH i0 i1 i2))
          (thorn_params cctkGH p cctkGH.cctk_time) ∧
    (cctkGH.cctk_time = 0 →
      (loadREAL (IDScalarWaveNRPy_InitialData libm cctkGH gfs).uuGF
          (CCTK_GFINDEX3D cctkGH i0 i1 i2),
        loadREAL (IDScalarWaveNRPy_InitialData libm cctkGH gfs).vvGF
          (CCTK_GFINDEX3D cctkGH i0 i1 i2))
        = exact_solution_single_point libm
            (loadREAL cctkGH.x (CCTK_GFINDEX3D cctkGH i0 i1 i2))
            (loadREAL cctkGH.y (CCTK_GFINDEX3D cctkGH i0 i1 i2))
            (loadREAL cctkGH.z (CCTK_GFINDEX3D cctkGH i0 i1 i2))
            (thorn_params cctkGH p 0)) := by
  obtain ⟨⟨a0, b0⟩, ⟨a1, b1⟩, ⟨a2, b2⟩⟩ := id hpt
  have hb := CCTK_GFINDEX3D_bounds cctkGH hs i0 i1 i2 ⟨by omega, by omega⟩
    ⟨by omega, by omega⟩ ⟨by omega, by omega⟩
  obtain ⟨f, hf, hload⟩ := loadREAL_in_range (K := K) (CCTK_GFINDEX3D cctkGH i0 i1 i2) hb
  have happ := IDScalarWaveNRPy_InitialData_apply libm cctkGH p gfs f
  rw [if_pos ⟨i0, i1, i2, hpt, hf⟩, if_pos ⟨i0, i1, i2, hpt, hf⟩] at happ
  have key : (loadREAL (IDScalarWaveNRPy_InitialData libm cctkGH gfs).uuGF
        (CCTK_GFINDEX3D cctkGH i0 i1 i2),
      loadREAL (IDScalarWaveNRPy_InitialData libm cctkGH gfs).vvGF
        (CCTK_GFINDEX3D cctkGH i0 i1 i2))
      = exact_solution_single_point libm
          (loadREAL cctkGH.x (CCTK_GFINDEX3D cctkGH i0 i1 i2))
          (loadREAL cctkGH.y (CCTK_GFINDEX3D cctkGH i0 i1 i2))
          (loadREAL cctkGH.z (CCTK_GFINDEX3D cctkGH i0 i1 i2))
          (thorn_params cctkGH p cctkGH.cctk_time) := by
    rw [hload, hload, hload, hload, hload, happ.1, happ.2]
  refine ⟨hb, key, fun h0 => ?_⟩
  rw [key, h0]

/-- C14 (amended) on a `5 x 5 x 5` local grid over the rationals, with stand-ins for the
library functions, at the point `(2,2,2)`. -/
theorem C14_InitialData_witness :
    (loadREAL (IDScalarWaveNRPy_InitialData (⟨fun x => x, fun _ => 1, fun _ => 1⟩ : math_h ℚ)
        (⟨fun _ => 5, fun _ => 5, 0, fun _ => 1, fun _ => 2, fun _ => 3, 1, 1, 1, 1⟩ :
          CCTK_ARGUMENTS ℚ 125) ⟨fun _ => 0, fun _ => 0⟩).uuGF
        (CCTK_GFINDEX3D (⟨fun _ => 5, fun _ => 5, 0, fun _ => 1, fun _ => 2, fun _ => 3,
          1, 1, 1, 1⟩ : CCTK_ARGUMENTS ℚ 125) 2 2 2),
      loadREAL (IDScalarWaveNRPy_InitialData (⟨fun x => x, fun _ => 1, fun _ => 1⟩ : math_h ℚ)
        (⟨fun _ => 5, fun _ => 5, 0, fun _ => 1, fun _ => 2, fun _ => 3, 1, 1, 1, 1⟩ :
          CCTK_ARGUMENTS ℚ 125) ⟨fun _ => 0, fun _ => 0⟩).vvGF
        (CCTK_GFINDEX3D (⟨fun _ => 5, fun _ => 5, 0, fun _ => 1, fun _ => 2, fun _ => 3,
          1, 1, 1, 1⟩ : CCTK_ARGUMENTS ℚ 125) 2 2 2))
      = exact_solution_single_point (⟨fun x => x, fun _ => 1, fun _ => 1⟩ : math_h ℚ)
          (loadREAL (fun _ : Fin 125 => (1 : ℚ)) (CCTK_GFINDEX3D (⟨fun _ => 5, fun _ => 5, 0,
            fun _ => 1, fun _ => 2, fun _ => 3, 1, 1, 1, 1⟩ : CCTK_ARGUMENTS ℚ 125) 2 2 2))
          (loadREAL (fun _ : Fin 125 => (2 : ℚ)) (CCTK_GFINDEX3D (⟨fun _ => 5, fun _ => 5, 0,
            fun _ => 1, fun _ => 2, fun _ => 3, 1, 1, 1, 1⟩ : CCTK_ARGUMENTS ℚ 125) 2 2 2))
          (loadREAL (fun _ : Fin 125 => (3 : ℚ)) (CCTK_GFINDEX3D (⟨fun _ => 5, fun _ => 5, 0,
            fun _ => 1, fun _ => 2, fun _ => 3, 1, 1, 1, 1⟩ : CCTK_ARGUMENTS ℚ 125) 2 2 2))
          (thorn_params (⟨fun _ => 5, fun _ => 5, 0, fun _ => 1, fun _ => 2, fun _ => 3,
            1, 1, 1, 1⟩ : CCTK_ARGUMENTS ℚ 125) (free_parameters 5) 0) :=
  (C14_InitialData (⟨fun x => x, fun _ => 1, fun _ => 1⟩ : math_h ℚ)
    (⟨fun _ => 5, fun _ => 5, 0, fun _ => 1, fun _ => 2, fun _ => 3, 1, 1, 1, 1⟩ :
      CCTK_ARGUMENTS ℚ 125)
    ⟨fun _ => le_rfl, by decide⟩ (free_parameters 5) ⟨fun _ => 0, fun _ => 0⟩ 2 2 2
    ⟨⟨by decide, by decide⟩, ⟨by decide, by decide⟩, ⟨by decide, by decide⟩⟩).2.1

/-- C13 for the driver's parameters (wavevector `(1,1,1)`, wavespeed 1) at the origin at
time 0: the returned pair is `(2 - sin 0, -cos 0) = (2, -1)`, and `d(uu)/dt = vv` there. -/
theorem C13_exact_solution_witness :
    exact_solution_single_point ⟨Real.sin, Real.cos, Real.sqrt⟩ 0 0 0
      { free_parameters (K := ℝ) 64 with time := 0 } = (2, -1) ∧
    HasDerivAt
      (fun τ => (exact_solution_single_point ⟨Real.sin, Real.cos, Real.sqrt⟩ 0 0 0
        { free_parameters (K := ℝ) 64 with time := τ }).1)
      (exact_solution_single_point ⟨Real.sin, Real.cos, Real.sqrt⟩ 0 0 0
        { free_parameters (K := ℝ) 64 with time := 0 }).2 0 :=
  ⟨((C13_exact_solution (free_parameters (K := ℝ) 64)
      (fun h => one_ne_zero h.1) 0 0 0 0).1).trans (by simp [free_parameters]),
    (C13_exact_solution (free_parameters (K := ℝ) 64) (fun h => one_ne_zero h.1) 0 0 0 0).2.1⟩

/-! ## C15: the boundary routine reproduces quadratic profiles -/

/-- Two loops agree from a state satisfying an invariant that the second body preserves and
under which the two bodies agree. -/
theorem forLoop_congr_inv {σ : Type} (Inv : σ → Prop) (body body' : Int → σ → σ)
    (hi step : Int) (m : Nat) : ∀ (lo : Int) (s : σ), (hi - lo).toNat ≤ m → Inv s →
    (∀ i s, lo ≤ i → i < hi → Inv s → body i s = body' i s ∧ Inv (body' i s)) →
    forLoop lo hi step body s = forLoop lo hi step body' s ∧
      Inv (forLoop lo hi step body' s) := by
  induction m with
  | zero =>
    intro lo s hm hs _
    have hlo : ¬ lo < hi := by omega
    rw [forLoop_done _ _ _ _ _ (fun h => hlo h.1), forLoop_done _ _ _ _ _ (fun h => hlo h.1)]
    exact ⟨rfl, hs⟩
  | succ m ih =>
    intro lo s hm hs hb
    by_cases hc : lo < hi ∧ 0 < step
    · rw [forLoop_next _ _ _ _ _ hc.1 hc.2, forLoop_next _ _ _ _ _ hc.1 hc.2]
      obtain ⟨e, hinv⟩ := hb lo s le_rfl hc.1 hs
      rw [e]
      exact ih (lo + step) (body' lo s) (by omega) hinv
        (fun i s h1 h2 h3 => hb i s (by omega) h2 h3)
    · rw [forLoop_done _ _ _ _ _ hc, forLoop_done _ _ _ _ _ hc]
      exact ⟨rfl, hs⟩

/-- A loop keeps a property of the state that its body keeps. -/
theorem forLoop_preserves {σ : Type} (P : σ → Prop) (body : Int → σ → σ) (hi step : Int)
    (hb : ∀ i s, P s → P (body i s)) (m : Nat) : ∀ (lo : Int) (s : σ),
    (hi - lo).toNat ≤ m → P s → P (forLoop lo hi step body s) := by
  induction m with
  | zero =>
    intro lo s hm hs
    have hlo : ¬ lo < hi := by omega
    rw [forLoop_done _ _ _ _ _ (fun h => hlo h.1)]
    exact hs
  | succ m ih =>
    intro lo s hm hs
    by_cases hc : lo < hi ∧ 0 < step
    · rw [forLoop_next _ _ _ _ _ hc.1 hc.2]
      exact ih (lo + step) (body lo s) (by omega) (hb lo s hs)
    · rw [forLoop_done _ _ _ _ _ hc]
      exact hs

/-- The loop `for(i=0;i<2;i++)` runs its body at 0 and at 1. -/
theorem forLoop_two {σ : Type} (body : Int → σ → σ) (s : σ) :
    forLoop 0 2 1 body s = body 1 (body 0 s) := by
  rw [forLoop_next 0 2 1 body s (by decide) (by decide)]
  rw [show (0 : Int) + 1 = 1 from rfl]
  rw [forLoop_next 1 2 1 body _ (by decide) (by decide)]
  rw [show (1 : Int) + 1 = 2 from rfl]
  rw [forLoop_done 2 2 1 body _ (by decide)]

/-- The offset of a shifted point is the offset of the point shifted by a multiple of the
flat stride of the direction. -/
theorem IDX4S_shift {K : Type} (p : paramstruct K) (g i0 i1 i2 k FX0 FX1 FX2 : Int) :
    IDX4S p g (i0 + k * FX0) (i1 + k * FX1) (i2 + k * FX2)
      = IDX4S p g i0 i1 i2
        + k * (FX0 + p.Nxx_plus_2NGHOSTS0 * (FX1 + p.Nxx_plus_2NGHOSTS1 * FX2)) := by
  unfold IDX4S; ring

/-- Two buffers that agree at an offset (or that offset is out of range) load the same. -/
theorem loadREAL_congr {K : Type} [Zero K] {n : Nat} (s old : Fin n → K) (j : Int)
    (h : ∀ f : Fin n, (f.val : Int) = j → s f = old f) : loadREAL s j = loadREAL old j := by
  unfold loadREAL
  by_cases hj : 0 ≤ j ∧ j < n
  · rw [dif_pos hj, dif_pos hj]
    exact h _ (by simp; omega)
  · rw [dif_neg hj, dif_neg hj]

open Classical in
/-- One face update, entry by entry: provided no point of the layer is read by the update of
another (or the same) point of the layer, an entry at the offset of a layer point becomes
`3*f(+1) - 3*f(+2) + f(+3)` of the buffer before the update, and any other entry is
unchanged. -/
theorem FACE_UPDATE_flat {K : Type} [Field K] {n : Nat} (p : paramstruct K) (g : Int)
    (l0 m0 l1 m1 l2 m2 FX0 FX1 FX2 : Int)
    (hsep : ∀ i0 i1 i2 j0 j1 j2 k : Int, inBox l0 m0 l1 m1 l2 m2 i0 i1 i2 →
      inBox l0 m0 l1 m1 l2 m2 j0 j1 j2 → 1 ≤ k → k ≤ 3 →
      IDX4S p g j0 j1 j2 ≠ IDX4S p g (i0 + k * FX0) (i1 + k * FX1) (i2 + k * FX2))
    (old : Fin n → K) (f : Fin n) :
    FACE_UPDATE p g l0 m0 l1 m1 l2 m2 FX0 FX1 FX2 old f =
      if (∃ i0 i1 i2, (l0 ≤ i0 ∧ i0 < m0) ∧ (l1 ≤ i1 ∧ i1 < m1) ∧ (l2 ≤ i2 ∧ i2 < m2) ∧
          (f.val : Int) = IDX4S p g i0 i1 i2)
      then 3 * loadREAL old ((f.val : Int)
            + 1 * (FX0 + p.Nxx_plus_2NGHOSTS0 * (FX1 + p.Nxx_plus_2NGHOSTS1 * FX2)))
        - 3 * loadREAL old ((f.val : Int)
            + 2 * (FX0 + p.Nxx_plus_2NGHOSTS0 * (FX1 + p.Nxx_plus_2NGHOSTS1 * FX2)))
        + loadREAL old ((f.val : Int)
            + 3 * (FX0 + p.Nxx_plus_2NGHOSTS0 * (FX1 + p.Nxx_plus_2NGHOSTS1 * FX2)))
      else old f := by
  -- the update computed from the buffer before the face update
  let W : Int → Int → Int → K := fun i0 i1 i2 =>
    3 * loadREAL old (IDX4S p g (i0 + 1 * FX0) (i1 + 1 * FX1) (i2 + 1 * FX2))
      - 3 * loadREAL old (IDX4S p g (i0 + 2 * FX0) (i1 + 2 * FX1) (i2 + 2 * FX2))
      + loadREAL old (IDX4S p g (i0 + 3 * FX0) (i1 + 3 * FX1) (i2 + 3 * FX2))
  let Inv : (Fin n → K) → Prop := fun s => ∀ f : Fin n,
    (¬ ∃ j0 j1 j2, inBox l0 m0 l1 m1 l2 m2 j0 j1 j2 ∧ (f.val : Int) = IDX4S p g j0 j1 j2) →
      s f = old f
  have hload : ∀ s, Inv s → ∀ i0 i1 i2 k : Int, inBox l0 m0 l1 m1 l2 m2 i0 i1 i2 →
      1 ≤ k → k ≤ 3 →
      loadREAL s (IDX4S p g (i0 + k * FX0) (i1 + k * FX1) (i2 + k * FX2))
        = loadREAL old (IDX4S p g (i0 + k * FX0) (i1 + k * FX1) (i2 + k * FX2)) := by
    intro s hs i0 i1 i2 k hi hk1 hk3
    apply loadREAL_congr
    intro f hf
    apply hs
    rintro ⟨j0, j1, j2, hj, hfj⟩
    exact hsep i0 i1 i2 j0 j1 j2 k hi hj hk1 hk3 (hfj.symm.trans hf)
  have hbody : ∀ i0 i1 i2, inBox l0 m0 l1 m1 l2 m2 i0 i1 i2 → ∀ s, Inv s →
      storeREAL s (IDX4S p g i0 i1 i2)
          (3 * loadREAL s (IDX4S p g (i0 + 1 * FX0) (i1 + 1 * FX1) (i2 + 1 * FX2))
            - 3 * loadREAL s (IDX4S p g (i0 + 2 * FX0) (i1 + 2 * FX1) (i2 + 2 * FX2))
            + loadREAL s (IDX4S p g (i0 + 3 * FX0) (i1 + 3 * FX1) (i2 + 3 * FX2)))
        = storeREAL s (IDX4S p g i0 i1 i2) (W i0 i1 i2) ∧
      Inv (storeREAL s (IDX4S p g i0 i1 i2) (W i0 i1 i2)) := by
    intro i0 i1 i2 hi s hs
    constructor
    · rw [hload s hs i0 i1 i2 1 hi (by decide) (by decide),
        hload s hs i0 i1 i2 2 hi (by decide) (by decide),
        hload s hs i0 i1 i2 3 hi (by decide) (by decide)]
    · intro f hf
      unfold storeREAL
      rw [if_neg (fun h => hf ⟨i0, i1, i2, hi, h⟩)]
      exact hs f hf
  have inner : ∀ i1 i2, (l1 ≤ i1 ∧ i1 < m1) → (l2 ≤ i2 ∧ i2 < m2) → ∀ s, Inv s →
      forLoop l0 m0 1 (fun i0 gfs => storeREAL gfs (IDX4S p g i0 i1 i2)
          (3 * loadREAL gfs (IDX4S p g (i0 + 1 * FX0) (i1 + 1 * FX1) (i2 + 1 * FX2))
            - 3 * loadREAL gfs (IDX4S p g (i0 + 2 * FX0) (i1 + 2 * FX1) (i2 + 2 * FX2))
            + loadREAL gfs (IDX4S p g (i0 + 3 * FX0) (i1 + 3 * FX1) (i2 + 3 * FX2)))) s
        = forLoop l0 m0 1 (fun i0 gfs => storeREAL gfs (IDX4S p g i0 i1 i2) (W i0 i1 i2)) s ∧
      Inv (forLoop l0 m0 1
        (fun i0 gfs => storeREAL gfs (IDX4S p g i0 i1 i2) (W i0 i1 i2)) s) := by
    intro i1 i2 h1 h2 s hs
    exact forLoop_congr_inv Inv _ _ m0 1 _ l0 s le_rfl hs
      (fun i0 s a0 b0 hs => hbody i0 i1 i2 ⟨⟨a0, b0⟩, h1, h2⟩ s hs)
  have middle : ∀ i2, (l2 ≤ i2 ∧ i2 < m2) → ∀ s, Inv s →
      forLoop l1 m1 1 (fun i1 gfs => forLoop l0 m0 1 (fun i0 gfs =>
        storeREAL gfs (IDX4S p g i0 i1 i2)
          (3 * loadREAL gfs (IDX4S p g (i0 + 1 * FX0) (i1 + 1 * FX1) (i2 + 1 * FX2))
            - 3 * loadREAL gfs (IDX4S p g (i0 + 2 * FX0) (i1 + 2 * FX1) (i2 + 2 * FX2))
            + loadREAL gfs (IDX4S p g (i0 + 3 * FX0) (i1 + 3 * FX1) (i2 + 3 * FX2)))) gfs) s
        = forLoop l1 m1 1 (fun i1 gfs => forLoop l0 m0 1
            (fun i0 gfs => storeREAL gfs (IDX4S p g i0 i1 i2) (W i0 i1 i2)) gfs) s ∧
      Inv (forLoop l1 m1 1 (fun i1 gfs => forLoop l0 m0 1
            (fun i0 gfs => storeREAL gfs (IDX4S p g i0 i1 i2) (W i0 i1 i2)) gfs) s) := by
    intro i2 h2 s hs
    exact forLoop_congr_inv Inv _ _ m1 1 _ l1 s le_rfl hs
      (fun i1 s a1 b1 hs => inner i1 i2 ⟨a1, b1⟩ h2 s hs)
  have outer := forLoop_congr_inv Inv
    (fun i2 gfs => forLoop l1 m1 1 (fun i1 gfs => forLoop l0 m0 1 (fun i0 gfs =>
        storeREAL gfs (IDX4S p g i0 i1 i2)
          (3 * loadREAL gfs (IDX4S p g (i0 + 1 * FX0) (i1 + 1 * FX1) (i2 + 1 * FX2))
            - 3 * loadREAL gfs (IDX4S p g (i0 + 2 * FX0) (i1 + 2 * FX1) (i2 + 2 * FX2))
            + loadREAL gfs (IDX4S p g (i0 + 3 * FX0) (i1 + 3 * FX1) (i2 + 3 * FX2)))) gfs) gfs)
    (fun i2 gfs => forLoop l1 m1 1 (fun i1 gfs => forLoop l0 m0 1
            (fun i0 gfs => storeREAL gfs (IDX4S p g i0 i1 i2) (W i0 i1 i2)) gfs) gfs)
    m2 1 _ l2 old le_rfl (fun _ _ => rfl)
    (fun i2 s a2 b2 hs => middle i2 ⟨a2, b2⟩ s hs)
  unfold FACE_UPDATE
  rw [outer.1]
  rw [forLoop3_store (fun i0 i1 i2 => IDX4S p g i0 i1 i2)
    (fun f : Fin n => 3 * loadREAL old ((f.val : Int)
            + 1 * (FX0 + p.Nxx_plus_2NGHOSTS0 * (FX1 + p.Nxx_plus_2NGHOSTS1 * FX2)))
        - 3 * loadREAL old ((f.val : Int)
            + 2 * (FX0 + p.Nxx_plus_2NGHOSTS0 * (FX1 + p.Nxx_plus_2NGHOSTS1 * FX2)))
        + loadREAL old ((f.val : Int)
            + 3 * (FX0 + p.Nxx_plus_2NGHOSTS0 * (FX1 + p.Nxx_plus_2NGHOSTS1 * FX2))))
    W l0 m0 l1 m1 l2 m2 ?_ old f]
  intro i0 i1 i2 f _ _ _ hf
  show W i0 i1 i2 = _
  dsimp only [W]
  rw [IDX4S_shift, IDX4S_shift, IDX4S_shift, hf]

/-- Distinct points of the grid, or distinct fields, have distinct offsets. -/
theorem IDX4S_inj {K : Type} (p : paramstruct K) (g i0 i1 i2 g' j0 j1 j2 : Int)
    (hi : inGrid p i0 i1 i2) (hj : inGrid p j0 j1 j2)
    (h : IDX4S p g i0 i1 i2 = IDX4S p g' j0 j1 j2) :
    g = g' ∧ i0 = j0 ∧ i1 = j1 ∧ i2 = j2 := by
  obtain ⟨a0, a1, a2, a3⟩ := IDX4S_decode p g i0 i1 i2 hi.1 hi.2.1 hi.2.2
  obtain ⟨b0, b1, b2, b3⟩ := IDX4S_decode p g' j0 j1 j2 hj.1 hj.2.1 hj.2.2
  rw [h] at a0 a1 a2 a3
  exact ⟨a3.symm.trans b3, a0.symm.trans b0, a1.symm.trans b1, a2.symm.trans b2⟩

open Classical in
/-- One face update, point by point: when the layer lies in the grid and the three points
read for each layer point lie in the grid outside the layer, a layer point of the field
becomes `3*f(+1) - 3*f(+2) + f(+3)` of the buffer before the update, and every other point
of either field is unchanged. -/
theorem FACE_UPDATE_grid {K : Type} [Field K] {n : Nat} (p : paramstruct K)
    (hn : (n : Int) = NUM_EVOL_GFS * Nxx_plus_2NGHOSTS_tot p)
    (g : Int) (l0 m0 l1 m1 l2 m2 FX0 FX1 FX2 : Int)
    (hL : ∀ i0 i1 i2 k : Int, inBox l0 m0 l1 m1 l2 m2 i0 i1 i2 → 1 ≤ k → k ≤ 3 →
      inGrid p i0 i1 i2 ∧ inGrid p (i0 + k * FX0) (i1 + k * FX1) (i2 + k * FX2) ∧
        ¬ inBox l0 m0 l1 m1 l2 m2 (i0 + k * FX0) (i1 + k * FX1) (i2 + k * FX2))
    (old : Fin n → K) (g' j0 j1 j2 : Int) (hg' : 0 ≤ g' ∧ g' < NUM_EVOL_GFS)
    (hj : inGrid p j0 j1 j2) :
    loadREAL (FACE_UPDATE p g l0 m0 l1 m1 l2 m2 FX0 FX1 FX2 old) (IDX4S p g' j0 j1 j2) =
      if g' = g ∧ inBox l0 m0 l1 m1 l2 m2 j0 j1 j2
      then 3 * loadREAL old (IDX4S p g (j0 + 1 * FX0) (j1 + 1 * FX1) (j2 + 1 * FX2))
        - 3 * loadREAL old (IDX4S p g (j0 + 2 * FX0) (j1 + 2 * FX1) (j2 + 2 * FX2))
        + loadREAL old (IDX4S p g (j0 + 3 * FX0) (j1 + 3 * FX1) (j2 + 3 * FX2))
      else loadREAL old (IDX4S p g' j0 j1 j2) := by
  have hb := IDX4S_bounds p g' j0 j1 j2 hg' hj.1 hj.2.1 hj.2.2
  rw [← hn] at hb
  obtain ⟨f, hf, hload⟩ := loadREAL_in_range (K := K) (IDX4S p g' j0 j1 j2) hb
  rw [hload, hload]
  rw [FACE_UPDATE_flat p g l0 m0 l1 m1 l2 m2 FX0 FX1 FX2 ?_ old f]
  · by_cases hc : g' = g ∧ inBox l0 m0 l1 m1 l2 m2 j0 j1 j2
    · rw [if_pos hc, if_pos ⟨j0, j1, j2, hc.2.1, hc.2.2.1, hc.2.2.2, by rw [hf, hc.1]⟩]
      rw [IDX4S_shift, IDX4S_shift, IDX4S_shift, hf, hc.1]
    · rw [if_neg hc, if_neg]
      rintro ⟨i0, i1, i2, h0, h1, h2, hfi⟩
      have hi : inBox l0 m0 l1 m1 l2 m2 i0 i1 i2 := ⟨h0, h1, h2⟩
      obtain ⟨e0, e1, e2, e3⟩ := IDX4S_inj p g' j0 j1 j2 g i0 i1 i2 hj
        (hL i0 i1 i2 1 hi le_rfl (by decide)).1 (hf.symm.trans hfi)
      subst e0 e1 e2 e3
      exact hc ⟨rfl, hi⟩
  · intro i0 i1 i2 j0 j1 j2 k hi hj hk1 hk3 heq
    obtain ⟨_, hgrid, hnot⟩ := hL i0 i1 i2 k hi hk1 hk3
    obtain ⟨-, e1, e2, e3⟩ := IDX4S_inj p g j0 j1 j2 g _ _ _
      (hL j0 j1 j2 1 hj le_rfl (by decide)).1 hgrid heq
    rw [← e1, ← e2, ← e3] at hnot
    exact hnot hj

/-- One face update next to a known box: if the layer lies in the grid next to the box and
the three points read for each layer point lie in the box, then a profile that the field
holds on the points `R` of the box, and that the update reproduces on the points `R` of the
layer from points of `R`, is afterwards held on the points `R` of the box and of the layer;
and the other field is unchanged on the whole grid. -/
theorem FACE_UPDATE_box {K : Type} [Field K] {n : Nat} (p : paramstruct K)
    (hn : (n : Int) = NUM_EVOL_GFS * Nxx_plus_2NGHOSTS_tot p)
    (g : Int) (hg : 0 ≤ g ∧ g < NUM_EVOL_GFS)
    (a0 b0 a1 b1 a2 b2 l0 m0 l1 m1 l2 m2 FX0 FX1 FX2 : Int)
    (hB : ∀ j0 j1 j2 : Int, inBox a0 b0 a1 b1 a2 b2 j0 j1 j2 → inGrid p j0 j1 j2)
    (hL : ∀ i0 i1 i2 k : Int, inBox l0 m0 l1 m1 l2 m2 i0 i1 i2 → 1 ≤ k → k ≤ 3 →
      inGrid p i0 i1 i2 ∧ ¬ inBox a0 b0 a1 b1 a2 b2 i0 i1 i2 ∧
        inBox a0 b0 a1 b1 a2 b2 (i0 + k * FX0) (i1 + k * FX1) (i2 + k * FX2))
    (old : Fin n → K) :
    (∀ (R : Int → Int → Int → Prop) (F : Int → Int → Int → K),
      (∀ i0 i1 i2, inBox l0 m0 l1 m1 l2 m2 i0 i1 i2 → R i0 i1 i2 →
        F i0 i1 i2 = 3 * F (i0 + 1 * FX0) (i1 + 1 * FX1) (i2 + 1 * FX2)
          - 3 * F (i0 + 2 * FX0) (i1 + 2 * FX1) (i2 + 2 * FX2)
          + F (i0 + 3 * FX0) (i1 + 3 * FX1) (i2 + 3 * FX2) ∧
        R (i0 + 1 * FX0) (i1 + 1 * FX1) (i2 + 1 * FX2) ∧
        R (i0 + 2 * FX0) (i1 + 2 * FX1) (i2 + 2 * FX2) ∧
        R (i0 + 3 * FX0) (i1 + 3 * FX1) (i2 + 3 * FX2)) →
      (∀ j0 j1 j2, inBox a0 b0 a1 b1 a2 b2 j0 j1 j2 → R j0 j1 j2 →
        loadREAL old (IDX4S p g j0 j1 j2) = F j0 j1 j2) →
      ∀ j0 j1 j2, (inBox a0 b0 a1 b1 a2 b2 j0 j1 j2 ∨ inBox l0 m0 l1 m1 l2 m2 j0 j1 j2) →
        R j0 j1 j2 →
        loadREAL (FACE_UPDATE p g l0 m0 l1 m1 l2 m2 FX0 FX1 FX2 old) (IDX4S p g j0 j1 j2)
          = F j0 j1 j2) ∧
    (∀ g' j0 j1 j2 : Int, (0 ≤ g' ∧ g' < NUM_EVOL_GFS) → g' ≠ g → inGrid p j0 j1 j2 →
      loadREAL (FACE_UPDATE p g l0 m0 l1 m1 l2 m2 FX0 FX1 FX2 old) (IDX4S p g' j0 j1 j2)
        = loadREAL old (IDX4S p g' j0 j1 j2)) := by
  have hL' : ∀ i0 i1 i2 k : Int, inBox l0 m0 l1 m1 l2 m2 i0 i1 i2 → 1 ≤ k → k ≤ 3 →
      inGrid p i0 i1 i2 ∧ inGrid p (i0 + k * FX0) (i1 + k * FX1) (i2 + k * FX2) ∧
        ¬ inBox l0 m0 l1 m1 l2 m2 (i0 + k * FX0) (i1 + k * FX1) (i2 + k * FX2) := by
    intro i0 i1 i2 k hi hk1 hk3
    obtain ⟨h1, _, h3⟩ := hL i0 i1 i2 k hi hk1 hk3
    exact ⟨h1, hB _ _ _ h3, fun hc => (hL _ _ _ 1 hc le_rfl (by decide)).2.1 h3⟩
  constructor
  · intro R F hF hold j0 j1 j2 hj hR
    by_cases hjL : inBox l0 m0 l1 m1 l2 m2 j0 j1 j2
    · obtain ⟨hid, hR1, hR2, hR3⟩ := hF j0 j1 j2 hjL hR
      rw [FACE_UPDATE_grid p hn g l0 m0 l1 m1 l2 m2 FX0 FX1 FX2 hL' old g j0 j1 j2 hg
        (hL j0 j1 j2 1 hjL le_rfl (by decide)).1, if_pos ⟨rfl, hjL⟩]
      rw [hold _ _ _ (hL j0 j1 j2 1 hjL le_rfl (by decide)).2.2 hR1,
        hold _ _ _ (hL j0 j1 j2 2 hjL (by decide) (by decide)).2.2 hR2,
        hold _ _ _ (hL j0 j1 j2 3 hjL (by decide) le_rfl).2.2 hR3]
      exact hid.symm
    · have hjB : inBox a0 b0 a1 b1 a2 b2 j0 j1 j2 := hj.resolve_right hjL
      rw [FACE_UPDATE_grid p hn g l0 m0 l1 m1 l2 m2 FX0 FX1 FX2 hL' old g j0 j1 j2 hg
        (hB _ _ _ hjB), if_neg (fun hc => hjL hc.2)]
      exact hold _ _ _ hjB hR
  · intro g' j0 j1 j2 hg' hne hj
    rw [FACE_UPDATE_grid p hn g l0 m0 l1 m1 l2 m2 FX0 FX1 FX2 hL' old g' j0 j1 j2 hg' hj,
      if_neg (fun hc => hne hc.1)]

/-- One ghost shell of one field around a known box `[a,b)` that contains the interior, is
at least three points wide and has a free layer around it inside the grid: the box grows by
one layer on every side; a profile that extrapolation reproduces on the points `R` and that
the field holds on the points `R` of the box is afterwards held on the points `R` of the
grown box; the other field is unchanged on the whole grid. -/
theorem apply_bcs_shell_spec {K : Type} [Field K] {n : Nat} (p : paramstruct K)
    (hn : (n : Int) = NUM_EVOL_GFS * Nxx_plus_2NGHOSTS_tot p)
    (g : Int) (hg : 0 ≤ g ∧ g < NUM_EVOL_GFS) (a0 a1 a2 b0 b1 b2 : Int)
    (h0 : 1 ≤ a0 ∧ a0 + 3 ≤ b0 ∧ b0 + 1 ≤ p.Nxx_plus_2NGHOSTS0)
    (h1 : 1 ≤ a1 ∧ a1 + 3 ≤ b1 ∧ b1 + 1 ≤ p.Nxx_plus_2NGHOSTS1)
    (h2 : 1 ≤ a2 ∧ a2 + 3 ≤ b2 ∧ b2 + 1 ≤ p.Nxx_plus_2NGHOSTS2)
    (c0 : a0 ≤ NGHOSTS ∧ NGHOSTS + p.Nxx0 ≤ b0) (c1 : a1 ≤ NGHOSTS ∧ NGHOSTS + p.Nxx1 ≤ b1)
    (c2 : a2 ≤ NGHOSTS ∧ NGHOSTS + p.Nxx2 ≤ b2)
    (gfs : Fin n → K) :
    apply_bcs_shell p g ⟨a0, a1, a2, b0, b1, b2, gfs⟩
      = ⟨a0 - 1, a1 - 1, a2 - 1, b0 + 1, b1 + 1, b2 + 1,
          (apply_bcs_shell p g ⟨a0, a1, a2, b0, b1, b2, gfs⟩).gfs⟩ ∧
    (∀ (R : Int → Int → Int → Prop) (F : Int → Int → Int → K), reproducedOn p R F →
      (∀ j0 j1 j2, inBox a0 b0 a1 b1 a2 b2 j0 j1 j2 → R j0 j1 j2 →
        loadREAL gfs (IDX4S p g j0 j1 j2) = F j0 j1 j2) →
      ∀ j0 j1 j2, inBox (a0 - 1) (b0 + 1) (a1 - 1) (b1 + 1) (a2 - 1) (b2 + 1) j0 j1 j2 →
        R j0 j1 j2 →
        loadREAL (apply_bcs_shell p g ⟨a0, a1, a2, b0, b1, b2, gfs⟩).gfs (IDX4S p g j0 j1 j2)
          = F j0 j1 j2) ∧
    (∀ g' j0 j1 j2 : Int, (0 ≤ g' ∧ g' < NUM_EVOL_GFS) → g' ≠ g → inGrid p j0 j1 j2 →
      loadREAL (apply_bcs_shell p g ⟨a0, a1, a2, b0, b1, b2, gfs⟩).gfs (IDX4S p g' j0 j1 j2)
        = loadREAL gfs (IDX4S p g' j0 j1 j2)) := by
  obtain ⟨V1, R1⟩ := FACE_UPDATE_box p hn g hg a0 b0 a1 b1 a2 b2
    (a0 - 1) a0 a1 b1 a2 b2 MINFACE NUL NUL
    (by intro j0 j1 j2 hj; unfold inBox at hj; unfold inGrid inBox; omega)
    (by
      intro i0 i1 i2 k hi hk1 hk3
      unfold inBox at hi
      unfold inGrid inBox MINFACE NUL
      omega) gfs
  obtain ⟨V2, R2⟩ := FACE_UPDATE_box p hn g hg (a0 - 1) b0 a1 b1 a2 b2
    b0 (b0 + 1) a1 b1 a2 b2 MAXFACE NUL NUL
    (by intro j0 j1 j2 hj; unfold inBox at hj; unfold inGrid inBox; omega)
    (by
      intro i0 i1 i2 k hi hk1 hk3
      unfold inBox at hi
      unfold inGrid inBox MAXFACE NUL
      omega)
    (FACE_UPDATE p g (a0 - 1) a0 a1 b1 a2 b2 MINFACE NUL NUL gfs)
  obtain ⟨V3, R3⟩ := FACE_UPDATE_box p hn g hg (a0 - 1) (b0 + 1) a1 b1 a2 b2
    (a0 - 1) (b0 + 1) (a1 - 1) a1 a2 b2 NUL MINFACE NUL
    (by intro j0 j1 j2 hj; unfold inBox at hj; unfold inGrid inBox; omega)
    (by
      intro i0 i1 i2 k hi hk1 hk3
      unfold inBox at hi
      unfold inGrid inBox MINFACE NUL
      omega)
    (FACE_UPDATE p g b0 (b0 + 1) a1 b1 a2 b2 MAXFACE NUL NUL
      (FACE_UPDATE p g (a0 - 1) a0 a1 b1 a2 b2 MINFACE NUL NUL gfs))
  obtain ⟨V4, R4⟩ := FACE_UPDATE_box p hn g hg (a0 - 1) (b0 + 1) (a1 - 1) b1 a2 b2
    (a0 - 1) (b0 + 1) b1 (b1 + 1) a2 b2 NUL MAXFACE NUL
    (by intro j0 j1 j2 hj; unfold inBox at hj; unfold inGrid inBox; omega)
    (by
      intro i0 i1 i2 k hi hk1 hk3
      unfold inBox at hi
      unfold inGrid inBox MAXFACE NUL
      omega)
    (FACE_UPDATE p g (a0 - 1) (b0 + 1) (a1 - 1) a1 a2 b2 NUL MINFACE NUL
      (FACE_UPDATE p g b0 (b0 + 1) a1 b1 a2 b2 MAXFACE NUL NUL
        (FACE_UPDATE p g (a0 - 1) a0 a1 b1 a2 b2 MINFACE NUL NUL gfs)))
  obtain ⟨V5, R5⟩ := FACE_UPDATE_box p hn g hg (a0 - 1) (b0 + 1) (a1 - 1) (b1 + 1) a2 b2
    (a0 - 1) (b0 + 1) (a1 - 1) (b1 + 1) (a2 - 1) a2 NUL NUL MINFACE
    (by intro j0 j1 j2 hj; unfold inBox at hj; unfold inGrid inBox; omega)
    (by
      intro i0 i1 i2 k hi hk1 hk3
      unfold inBox at hi
      unfold inGrid inBox MINFACE NUL
      omega)
    (FACE_UPDATE p g (a0 - 1) (b0 + 1) b1 (b1 + 1) a2 b2 NUL MAXFACE NUL
      (FACE_UPDATE p g (a0 - 1) (b0 + 1) (a1 - 1) a1 a2 b2 NUL MINFACE NUL
        (FACE_UPDATE p g b0 (b0 + 1) a1 b1 a2 b2 MAXFACE NUL NUL
          (FACE_UPDATE p g (a0 - 1) a0 a1 b1 a2 b2 MINFACE NUL NUL gfs))))
  obtain ⟨V6, R6⟩ := FACE_UPDATE_box p hn g hg
    (a0 - 1) (b0 + 1) (a1 - 1) (b1 + 1) (a2 - 1) b2
    (a0 - 1) (b0 + 1) (a1 - 1) (b1 + 1) b2 (b2 + 1) NUL NUL MAXFACE
    (by intro j0 j1 j2 hj; unfold inBox at hj; unfold inGrid inBox; omega)
    (by
      intro i0 i1 i2 k hi hk1 hk3
      unfold inBox at hi
      unfold inGrid inBox MAXFACE NUL
      omega)
    (FACE_UPDATE p g (a0 - 1) (b0 + 1) (a1 - 1) (b1 + 1) (a2 - 1) a2 NUL NUL MINFACE
      (FACE_UPDATE p g (a0 - 1) (b0 + 1) b1 (b1 + 1) a2 b2 NUL MAXFACE NUL
        (FACE_UPDATE p g (a0 - 1) (b0 + 1) (a1 - 1) a1 a2 b2 NUL MINFACE NUL
          (FACE_UPDATE p g b0 (b0 + 1) a1 b1 a2 b2 MAXFACE NUL NUL
            (FACE_UPDATE p g (a0 - 1) a0 a1 b1 a2 b2 MINFACE NUL NUL gfs)))))
  refine ⟨rfl, ?_, ?_⟩
  · intro R F hF hold j0 j1 j2 hj hR
    have W1 := V1 R F (fun i0 i1 i2 hi hR => hF i0 i1 i2 MINFACE NUL NUL
      (Or.inl ⟨Or.inl rfl, rfl, rfl⟩) hR
      (Or.inl ⟨rfl, by unfold inBox at hi; omega⟩)) hold
    have W2 := V2 R F (fun i0 i1 i2 hi hR => hF i0 i1 i2 MAXFACE NUL NUL
      (Or.inl ⟨Or.inr rfl, rfl, rfl⟩) hR
      (Or.inr (Or.inl ⟨rfl, by unfold inBox at hi; omega⟩)))
      (fun j0 j1 j2 hj => W1 j0 j1 j2 (by unfold inBox at hj; unfold inBox; omega))
    have W3 := V3 R F (fun i0 i1 i2 hi hR => hF i0 i1 i2 NUL MINFACE NUL
      (Or.inr (Or.inl ⟨rfl, Or.inl rfl, rfl⟩)) hR
      (Or.inr (Or.inr (Or.inl ⟨rfl, by unfold inBox at hi; omega⟩))))
      (fun j0 j1 j2 hj => W2 j0 j1 j2 (by unfold inBox at hj; unfold inBox; omega))
    have W4 := V4 R F (fun i0 i1 i2 hi hR => hF i0 i1 i2 NUL MAXFACE NUL
      (Or.inr (Or.inl ⟨rfl, Or.inr rfl, rfl⟩)) hR
      (Or.inr (Or.inr (Or.inr (Or.inl ⟨rfl, by unfold inBox at hi; omega⟩)))))
      (fun j0 j1 j2 hj => W3 j0 j1 j2 (by unfold inBox at hj; unfold inBox; omega))
    have W5 := V5 R F (fun i0 i1 i2 hi hR => hF i0 i1 i2 NUL NUL MINFACE
      (Or.inr (Or.inr ⟨rfl, rfl, Or.inl rfl⟩)) hR
      (Or.inr (Or.inr (Or.inr (Or.inr (Or.inl ⟨rfl, by unfold inBox at hi; omega⟩))))))
      (fun j0 j1 j2 hj => W4 j0 j1 j2 (by unfold inBox at hj; unfold inBox; omega))
    have W6 := V6 R F (fun i0 i1 i2 hi hR => hF i0 i1 i2 NUL NUL MAXFACE
      (Or.inr (Or.inr ⟨rfl, rfl, Or.inr rfl⟩)) hR
      (Or.inr (Or.inr (Or.inr (Or.inr (Or.inr ⟨rfl, by unfold inBox at hi; omega⟩))))))
      (fun j0 j1 j2 hj => W5 j0 j1 j2 (by unfold inBox at hj; unfold inBox; omega))
    exact W6 j0 j1 j2 (by unfold inBox at hj; unfold inBox; omega) hR
  · intro g' j0 j1 j2 hg' hne hj
    exact (R6 g' j0 j1 j2 hg' hne hj).trans ((R5 g' j0 j1 j2 hg' hne hj).trans
      ((R4 g' j0 j1 j2 hg' hne hj).trans ((R3 g' j0 j1 j2 hg' hne hj).trans
        ((R2 g' j0 j1 j2 hg' hne hj).trans (R1 g' j0 j1 j2 hg' hne hj)))))

/-- The pass of `apply_bcs` over one field, on a grid with at least three interior points
along each axis: a profile that extrapolation reproduces on the points `R` and that the
field holds on the interior points of `R` is afterwards held on every grid point of `R`; the
other field is unchanged. -/
theorem apply_bcs_field {K : Type} [Field K] {n : Nat} (p : paramstruct K)
    (hn : (n : Int) = NUM_EVOL_GFS * Nxx_plus_2NGHOSTS_tot p) (hp : gridConsistent p)
    (hN : 3 ≤ p.Nxx0 ∧ 3 ≤ p.Nxx1 ∧ 3 ≤ p.Nxx2)
    (g : Int) (hg : 0 ≤ g ∧ g < NUM_EVOL_GFS) (gfs : Fin n → K) :
    (∀ (R : Int → Int → Int → Prop) (F : Int → Int → Int → K), reproducedOn p R F →
      (∀ j0 j1 j2, inInterior p j0 j1 j2 → R j0 j1 j2 →
        loadREAL gfs (IDX4S p g j0 j1 j2) = F j0 j1 j2) →
      ∀ j0 j1 j2, inGrid p j0 j1 j2 → R j0 j1 j2 →
        loadREAL (forLoop 0 NGHOSTS 1 (fun _which_gz s => apply_bcs_shell p g s)
          { imin0 := NGHOSTS, imin1 := NGHOSTS, imin2 := NGHOSTS
            imax0 := p.Nxx_plus_2NGHOSTS0 - NGHOSTS
            imax1 := p.Nxx_plus_2NGHOSTS1 - NGHOSTS
            imax2 := p.Nxx_plus_2NGHOSTS2 - NGHOSTS
            gfs := gfs }).gfs (IDX4S p g j0 j1 j2) = F j0 j1 j2) ∧
    (∀ g' j0 j1 j2 : Int, (0 ≤ g' ∧ g' < NUM_EVOL_GFS) → g' ≠ g → inGrid p j0 j1 j2 →
      loadREAL (forLoop 0 NGHOSTS 1 (fun _which_gz s => apply_bcs_shell p g s)
          { imin0 := NGHOSTS, imin1 := NGHOSTS, imin2 := NGHOSTS
            imax0 := p.Nxx_plus_2NGHOSTS0 - NGHOSTS
            imax1 := p.Nxx_plus_2NGHOSTS1 - NGHOSTS
            imax2 := p.Nxx_plus_2NGHOSTS2 - NGHOSTS
            gfs := gfs }).gfs (IDX4S p g' j0 j1 j2)
        = loadREAL gfs (IDX4S p g' j0 j1 j2)) := by
  obtain ⟨hA, hB, hC⟩ := hp
  have hG : NGHOSTS = 2 := rfl
  obtain ⟨E1, V1, R1⟩ := apply_bcs_shell_spec p hn g hg NGHOSTS NGHOSTS NGHOSTS
    (p.Nxx_plus_2NGHOSTS0 - NGHOSTS) (p.Nxx_plus_2NGHOSTS1 - NGHOSTS)
    (p.Nxx_plus_2NGHOSTS2 - NGHOSTS) (by omega) (by omega) (by omega)
    (by omega) (by omega) (by omega) gfs
  obtain ⟨_, V2, R2⟩ := apply_bcs_shell_spec p hn g hg (NGHOSTS - 1) (NGHOSTS - 1) (NGHOSTS - 1)
    (p.Nxx_plus_2NGHOSTS0 - NGHOSTS + 1) (p.Nxx_plus_2NGHOSTS1 - NGHOSTS + 1)
    (p.Nxx_plus_2NGHOSTS2 - NGHOSTS + 1) (by omega) (by omega) (by omega)
    (by omega) (by omega) (by omega)
    (apply_bcs_shell p g ⟨NGHOSTS, NGHOSTS, NGHOSTS, p.Nxx_plus_2NGHOSTS0 - NGHOSTS,
      p.Nxx_plus_2NGHOSTS1 - NGHOSTS, p.Nxx_plus_2NGHOSTS2 - NGHOSTS, gfs⟩).gfs
  rw [show forLoop 0 NGHOSTS 1 (fun _which_gz s => apply_bcs_shell p g s)
      ({ imin0 := NGHOSTS, imin1 := NGHOSTS, imin2 := NGHOSTS
         imax0 := p.Nxx_plus_2NGHOSTS0 - NGHOSTS
         imax1 := p.Nxx_plus_2NGHOSTS1 - NGHOSTS
         imax2 := p.Nxx_plus_2NGHOSTS2 - NGHOSTS
         gfs := gfs } : apply_bcs_state K n)
    = apply_bcs_shell p g (apply_bcs_shell p g ⟨NGHOSTS, NGHOSTS, NGHOSTS,
        p.Nxx_plus_2NGHOSTS0 - NGHOSTS, p.Nxx_plus_2NGHOSTS1 - NGHOSTS,
        p.Nxx_plus_2NGHOSTS2 - NGHOSTS, gfs⟩)
    from forLoop_two _ _]
  rw [E1]
  constructor
  · intro R F hF hold j0 j1 j2 hj hR
    refine V2 R F hF (fun i0 i1 i2 hi hRi => V1 R F hF
      (fun k0 k1 k2 hk hRk => hold k0 k1 k2 ?_ hRk) i0 i1 i2 hi hRi) j0 j1 j2 ?_ hR
    · unfold inBox at hk; unfold inInterior inBox; omega
    · unfold inGrid inBox at hj; unfold inBox; omega
  · intro g' j0 j1 j2 hg' hne hj
    exact (R2 g' j0 j1 j2 hg' hne hj).trans (R1 g' j0 j1 j2 hg' hne hj)

/-- On a grid with at least three interior points along each axis `apply_bcs` continues, to
every grid point of `R`, a profile that degree-2 extrapolation reproduces on `R` and that a
field holds on the interior points of `R`. -/
theorem apply_bcs_reproduces {K : Type} [Field K] {n : Nat} (p : paramstruct K)
    (hn : (n : Int) = NUM_EVOL_GFS * Nxx_plus_2NGHOSTS_tot p) (hp : gridConsistent p)
    (hN : 3 ≤ p.Nxx0 ∧ 3 ≤ p.Nxx1 ∧ 3 ≤ p.Nxx2)
    (g : Int) (hg : g = UUGF ∨ g = VVGF) (gfs : Fin n → K)
    (R : Int → Int → Int → Prop) (F : Int → Int → Int → K) (hF : reproducedOn p R F)
    (hold : ∀ j0 j1 j2, inInterior p j0 j1 j2 → R j0 j1 j2 →
      loadREAL gfs (IDX4S p g j0 j1 j2) = F j0 j1 j2)
    (j0 j1 j2 : Int) (hj : inGrid p j0 j1 j2) (hR : R j0 j1 j2) :
    loadREAL (apply_bcs p gfs) (IDX4S p g j0 j1 j2) = F j0 j1 j2 := by
  unfold apply_bcs
  rw [show forLoop 0 NUM_EVOL_GFS 1 (fun which_gf gfs =>
      (forLoop 0 NGHOSTS 1 (fun _which_gz s => apply_bcs_shell p which_gf s)
        ({ imin0 := NGHOSTS, imin1 := NGHOSTS, imin2 := NGHOSTS
           imax0 := p.Nxx_plus_2NGHOSTS0 - NGHOSTS
           imax1 := p.Nxx_plus_2NGHOSTS1 - NGHOSTS
           imax2 := p.Nxx_plus_2NGHOSTS2 - NGHOSTS
           gfs := gfs } : apply_bcs_state K n)).gfs) gfs
    = (forLoop 0 NGHOSTS 1 (fun _which_gz s => apply_bcs_shell p 1 s)
        ({ imin0 := NGHOSTS, imin1 := NGHOSTS, imin2 := NGHOSTS
           imax0 := p.Nxx_plus_2NGHOSTS0 - NGHOSTS
           imax1 := p.Nxx_plus_2NGHOSTS1 - NGHOSTS
           imax2 := p.Nxx_plus_2NGHOSTS2 - NGHOSTS
           gfs := (forLoop 0 NGHOSTS 1 (fun _which_gz s => apply_bcs_shell p 0 s)
            ({ imin0 := NGHOSTS, imin1 := NGHOSTS, imin2 := NGHOSTS
               imax0 := p.Nxx_plus_2NGHOSTS0 - NGHOSTS
               imax1 := p.Nxx_plus_2NGHOSTS1 - NGHOSTS
               imax2 := p.Nxx_plus_2NGHOSTS2 - NGHOSTS
               gfs := gfs } : apply_bcs_state K n)).gfs } : apply_bcs_state K n)).gfs
    from forLoop_two _ _]
  obtain ⟨V0, R0⟩ := apply_bcs_field p hn hp hN 0 (by decide) gfs
  obtain ⟨V1, R1⟩ := apply_bcs_field p hn hp hN 1 (by decide)
    (forLoop 0 NGHOSTS 1 (fun _which_gz s => apply_bcs_shell p 0 s)
      ({ imin0 := NGHOSTS, imin1 := NGHOSTS, imin2 := NGHOSTS
         imax0 := p.Nxx_plus_2NGHOSTS0 - NGHOSTS
         imax1 := p.Nxx_plus_2NGHOSTS1 - NGHOSTS
         imax2 := p.Nxx_plus_2NGHOSTS2 - NGHOSTS
         gfs := gfs } : apply_bcs_state K n)).gfs
  rcases hg with hg | hg
  · subst hg
    rw [R1 UUGF j0 j1 j2 (by decide) (by decide) hj]
    exact V0 R F hF hold j0 j1 j2 hj hR
  · subst hg
    refine V1 R F hF (fun i0 i1 i2 hi hRi => ?_) j0 j1 j2 hj hR
    have hgrid : inGrid p i0 i1 i2 := by
      obtain ⟨hA, hB, hC⟩ := hp
      have hG : NGHOSTS = 2 := rfl
      unfold inInterior inBox at hi
      unfold inGrid inBox
      omega
    exact (R0 VVGF i0 i1 i2 (by decide) (by decide) hgrid).trans (hold i0 i1 i2 hi hRi)

/-- A profile that along axis `d` is, on every line, a quadratic in the index (the
coefficients depending on the line) is reproduced by degree-2 extrapolation on the lines
that cross the interior: the faces that end such a line are normal to `d`. -/
theorem quadratic_reproducedOn_lines {K : Type} [Field K] (p : paramstruct K) (d : Fin 3)
    (a b c : Int × Int → K) :
    reproducedOn p (onInteriorLine p d) (fun i0 i1 i2 =>
      quadratic (a (otherIndices d i0 i1 i2)) (b (otherIndices d i0 i1 i2))
        (c (otherIndices d i0 i1 i2)) (axisIndex d i0 i1 i2)) := by
  intro j0 j1 j2 d0 d1 d2 hd hR hside
  unfold isFaceDirection MINFACE MAXFACE NUL at hd
  unfold onGhostSide MINFACE MAXFACE at hside
  fin_cases d
  all_goals
    simp only [axisIndex, otherIndices, onInteriorLine, quadratic, Fin.zero_eta, Fin.mk_one,
      Fin.reduceFinMk, Matrix.cons_val_zero, Matrix.cons_val_one, Matrix.head_cons,
      Matrix.cons_val_two, Matrix.tail_cons] at hR ⊢
    rcases hd with ⟨h0 | h0, h1, h2⟩ | ⟨h0, h1 | h1, h2⟩ | ⟨h0, h1, h2 | h2⟩ <;>
      subst h0 h1 h2 <;>
      first
      | (exfalso; omega)
      | (simp only [mul_zero, add_zero]
         exact ⟨by push_cast; ring, hR, hR, hR⟩)

/-- A profile that is one quadratic in the index along axis `d`, the same on every line, is
reproduced by degree-2 extrapolation everywhere. -/
theorem quadratic_reproducedOn_all {K : Type} [Field K] (p : paramstruct K) (d : Fin 3)
    (a b c : Int × Int → K) (hconst : ∀ u v, a u = a v ∧ b u = b v ∧ c u = c v) :
    reproducedOn p (fun _ _ _ => True) (fun i0 i1 i2 =>
      quadratic (a (otherIndices d i0 i1 i2)) (b (otherIndices d i0 i1 i2))
        (c (otherIndices d i0 i1 i2)) (axisIndex d i0 i1 i2)) := by
  intro j0 j1 j2 d0 d1 d2 hd _ _
  refine ⟨?_, trivial, trivial, trivial⟩
  have e : ∀ u, a u = a (0, 0) ∧ b u = b (0, 0) ∧ c u = c (0, 0) := fun u => hconst u (0, 0)
  simp only [(e _).1, (e _).2.1, (e _).2.2]
  unfold isFaceDirection MINFACE MAXFACE NUL at hd
  fin_cases d
  all_goals
    simp only [axisIndex, quadratic, Fin.zero_eta, Fin.mk_one, Fin.reduceFinMk,
      Matrix.cons_val_zero, Matrix.cons_val_one, Matrix.head_cons, Matrix.cons_val_two,
      Matrix.tail_cons]
    rcases hd with ⟨h0 | h0, h1, h2⟩ | ⟨h0, h1 | h1, h2⟩ | ⟨h0, h1, h2 | h2⟩ <;>
      subst h0 h1 h2 <;> push_cast <;> ring

/-- The buffer of zeros loads zero at every offset. -/
theorem loadREAL_zero {K : Type} [Zero K] {n : Nat} (j : Int) :
    loadREAL (fun _ : Fin n => (0 : K)) j = 0 := by
  unfold loadREAL
  split <;> rfl

/-- A face update leaves the buffer of zeros as it is. -/
theorem FACE_UPDATE_zero {K : Type} [Field K] {n : Nat} (p : paramstruct K)
    (g l0 m0 l1 m1 l2 m2 FX0 FX1 FX2 : Int) :
    FACE_UPDATE p g l0 m0 l1 m1 l2 m2 FX0 FX1 FX2 (fun _ : Fin n => (0 : K)) = fun _ => 0 := by
  unfold FACE_UPDATE
  refine forLoop_preserves (fun s : Fin n → K => s = fun _ => 0) _ _ _ (fun i2 s hs => ?_) _ _ _
    le_rfl rfl
  refine forLoop_preserves (fun s : Fin n → K => s = fun _ => 0) _ _ _ (fun i1 s hs => ?_) _ _ _
    le_rfl hs
  refine forLoop_preserves (fun s : Fin n → K => s = fun _ => 0) _ _ _ (fun i0 s hs => ?_) _ _ _
    le_rfl hs
  subst hs
  funext f
  unfold storeREAL
  rw [loadREAL_zero, loadREAL_zero, loadREAL_zero]
  split
  · ring
  · rfl

/-- The boundary routine leaves the buffer of zeros as it is. -/
theorem apply_bcs_zero {K : Type} [Field K] {n : Nat} (p : paramstruct K) :
    apply_bcs p (fun _ : Fin n => (0 : K)) = fun _ => 0 := by
  unfold apply_bcs
  refine forLoop_preserves (fun s : Fin n → K => s = fun _ => 0) _ _ _ (fun g s hs => ?_) _ _ _
    le_rfl rfl
  refine forLoop_preserves (fun s : apply_bcs_state K n => s.gfs = fun _ => 0) _ _ _
    (fun _ s hs => ?_) _ _ _ le_rfl hs
  unfold apply_bcs_shell
  simp only [hs, FACE_UPDATE_zero]

/-- A buffer filled with a function of the grid index loads, at the offset of the grid
point `(j0,j1,j2)` of either field, that function of `(j0,j1,j2)`. -/
theorem loadREAL_profile {K : Type} [Field K] {n : Nat} (p : paramstruct K)
    (hn : (n : Int) = NUM_EVOL_GFS * Nxx_plus_2NGHOSTS_tot p) (F : Int → Int → Int → K)
    (g j0 j1 j2 : Int) (hg : 0 ≤ g ∧ g < NUM_EVOL_GFS) (hj : inGrid p j0 j1 j2) :
    loadREAL (fun f : Fin n => F ((f.val : Int) % p.Nxx_plus_2NGHOSTS0)
        ((f.val : Int) / p.Nxx_plus_2NGHOSTS0 % p.Nxx_plus_2NGHOSTS1)
        ((f.val : Int) / p.Nxx_plus_2NGHOSTS0 / p.Nxx_plus_2NGHOSTS1 % p.Nxx_plus_2NGHOSTS2))
      (IDX4S p g j0 j1 j2) = F j0 j1 j2 := by
  have hb := IDX4S_bounds p g j0 j1 j2 hg hj.1 hj.2.1 hj.2.2
  rw [← hn] at hb
  obtain ⟨f, hf, hload⟩ := loadREAL_in_range (K := K) (IDX4S p g j0 j1 j2) hb
  rw [hload]
  obtain ⟨e0, e1, e2, _⟩ := IDX4S_decode p g j0 j1 j2 hj.1 hj.2.1 hj.2.2
  show F ((f.val : Int) % p.Nxx_plus_2NGHOSTS0)
    ((f.val : Int) / p.Nxx_plus_2NGHOSTS0 % p.Nxx_plus_2NGHOSTS1)
    ((f.val : Int) / p.Nxx_plus_2NGHOSTS0 / p.Nxx_plus_2NGHOSTS1 % p.Nxx_plus_2NGHOSTS2)
      = F j0 j1 j2
  rw [hf, e0, e1, e2]

/-- Interior points are grid points. -/
theorem inInterior_inGrid {K : Type} (p : paramstruct K) (hp : gridConsistent p)
    (j0 j1 j2 : Int) (h : inInterior p j0 j1 j2) : inGrid p j0 j1 j2 := by
  obtain ⟨hA, hB, hC⟩ := hp
  have hG : NGHOSTS = 2 := rfl
  unfold inInterior inBox at h
  unfold inGrid inBox
  omega

/-- C15 as stated fails on the grid with `N = 2` interior points per axis, which the driver
accepts: the zero buffer holds the quadratic `q(i) = i^2 - 5*i + 6 = (i-2)*(i-3)` at every
interior point (`i0 = 2, 3`), yet after `apply_bcs` the ghost point `(1,2,2)` of `UUGF`, on
the lower face normal to axis 0, holds 0 and not `q(1) = 2`; two interior points do not
determine a quadratic. -/
theorem C15_counterexample :
    (∀ i0 i1 i2 : Int, inInterior (free_parameters (K := ℚ) 2) i0 i1 i2 →
      loadREAL (fun _ : Fin 432 => (0 : ℚ)) (IDX4S (free_parameters (K := ℚ) 2) UUGF i0 i1 i2)
        = quadratic 1 (-5) 6 (axisIndex 0 i0 i1 i2)) ∧
    inGrid (free_parameters (K := ℚ) 2) 1 2 2 ∧
    ¬ inInterior (free_parameters (K := ℚ) 2) 1 2 2 ∧
    loadREAL (apply_bcs (free_parameters (K := ℚ) 2) (fun _ : Fin 432 => (0 : ℚ)))
        (IDX4S (free_parameters (K := ℚ) 2) UUGF 1 2 2)
      ≠ quadratic 1 (-5) 6 (axisIndex 0 1 2 2) := by
  refine ⟨?_, by decide, by decide, ?_⟩
  · intro i0 i1 i2 hi
    rw [loadREAL_zero]
    have h0 : i0 = 2 ∨ i0 = 3 := by
      have := hi.1
      simp only [free_parameters, NGHOSTS] at this
      omega
    rcases h0 with h0 | h0 <;> subst h0 <;> norm_num [quadratic, axisIndex]
  · rw [apply_bcs_zero, loadREAL_zero]
    norm_num [quadratic, axisIndex]

/-- C15, amended: on a grid with at least three interior points along each axis (`N ≥ 3`),
if the interior values of a field are, on every line along axis `d`, `q(i)` for a
polynomial `q(i) = a*i^2 + b*i + c` of degree at most 2 in the index `i` along `d` (the
coefficients may depend on the line), then after `apply_bcs` every point of the two faces
normal to `d` (the ghost points, of both ghost layers, of the lines that cross the interior)
holds `q(i)` at its own index; and if `q` is the same on all lines, every point of the grid
does, edges and corners included. This for either evolved field and each of the three
axes. -/
theorem C15_apply_bcs_quadratic {K : Type} [Field K] {n : Nat} (p : paramstruct K)
    (hn : (n : Int) = NUM_EVOL_GFS * Nxx_plus_2NGHOSTS_tot p) (hp : gridConsistent p)
    (hN : 3 ≤ p.Nxx0 ∧ 3 ≤ p.Nxx1 ∧ 3 ≤ p.Nxx2)
    (g : Int) (hg : g = UUGF ∨ g = VVGF) (d : Fin 3) (a b c : Int × Int → K)
    (gfs : Fin n → K)
    (hq : ∀ i0 i1 i2, inInterior p i0 i1 i2 →
      loadREAL gfs (IDX4S p g i0 i1 i2)
        = quadratic (a (otherIndices d i0 i1 i2)) (b (otherIndices d i0 i1 i2))
            (c (otherIndices d i0 i1 i2)) (axisIndex d i0 i1 i2)) :
    (∀ i0 i1 i2, inGrid p i0 i1 i2 → onInteriorLine p d i0 i1 i2 →
      loadREAL (apply_bcs p gfs) (IDX4S p g i0 i1 i2)
        = quadratic (a (otherIndices d i0 i1 i2)) (b (otherIndices d i0 i1 i2))
            (c (otherIndices d i0 i1 i2)) (axisIndex d i0 i1 i2)) ∧
    ((∀ u v, a u = a v ∧ b u = b v ∧ c u = c v) →
      ∀ i0 i1 i2, inGrid p i0 i1 i2 →
        loadREAL (apply_bcs p gfs) (IDX4S p g i0 i1 i2)
          = quadratic (a (otherIndices d i0 i1 i2)) (b (otherIndices d i0 i1 i2))
              (c (otherIndices d i0 i1 i2)) (axisIndex d i0 i1 i2)) := by
  constructor
  · intro i0 i1 i2 hi hline
    exact apply_bcs_reproduces p hn hp hN g hg gfs (onInteriorLine p d) _
      (quadratic_reproducedOn_lines p d a b c) (fun j0 j1 j2 hj _ => hq j0 j1 j2 hj)
      i0 i1 i2 hi hline
  · intro hconst i0 i1 i2 hi
    exact apply_bcs_reproduces p hn hp hN g hg gfs (fun _ _ _ => True) _
      (quadratic_reproducedOn_all p d a b c hconst) (fun j0 j1 j2 hj _ => hq j0 j1 j2 hj)
      i0 i1 i2 hi trivial

/-- C15 (amended) at `N = 3`, axis 0, with a different quadratic on every line: the buffer
holding `q(i0) = i1*i0^2 + i2*i0 + 3` at every point still holds it at the outermost ghost
point `(0,3,4)` of `VVGF` after `apply_bcs`, which recomputes that point from the interior. -/
theorem C15_apply_bcs_quadratic_witness :
    loadREAL (apply_bcs (free_parameters (K := ℚ) 3)
        (fun f : Fin 686 =>
          (fun i0 i1 i2 : Int => quadratic ((i1 : ℚ)) ((i2 : ℚ)) 3 i0)
            ((f.val : Int) % (free_parameters (K := ℚ) 3).Nxx_plus_2NGHOSTS0)
            ((f.val : Int) / (free_parameters (K := ℚ) 3).Nxx_plus_2NGHOSTS0
              % (free_parameters (K := ℚ) 3).Nxx_plus_2NGHOSTS1)
            ((f.val : Int) / (free_parameters (K := ℚ) 3).Nxx_plus_2NGHOSTS0
              / (free_parameters (K := ℚ) 3).Nxx_plus_2NGHOSTS1
              % (free_parameters (K := ℚ) 3).Nxx_plus_2NGHOSTS2)))
        (IDX4S (free_parameters (K := ℚ) 3) VVGF 0 3 4)
      = quadratic ((fun u : Int × Int => ((u.1 : Int) : ℚ)) (otherIndices 0 0 3 4))
          ((fun u : Int × Int => ((u.2 : Int) : ℚ)) (otherIndices 0 0 3 4))
          ((fun _ : Int × Int => (3 : ℚ)) (otherIndices 0 0 3 4)) (axisIndex 0 0 3 4) :=
  (C15_apply_bcs_quadratic (free_parameters (K := ℚ) 3) (by decide) ⟨rfl, rfl, rfl⟩
    (by decide) VVGF (Or.inr rfl) 0 (fun u => ((u.1 : Int) : ℚ)) (fun u => ((u.2 : Int) : ℚ))
    (fun _ => 3) _
    (fun i0 i1 i2 hi => loadREAL_profile (free_parameters (K := ℚ) 3) (by decide)
      (fun i0 i1 i2 : Int => quadratic ((i1 : ℚ)) ((i2 : ℚ)) 3 i0) VVGF i0 i1 i2 (by decide)
      (inInterior_inGrid _ ⟨rfl, rfl, rfl⟩ i0 i1 i2 hi))).1 0 3 4 (by decide)
    ⟨⟨by decide, by decide⟩, ⟨by decide, by decide⟩⟩

/-! ## C21: bounds on the exact solution -/

/-- Bounds on the exact solution over the reals, whatever the arguments. -/
theorem exact_solution_single_point_bounds (p : paramstruct ℝ) (x y z : ℝ) :
    1 ≤ (exact_solution_single_point ⟨Real.sin, Real.cos, Real.sqrt⟩ x y z p).1 ∧
    (exact_solution_single_point ⟨Real.sin, Real.cos, Real.sqrt⟩ x y z p).1 ≤ 3 ∧
    |(exact_solution_single_point ⟨Real.sin, Real.cos, Real.sqrt⟩ x y z p).2|
      ≤ |p.wavespeed| := by
  rw [exact_solution_single_point_real]
  dsimp only
  refine ⟨?_, ?_, ?_⟩
  · have := Real.sin_le_one (p.time * p.wavespeed - (p.kk0 * x + p.kk1 * y + p.kk2 * z)
      / Real.sqrt (p.kk0 * p.kk0 + p.kk1 * p.kk1 + p.kk2 * p.kk2))
    linarith
  · have := Real.neg_one_le_sin (p.time * p.wavespeed - (p.kk0 * x + p.kk1 * y + p.kk2 * z)
      / Real.sqrt (p.kk0 * p.kk0 + p.kk1 * p.kk1 + p.kk2 * p.kk2))
    linarith
  · rw [abs_mul, abs_neg]
    exact mul_le_of_le_one_right (abs_nonneg _) (Real.abs_cos_le_one _)

/-- C21: for every nonzero wavevector and all real `x`, `y`, `z`, time and wavespeed,
`exact_solution_single_point` returns `1 ≤ uu_exact ≤ 3` and `|vv_exact| ≤ |wavespeed|`;
so `uu_exact` is not 0, and in the 0D diagnostic of the driver the divisor `uu_exact` of
`relative_error = |(uu_exact - numerical)/uu_exact|` is not 0 (it is at least 1), whatever
the coordinate arrays and `y_n_gfs` hold: the quotient is a genuine one,
`relative_error * uu_exact = |uu_exact - numerical|`. -/
theorem C21_exact_solution_bounds (p : paramstruct ℝ)
    (_hk : ¬ (p.kk0 = 0 ∧ p.kk1 = 0 ∧ p.kk2 = 0)) (x y z : ℝ) {n : Nat}
    (xx : xxArrays ℝ p) (y_n_gfs : Fin n → ℝ) :
    (1 ≤ (exact_solution_single_point ⟨Real.sin, Real.cos, Real.sqrt⟩ x y z p).1 ∧
      (exact_solution_single_point ⟨Real.sin, Real.cos, Real.sqrt⟩ x y z p).1 ≤ 3 ∧
      |(exact_solution_single_point ⟨Real.sin, Real.cos, Real.sqrt⟩ x y z p).2|
        ≤ |p.wavespeed|) ∧
    (exact_solution_single_point ⟨Real.sin, Real.cos, Real.sqrt⟩ x y z p).1 ≠ 0 ∧
    (main_output_0D ⟨Real.sin, Real.cos, Real.sqrt⟩ p xx y_n_gfs).uu_exact ≠ 0 ∧
    (main_output_0D ⟨Real.sin, Real.cos, Real.sqrt⟩ p xx y_n_gfs).relative_error
        * (main_output_0D ⟨Real.sin, Real.cos, Real.sqrt⟩ p xx y_n_gfs).uu_exact
      = |(main_output_0D ⟨Real.sin, Real.cos, Real.sqrt⟩ p xx y_n_gfs).uu_exact
          - (main_output_0D ⟨Real.sin, Real.cos, Real.sqrt⟩ p xx y_n_gfs).numerical| := by
  have hb := exact_solution_single_point_bounds p x y z
  have hd := (exact_solution_single_point_bounds p
    (loadREAL xx.xx0 (p.Nxx_plus_2NGHOSTS0 / 2)) (loadREAL xx.xx1 (p.Nxx_plus_2NGHOSTS1 / 2))
    (loadREAL xx.xx2 (p.Nxx_plus_2NGHOSTS2 / 2))).1
  refine ⟨hb, ?_, ?_, ?_⟩
  · have := hb.1
    intro h0
    rw [h0] at this
    norm_num at this
  · show (exact_solution_single_point ⟨Real.sin, Real.cos, Real.sqrt⟩
      (loadREAL xx.xx0 (p.Nxx_plus_2NGHOSTS0 / 2)) (loadREAL xx.xx1 (p.Nxx_plus_2NGHOSTS1 / 2))
      (loadREAL xx.xx2 (p.Nxx_plus_2NGHOSTS2 / 2)) p).1 ≠ 0
    intro h0
    rw [h0] at hd
    norm_num at hd
  · show |((exact_solution_single_point ⟨Real.sin, Real.cos, Real.sqrt⟩
      (loadREAL xx.xx0 (p.Nxx_plus_2NGHOSTS0 / 2)) (loadREAL xx.xx1 (p.Nxx_plus_2NGHOSTS1 / 2))
      (loadREAL xx.xx2 (p.Nxx_plus_2NGHOSTS2 / 2)) p).1
        - loadREAL y_n_gfs (IDX4S p UUGF (p.Nxx_plus_2NGHOSTS0 / 2) (p.Nxx_plus_2NGHOSTS1 / 2)
          (p.Nxx_plus_2NGHOSTS2 / 2)))
      / (exact_solution_single_point ⟨Real.sin, Real.cos, Real.sqrt⟩
      (loadREAL xx.xx0 (p.Nxx_plus_2NGHOSTS0 / 2)) (loadREAL xx.xx1 (p.Nxx_plus_2NGHOSTS1 / 2))
      (loadREAL xx.xx2 (p.Nxx_plus_2NGHOSTS2 / 2)) p).1|
      * (exact_solution_single_point ⟨Real.sin, Real.cos, Real.sqrt⟩
      (loadREAL xx.xx0 (p.Nxx_plus_2NGHOSTS0 / 2)) (loadREAL xx.xx1 (p.Nxx_plus_2NGHOSTS1 / 2))
      (loadREAL xx.xx2 (p.Nxx_plus_2NGHOSTS2 / 2)) p).1 = _
    have hpos : 0 < (exact_solution_single_point ⟨Real.sin, Real.cos, Real.sqrt⟩
      (loadREAL xx.xx0 (p.Nxx_plus_2NGHOSTS0 / 2)) (loadREAL xx.xx1 (p.Nxx_plus_2NGHOSTS1 / 2))
      (loadREAL xx.xx2 (p.Nxx_plus_2NGHOSTS2 / 2)) p).1 := by linarith
    rw [abs_div, abs_of_pos hpos, div_mul_cancel₀ _ hpos.ne']
    rfl

/-- C21 for the driver's parameters at the origin: `1 ≤ uu_exact`. -/
theorem C21_exact_solution_bounds_witness :
    1 ≤ (exact_solution_single_point ⟨Real.sin, Real.cos, Real.sqrt⟩ 0 0 0
      (free_parameters (K := ℝ) 64)).1 :=
  (C21_exact_solution_bounds (free_parameters (K := ℝ) 64) (fun h => one_ne_zero h.1) 0 0 0
    (n := 0) ⟨fun _ => 0, fun _ => 0, fun _ => 0⟩ (fun _ => 0)).1.1

/-! ## C6 and C18: the index macro in `int` arithmetic -/

/-- An exact result within the range of `int` is the result of the `int` operation. -/
theorem int_wrap_of_range (x : Int) (h0 : -INT_MAX - 1 ≤ x) (h1 : x ≤ INT_MAX) :
    int_wrap x = x := by
  unfold int_wrap
  unfold INT_MAX at h0 h1
  omega

/-- The result of an `int` operation is an `int`. -/
theorem int_wrap_range (x : Int) : -INT_MAX - 1 ≤ int_wrap x ∧ int_wrap x ≤ INT_MAX := by
  unfold int_wrap INT_MAX
  omega

/-- At an in-range index tuple whose exact offset fits an `int`, the `int` evaluation of
`IDX4S` gives the exact offset: no intermediate result overflows. -/
theorem IDX4S_int_eq {K : Type} (p : paramstruct K) (g i j k : Int)
    (hg : 0 ≤ g) (hi : 0 ≤ i ∧ i < p.Nxx_plus_2NGHOSTS0)
    (hj : 0 ≤ j ∧ j < p.Nxx_plus_2NGHOSTS1) (hk : 0 ≤ k ∧ k < p.Nxx_plus_2NGHOSTS2)
    (hmax : IDX4S p g i j k ≤ INT_MAX) :
    IDX4S_int p g i j k = IDX4S p g i j k := by
  obtain ⟨⟨a1, b1⟩, ⟨a2, b2⟩, ⟨a3, b3⟩, ⟨a4, b4⟩, ⟨a5, b5⟩⟩ :=
    IDX4S_intermediate_bounds p g i j k hg hi hj hk
  have hM : (0 : Int) ≤ INT_MAX := by decide
  have h6 : 0 ≤ IDX4S p g i j k := by
    have h := hi.1
    have e : IDX4S p g i j k = i + p.Nxx_plus_2NGHOSTS0 *
        (j + p.Nxx_plus_2NGHOSTS1 * (k + p.Nxx_plus_2NGHOSTS2 * g)) := rfl
    omega
  unfold IDX4S_int
  rw [int_wrap_of_range (p.Nxx_plus_2NGHOSTS2 * g) (by omega) (by omega),
    int_wrap_of_range (k + p.Nxx_plus_2NGHOSTS2 * g) (by omega) (by omega),
    int_wrap_of_range (p.Nxx_plus_2NGHOSTS1 * (k + p.Nxx_plus_2NGHOSTS2 * g)) (by omega)
      (by omega),
    int_wrap_of_range (j + p.Nxx_plus_2NGHOSTS1 * (k + p.Nxx_plus_2NGHOSTS2 * g)) (by omega)
      (by omega),
    int_wrap_of_range (p.Nxx_plus_2NGHOSTS0 *
      (j + p.Nxx_plus_2NGHOSTS1 * (k + p.Nxx_plus_2NGHOSTS2 * g))) (by omega) (by omega)]
  exact int_wrap_of_range _ (by omega) hmax

/-- When the length `Nxx_plus_2NGHOSTS_tot*NUM_EVOL_GFS` of a buffer fits an `int`, the
`int` computations of `Nxx_plus_2NGHOSTS_tot` and of the loop bound of `LOOP_ALL_GFS_GPS`
give the exact values. -/
theorem LOOP_ALL_GFS_GPS_bound_int_eq {K : Type} (p : paramstruct K)
    (hA : 0 < p.Nxx_plus_2NGHOSTS0) (hB : 0 < p.Nxx_plus_2NGHOSTS1)
    (hC : 0 < p.Nxx_plus_2NGHOSTS2)
    (hsize : Nxx_plus_2NGHOSTS_tot p * NUM_EVOL_GFS ≤ INT_MAX) :
    Nxx_plus_2NGHOSTS_tot_int p = Nxx_plus_2NGHOSTS_tot p ∧
    LOOP_ALL_GFS_GPS_bound_int p = Nxx_plus_2NGHOSTS_tot p * NUM_EVOL_GFS := by
  unfold LOOP_ALL_GFS_GPS_bound_int Nxx_plus_2NGHOSTS_tot_int
  unfold Nxx_plus_2NGHOSTS_tot at hsize ⊢
  have hM : (0 : Int) ≤ INT_MAX := by decide
  have hG : NUM_EVOL_GFS = 2 := rfl
  set A := p.Nxx_plus_2NGHOSTS0
  set B := p.Nxx_plus_2NGHOSTS1
  set C := p.Nxx_plus_2NGHOSTS2
  have hAB : 0 < A * B := mul_pos hA hB
  have hABC : 0 < A * B * C := mul_pos hAB hC
  have h1 : A * B * 1 ≤ A * B * C := mul_le_mul_of_nonneg_left (by omega) (by omega)
  have h2 : A * B * C * NUM_EVOL_GFS = A * B * C * 2 := rfl
  have e1 : int_wrap (A * B) = A * B := int_wrap_of_range _ (by omega) (by omega)
  rw [e1]
  have e2 : int_wrap (A * B * C) = A * B * C := int_wrap_of_range _ (by omega) (by omega)
  rw [e2]
  exact ⟨rfl, int_wrap_of_range _ (by omega) (by omega)⟩

/-- The exact `IDX4S` is a bijection from the index tuples onto the offsets of a buffer. -/
theorem IDX4S_bijOn {K : Type} (p : paramstruct K)
    (hA : 0 < p.Nxx_plus_2NGHOSTS0) (hB : 0 < p.Nxx_plus_2NGHOSTS1)
    (hC : 0 < p.Nxx_plus_2NGHOSTS2) :
    Set.BijOn (fun t : Int × Int × Int × Int => IDX4S p t.1 t.2.1 t.2.2.1 t.2.2.2)
      (indexBox p) (Set.Ico 0 (Nxx_plus_2NGHOSTS_tot p * NUM_EVOL_GFS)) := by
  refine ⟨?_, ?_, ?_⟩
  · rintro ⟨g, i, j, k⟩ ⟨hg, hi, hj, hk⟩
    have hb := IDX4S_bounds p g i j k hg hi hj hk
    rw [mul_comm] at hb
    exact hb
  · rintro ⟨g, i, j, k⟩ ⟨_, hi, hj, hk⟩ ⟨g', i', j', k'⟩ ⟨_, hi', hj', hk'⟩ h
    obtain ⟨e0, e1, e2, e3⟩ := IDX4S_inj p g i j k g' i' j' k' ⟨hi, hj, hk⟩ ⟨hi', hj', hk'⟩ h
    simp only [Prod.mk.injEq]
    exact ⟨e0, e1, e2, e3⟩
  · intro f hf
    obtain ⟨hbox, henc⟩ := IDX4S_encode p hA hB hC f hf
    exact ⟨_, hbox, henc⟩

/-- On the index tuples of a buffer whose length fits an `int`, the `int` evaluation of
`IDX4S` gives the exact offset. -/
theorem IDX4S_int_eq_on_indexBox {K : Type} (p : paramstruct K)
    (hsize : Nxx_plus_2NGHOSTS_tot p * NUM_EVOL_GFS ≤ INT_MAX)
    (t : Int × Int × Int × Int) (ht : t ∈ indexBox p) :
    IDX4S_int p t.1 t.2.1 t.2.2.1 t.2.2.2 = IDX4S p t.1 t.2.1 t.2.2.1 t.2.2.2 := by
  obtain ⟨hg, hi, hj, hk⟩ := ht
  have hb := IDX4S_bounds p _ _ _ _ hg hi hj hk
  rw [mul_comm] at hb
  exact IDX4S_int_eq p _ _ _ _ hg.1 hi hj hk (by omega)

/-- C18 (as first stated) fails for the `int` arithmetic of the macro: on the grid of
`N = 1021` (extents 1025, accepted by the driver) the index tuple `(1, 2, 2, 1022)` lies in
the box, its exact offset `2150631427` exceeds `INT_MAX`, and `IDX4S` evaluates to the
negative offset `-2144335869`, so `IDX4S` does not map the box into the flat range. On the
grid of `N = 1020` (extents 1024) the bound `Nxx_plus_2NGHOSTS_tot*NUM_EVOL_GFS` of
`LOOP_ALL_GFS_GPS` is `2^31` and evaluates to `-2147483648`: the loop traverses no offset
at all. -/
theorem C18_counterexample :
    ((0 < (free_parameters (K := ℚ) 1021).Nxx_plus_2NGHOSTS0 ∧
      0 < (free_parameters (K := ℚ) 1021).Nxx_plus_2NGHOSTS1 ∧
      0 < (free_parameters (K := ℚ) 1021).Nxx_plus_2NGHOSTS2) ∧
    ((1, 2, 2, 1022) : Int × Int × Int × Int) ∈ indexBox (free_parameters (K := ℚ) 1021) ∧
    IDX4S_int (free_parameters (K := ℚ) 1021) 1 2 2 1022 = -2144335869 ∧
    ¬ Set.BijOn
      (fun t : Int × Int × Int × Int =>
        IDX4S_int (free_parameters (K := ℚ) 1021) t.1 t.2.1 t.2.2.1 t.2.2.2)
      (indexBox (free_parameters (K := ℚ) 1021))
      (Set.Ico 0 (NUM_EVOL_GFS * Nxx_plus_2NGHOSTS_tot (free_parameters (K := ℚ) 1021)))) ∧
    (LOOP_ALL_GFS_GPS_bound_int (free_parameters (K := ℚ) 1020) = -2147483648 ∧
    ¬ Set.BijOn
      (fun t : Int × Int × Int × Int =>
        IDX4S_int (free_parameters (K := ℚ) 1020) t.1 t.2.1 t.2.2.1 t.2.2.2)
      (indexBox (free_parameters (K := ℚ) 1020))
      (Set.Ico 0 (LOOP_ALL_GFS_GPS_bound_int (free_parameters (K := ℚ) 1020)))) := by
  have hbox : ((1, 2, 2, 1022) : Int × Int × Int × Int) ∈
      indexBox (free_parameters (K := ℚ) 1021) :=
    ⟨by decide, by decide, by decide, by decide⟩
  have hval : IDX4S_int (free_parameters (K := ℚ) 1021) 1 2 2 1022 = -2144335869 := by decide
  have hbound : LOOP_ALL_GFS_GPS_bound_int (free_parameters (K := ℚ) 1020) = -2147483648 := by
    decide
  have hbox0 : ((0, 0, 0, 0) : Int × Int × Int × Int) ∈
      indexBox (free_parameters (K := ℚ) 1020) :=
    ⟨by decide, by decide, by decide, by decide⟩
  refine ⟨⟨⟨by decide, by decide, by decide⟩, hbox, hval, ?_⟩, hbound, ?_⟩
  · intro h
    have hm := h.1 hbox
    have h0 : (0 : Int) ≤ IDX4S_int (free_parameters (K := ℚ) 1021) 1 2 2 1022 := hm.1
    rw [hval] at h0
    exact absurd h0 (by decide)
  · intro h
    have hm := h.1 hbox0
    have h0 : (0 : Int) < LOOP_ALL_GFS_GPS_bound_int (free_parameters (K := ℚ) 1020) :=
      lt_of_le_of_lt hm.1 hm.2
    rw [hbound] at h0
    exact absurd h0 (by decide)

/-- C18: for positive extents whose buffer length `NUM_EVOL_GFS * Nxx_plus_2NGHOSTS_tot`
fits an `int`, `IDX4S` in `int` arithmetic is a bijection from the index tuples
`0 ≤ g < NUM_EVOL_GFS`, `0 ≤ i,j,k < Nxx_plus_2NGHOSTS0,1,2` onto the offsets
`[0, Nxx_plus_2NGHOSTS_tot*NUM_EVOL_GFS)` that `LOOP_ALL_GFS_GPS` traverses, the loop bound
being the one the program computes in `int`; in particular the offsets `rhs_eval` writes
for distinct interior points or fields are distinct. -/
theorem C18_IDX4S_bijection {K : Type} (p : paramstruct K)
    (hA : 0 < p.Nxx_plus_2NGHOSTS0) (hB : 0 < p.Nxx_plus_2NGHOSTS1)
    (hC : 0 < p.Nxx_plus_2NGHOSTS2)
    (hsize : NUM_EVOL_GFS * Nxx_plus_2NGHOSTS_tot p ≤ INT_MAX) :
    Set.BijOn (fun t : Int × Int × Int × Int => IDX4S_int p t.1 t.2.1 t.2.2.1 t.2.2.2)
      (indexBox p) (Set.Ico 0 (LOOP_ALL_GFS_GPS_bound_int p)) ∧
    LOOP_ALL_GFS_GPS_bound_int p = NUM_EVOL_GFS * Nxx_plus_2NGHOSTS_tot p ∧
    (gridConsistent p → ∀ g i0 i1 i2 g' j0 j1 j2 : Int,
      (g = UUGF ∨ g = VVGF) → (g' = UUGF ∨ g' = VVGF) →
      (NGHOSTS ≤ i0 ∧ i0 < NGHOSTS + p.Nxx0) → (NGHOSTS ≤ i1 ∧ i1 < NGHOSTS + p.Nxx1) →
      (NGHOSTS ≤ i2 ∧ i2 < NGHOSTS + p.Nxx2) →
      (NGHOSTS ≤ j0 ∧ j0 < NGHOSTS + p.Nxx0) → (NGHOSTS ≤ j1 ∧ j1 < NGHOSTS + p.Nxx1) →
      (NGHOSTS ≤ j2 ∧ j2 < NGHOSTS + p.Nxx2) →
      IDX4S_int p g i0 i1 i2 = IDX4S_int p g' j0 j1 j2 →
        g = g' ∧ i0 = j0 ∧ i1 = j1 ∧ i2 = j2) := by
  have hsize' : Nxx_plus_2NGHOSTS_tot p * NUM_EVOL_GFS ≤ INT_MAX := by
    rw [mul_comm]
    exact hsize
  have hbound := (LOOP_ALL_GFS_GPS_bound_int_eq p hA hB hC hsize').2
  have hbij := IDX4S_bijOn p hA hB hC
  refine ⟨?_, hbound.trans (mul_comm _ _), ?_⟩
  · rw [hbound]
    exact hbij.congr (fun t ht => (IDX4S_int_eq_on_indexBox p hsize' t ht).symm)
  · intro hp g i0 i1 i2 g' j0 j1 j2 hg hg' h0 h1 h2 h0' h1' h2' h
    obtain ⟨eA, eB, eC⟩ := hp
    have hG : NGHOSTS = 2 := rfl
    have hU : UUGF = 0 := rfl
    have hV : VVGF = 1 := rfl
    have hN : NUM_EVOL_GFS = 2 := rfl
    have t1 : (g, i0, i1, i2) ∈ indexBox p :=
      ⟨by show 0 ≤ g ∧ g < NUM_EVOL_GFS; omega, by show 0 ≤ i0 ∧ i0 < _; omega,
        by show 0 ≤ i1 ∧ i1 < _; omega, by show 0 ≤ i2 ∧ i2 < _; omega⟩
    have t2 : (g', j0, j1, j2) ∈ indexBox p :=
      ⟨by show 0 ≤ g' ∧ g' < NUM_EVOL_GFS; omega, by show 0 ≤ j0 ∧ j0 < _; omega,
        by show 0 ≤ j1 ∧ j1 < _; omega, by show 0 ≤ j2 ∧ j2 < _; omega⟩
    have e1 := IDX4S_int_eq_on_indexBox p hsize' _ t1
    have e2 := IDX4S_int_eq_on_indexBox p hsize' _ t2
    dsimp only at e1 e2
    rw [e1, e2] at h
    exact IDX4S_inj p g i0 i1 i2 g' j0 j1 j2 ⟨t1.2.1, t1.2.2.1, t1.2.2.2⟩
      ⟨t2.2.1, t2.2.2.1, t2.2.2.2⟩ h

/-- C18 on the `N = 2` grid: `IDX4S` in `int` arithmetic is a bijection from the index
tuples of the two `6 x 6 x 6` fields onto the offsets below the `int` loop bound, `432`. -/
theorem C18_IDX4S_bijection_witness :
    NUM_EVOL_GFS * Nxx_plus_2NGHOSTS_tot (free_parameters (K := ℚ) 2) ≤ INT_MAX ∧
    Set.BijOn
      (fun t : Int × Int × Int × Int =>
        IDX4S_int (free_parameters (K := ℚ) 2) t.1 t.2.1 t.2.2.1 t.2.2.2)
      (indexBox (free_parameters (K := ℚ) 2))
      (Set.Ico 0 (LOOP_ALL_GFS_GPS_bound_int (free_parameters (K := ℚ) 2))) ∧
    LOOP_ALL_GFS_GPS_bound_int (free_parameters (K := ℚ) 2) = 432 :=
  ⟨by decide,
    (C18_IDX4S_bijection (free_parameters (K := ℚ) 2) (by decide) (by decide) (by decide)
      (by decide)).1, by decide⟩

/-- C6 (as first stated) fails for the `int` arithmetic of the macro: on the grid of
`N = 1021`, accepted by the driver, `rhs_eval` uses `IDX4S(VVGF,2,2,1022)` (the store of
the `vv` right-hand side at the interior point `(2,2,1022)`); the exact offset `2150631427`
exceeds `INT_MAX` and the `int` evaluation gives the negative offset `-2144335869`, outside
the buffer. -/
theorem C6_counterexample :
    (1 : Int) ≤ 1021 ∧
    (VVGF, 2, 2, 1022) ∈ rhs_eval_accesses (free_parameters (K := ℚ) 1021) ∧
    IDX4S (free_parameters (K := ℚ) 1021) VVGF 2 2 1022 = 2150631427 ∧
    IDX4S_int (free_parameters (K := ℚ) 1021) VVGF 2 2 1022 = -2144335869 ∧
    ¬ (0 ≤ IDX4S_int (free_parameters (K := ℚ) 1021) VVGF 2 2 1022 ∧
      IDX4S_int (free_parameters (K := ℚ) 1021) VVGF 2 2 1022 <
        NUM_EVOL_GFS * (1021 + 2 * NGHOSTS) ^ 3) := by
  refine ⟨by decide, ?_, by decide, by decide, by decide⟩
  exact (mem_rhs_eval_accesses (free_parameters (K := ℚ) 1021) (by decide) (by decide)
    (by decide) (VVGF, 2, 2, 1022)).2
    ⟨1022, by decide, by decide, 2, by decide, by decide, 2, by decide, by decide, by
      simp [rhs_eval_body_accesses]⟩

/-- C6: with ghost width `NGHOSTS = 2` and batch width 1, for every `1 ≤ N ≤ 1020` every
grid index `rhs_eval` passes to `IDX4S` (reads and writes) lies in `[0, N+2*NGHOSTS)` on
each axis, and the flat offset, as `IDX4S` computes it in `int` arithmetic, is the exact
offset and lies in `[0, NUM_EVOL_GFS * (N+2*NGHOSTS)^3)`: no access falls outside the
allocated buffers. -/
theorem C6_rhs_eval_accesses_in_bounds {K : Type} (N : Int) (hN : 1 ≤ N) (hmax : N ≤ 1020)
    (p : paramstruct K) (hNxx : p.Nxx0 = N ∧ p.Nxx1 = N ∧ p.Nxx2 = N) (hp : gridConsistent p)
    (g i j k : Int) (ha : (g, i, j, k) ∈ rhs_eval_accesses p) :
    (0 ≤ i ∧ i < N + 2 * NGHOSTS) ∧ (0 ≤ j ∧ j < N + 2 * NGHOSTS) ∧
    (0 ≤ k ∧ k < N + 2 * NGHOSTS) ∧
    IDX4S_int p g i j k = IDX4S p g i j k ∧
    (0 ≤ IDX4S_int p g i j k ∧ IDX4S_int p g i j k < NUM_EVOL_GFS * (N + 2 * NGHOSTS) ^ 3) := by
  obtain ⟨hN0, hN1, hN2⟩ := hNxx
  obtain ⟨hA, hB, hC⟩ := hp
  have hG : NGHOSTS = 2 := rfl
  rw [mem_rhs_eval_accesses p (by omega) (by omega) (by omega)] at ha
  obtain ⟨i2, a2, b2, i1, a1, b1, i0, a0, b0, hmem⟩ := ha
  have hg : 0 ≤ g ∧ g < NUM_EVOL_GFS ∧ (0 ≤ i ∧ i < N + 2 * NGHOSTS) ∧
      (0 ≤ j ∧ j < N + 2 * NGHOSTS) ∧ (0 ≤ k ∧ k < N + 2 * NGHOSTS) := by
    simp only [rhs_eval_body_accesses, List.mem_cons, Prod.mk.injEq, List.mem_singleton,
      List.not_mem_nil, or_false, UUGF, VVGF] at hmem
    simp only [NUM_EVOL_GFS]
    omega
  obtain ⟨g0, g1, hi, hj, hk⟩ := hg
  have hi' : 0 ≤ i ∧ i < p.Nxx_plus_2NGHOSTS0 := ⟨hi.1, by omega⟩
  have hj' : 0 ≤ j ∧ j < p.Nxx_plus_2NGHOSTS1 := ⟨hj.1, by omega⟩
  have hk' : 0 ≤ k ∧ k < p.Nxx_plus_2NGHOSTS2 := ⟨hk.1, by omega⟩
  have hb := IDX4S_bounds p g i j k ⟨g0, g1⟩ hi' hj' hk'
  have e : Nxx_plus_2NGHOSTS_tot p = (N + 2 * NGHOSTS) ^ 3 := by
    unfold Nxx_plus_2NGHOSTS_tot
    rw [hA, hB, hC, hN0, hN1, hN2]
    ring
  rw [e] at hb
  have hpow : (N + 2 * NGHOSTS) ^ 3 ≤ (1024 : Int) ^ 3 :=
    pow_le_pow_left₀ (by omega) (by omega) 3
  have hfit : IDX4S p g i j k ≤ INT_MAX := by
    have h2 : NUM_EVOL_GFS * (N + 2 * NGHOSTS) ^ 3 = 2 * (N + 2 * NGHOSTS) ^ 3 := rfl
    have h3 : (1024 : Int) ^ 3 = 1073741824 := by norm_num
    have h4 : INT_MAX = 2147483647 := rfl
    omega
  have heq := IDX4S_int_eq p g i j k g0 hi' hj' hk' hfit
  refine ⟨hi, hj, hk, heq, ?_⟩
  rw [heq]
  exact hb

/-- C6 at `N = 2`: the read of `uu_i0_i1_i2m2` at the interior point `(2,2,2)`, i.e. the
access `IDX4S(UUGF,2,2,0)`. -/
theorem C6_rhs_eval_accesses_in_bounds_witness :
    (0 ≤ (2 : Int) ∧ (2 : Int) < 2 + 2 * NGHOSTS) ∧ (0 ≤ (2 : Int) ∧ (2 : Int) < 2 + 2 * NGHOSTS) ∧
    (0 ≤ (0 : Int) ∧ (0 : Int) < 2 + 2 * NGHOSTS) ∧
    IDX4S_int (free_parameters (K := ℚ) 2) UUGF 2 2 0 =
      IDX4S (free_parameters (K := ℚ) 2) UUGF 2 2 0 ∧
    (0 ≤ IDX4S_int (free_parameters (K := ℚ) 2) UUGF 2 2 0 ∧
      IDX4S_int (free_parameters (K := ℚ) 2) UUGF 2 2 0 < NUM_EVOL_GFS * (2 + 2 * NGHOSTS) ^ 3) :=
  C6_rhs_eval_accesses_in_bounds 2 (by decide) (by decide) (free_parameters (K := ℚ) 2)
    ⟨rfl, rfl, rfl⟩ ⟨rfl, rfl, rfl⟩ UUGF 2 2 0
    ((mem_rhs_eval_accesses (free_parameters (K := ℚ) 2) (by decide) (by decide) (by decide)
      (UUGF, 2, 2, 0)).2
      ⟨2, by decide, by decide, 2, by decide, by decide, 2, by decide, by decide, by
        simp [rhs_eval_body_accesses]⟩)

/-! ## C7: what `rhs_eval` overwrites, for every batch width -/

/-- C7 (amended): for every batch width `W > 0`, `rhs_eval` overwrites every interior entry
of both fields with a value that depends on `in_gfs` and the parameters alone (no
accumulation): two calls with the same input and different prior output contents agree on
all interior entries. When the batch width divides the interior extent along `i0` (in
particular on the scalar path `W = 1`) it leaves every other (ghost) entry of `rhs_gfs` as
it was, so each call keeps its own ghost entries. -/
theorem C7_rhs_eval_overwrites_interior {K : Type} [Field K] {n : Nat} (W : Nat) (hW : 0 < W)
    (p : paramstruct K) (hp : gridConsistent p) (in_gfs rhs_gfs rhs_gfs' : Fin n → K)
    (f : Fin n) :
    (interiorOffset p f →
      rhs_eval W p in_gfs rhs_gfs f = rhs_eval W p in_gfs rhs_gfs' f) ∧
    ((W : Int) ∣ p.Nxx0 → ¬ interiorOffset p f →
      rhs_eval W p in_gfs rhs_gfs f = rhs_gfs f ∧
      rhs_eval W p in_gfs rhs_gfs' f = rhs_gfs' f) := by
  constructor
  · intro h
    exact rhs_eval_interior_indep W hW p in_gfs in_gfs rhs_gfs rhs_gfs' rfl f h
  · intro hdiv h
    rw [rhs_eval_apply W hW p hp hdiv, rhs_eval_apply W hW p hp hdiv, if_neg h, if_neg h]
    exact ⟨rfl, rfl⟩

/-- C7 (amended) at `N = 2` with batches of two points, prior contents `0` and `1`,
entry 0. -/
theorem C7_rhs_eval_overwrites_interior_witness :
    (interiorOffset (free_parameters (K := ℚ) 2) (⟨0, by decide⟩ : Fin 432) →
      rhs_eval 2 (free_parameters (K := ℚ) 2) (fun _ => 0) (fun _ => 0) (⟨0, by decide⟩ : Fin 432)
        = rhs_eval 2 (free_parameters (K := ℚ) 2) (fun _ => 0) (fun _ => 1)
          (⟨0, by decide⟩ : Fin 432)) ∧
    (((2 : Nat) : Int) ∣ (free_parameters (K := ℚ) 2).Nxx0 →
      ¬ interiorOffset (free_parameters (K := ℚ) 2) (⟨0, by decide⟩ : Fin 432) →
      rhs_eval 2 (free_parameters (K := ℚ) 2) (fun _ => 0) (fun _ => 0) (⟨0, by decide⟩ : Fin 432)
        = 0 ∧
      rhs_eval 2 (free_parameters (K := ℚ) 2) (fun _ => 0) (fun _ => 1) (⟨0, by decide⟩ : Fin 432)
        = 1) :=
  C7_rhs_eval_overwrites_interior 2 (by decide) (free_parameters (K := ℚ) 2) ⟨rfl, rfl, rfl⟩
    (fun _ => 0) (fun _ => 0) (fun _ => 1) ⟨0, by decide⟩

/-! ## C11: the parameter check of the thorn -/

/-- Rounding to nearest sends `0 ≤ q ≤ 1/2` to 0. -/
theorem round_half_even_small (q : ℚ) (h0 : 0 ≤ q) (h1 : q ≤ 1 / 2) : round_half_even q = 0 := by
  have hf : ⌊q⌋ = 0 := Int.floor_eq_iff.2 ⟨by simpa using h0, by norm_num; linarith⟩
  unfold round_half_even
  simp only [hf, Int.cast_zero, sub_zero]
  by_cases h : q < 1 / 2
  · rw [if_pos h]
  · rw [if_neg h, if_neg (not_lt.2 h1)]
    rfl

/-- Rounding to nearest sends `q > 1/2` to an integer `≥ 1`. -/
theorem round_half_even_large (q : ℚ) (h : 1 / 2 < q) : 1 ≤ round_half_even q := by
  have hf0 : 0 ≤ ⌊q⌋ := Int.floor_nonneg.2 (by linarith)
  unfold round_half_even
  dsimp only
  by_cases h1 : q - ⌊q⌋ < 1 / 2
  · rw [if_pos h1]
    by_contra hlt
    have hz : ⌊q⌋ = 0 := by omega
    rw [hz] at h1
    simp only [Int.cast_zero, sub_zero] at h1
    linarith
  · rw [if_neg h1]
    by_cases h2 : 1 / 2 < q - ⌊q⌋
    · rw [if_pos h2]
      omega
    · rw [if_neg h2]
      have hr : q - ⌊q⌋ = 1 / 2 := le_antisymm (not_lt.1 h2) (not_lt.1 h1)
      have hfpos : (0 : ℚ) < (⌊q⌋ : ℚ) := by linarith
      have hf1 : 1 ≤ ⌊q⌋ := by exact_mod_cast hfpos
      split_ifs <;> omega

/-- The spacing of the doubles is positive and at least that of the subnormals. -/
theorem double_ulp_ge (x : ℚ) : (2 : ℚ) ^ (-1074 : Int) ≤ double_ulp x := by
  unfold double_ulp
  exact zpow_le_zpow_right₀ (by norm_num) (by have := le_max_right (Int.log 2 |x|) (-1022); omega)

/-- The spacing of the doubles around a positive `x` is at most `x`, or that of the
subnormals. -/
theorem double_ulp_le (x : ℚ) (hx : 0 < x) :
    double_ulp x ≤ x ∨ double_ulp x = 2 ^ (-1074 : Int) := by
  unfold double_ulp
  rw [abs_of_pos hx]
  by_cases h : Int.log 2 x ≤ -1022
  · right
    rw [max_eq_right h]
    rfl
  · left
    rw [max_eq_left (by omega)]
    have h1 : (2 : ℚ) ^ (Int.log 2 x - 52) ≤ 2 ^ Int.log 2 x :=
      zpow_le_zpow_right₀ (by norm_num) (by omega)
    have h2 : ((2 : Nat) : ℚ) ^ Int.log 2 x ≤ x := Int.zpow_log_le_self (by norm_num) hx
    exact h1.trans (by exact_mod_cast h2)

/-- A result of at most half the least subnormal `2^-1074` underflows to 0. -/
theorem round_double_underflow (x : ℚ) (h0 : 0 ≤ x) (h1 : x ≤ 2 ^ (-1075 : Int)) :
    round_double x = 0 := by
  unfold round_double
  rcases h0.eq_or_lt with h | h
  · rw [← h, zero_div, round_half_even_small 0 le_rfl (by norm_num)]
    simp
  · have hlog : Int.log 2 x ≤ -1075 := by
      have := Int.log_mono_right (b := 2) h h1
      have e : Int.log 2 ((2 : ℚ) ^ (-1075 : Int)) = -1075 := by
        have := Int.log_zpow (R := ℚ) (b := 2) (by norm_num) (-1075)
        exact_mod_cast this
      omega
    have hu : double_ulp x = 2 ^ (-1074 : Int) := by
      unfold double_ulp
      rw [abs_of_pos h, max_eq_right (by omega)]
      rfl
    rw [hu]
    have hq : x / 2 ^ (-1074 : Int) ≤ 1 / 2 := by
      rw [div_le_iff₀ (by positivity)]
      have e : (1 / 2 : ℚ) * 2 ^ (-1074 : Int) = 2 ^ (-1075 : Int) := by
        rw [show (-1074 : Int) = -1075 + 1 from rfl, zpow_add₀ (by norm_num)]
        norm_num
      rw [e]
      exact h1
    rw [round_half_even_small _ (by positivity) hq]
    simp

/-- Zero is a double. -/
theorem round_double_zero : round_double 0 = 0 :=
  round_double_underflow 0 le_rfl (by positivity)

/-- A result above half the least subnormal rounds to a double `≥ 2^-1074`. -/
theorem round_double_pos (x : ℚ) (h : 2 ^ (-1075 : Int) < x) :
    (2 : ℚ) ^ (-1074 : Int) ≤ round_double x := by
  have hx : 0 < x := lt_trans (by positivity) h
  have hu0 : 0 < double_ulp x := lt_of_lt_of_le (by positivity) (double_ulp_ge x)
  have hq : 1 / 2 < x / double_ulp x := by
    rw [lt_div_iff₀ hu0]
    rcases double_ulp_le x hx with hle | heq
    · linarith
    · rw [heq]
      have e : (1 / 2 : ℚ) * 2 ^ (-1074 : Int) = 2 ^ (-1075 : Int) := by
        rw [show (-1074 : Int) = -1075 + 1 from rfl, zpow_add₀ (by norm_num)]
        norm_num
      rw [e]
      exact h
  have hn := round_half_even_large _ hq
  unfold round_double
  have hn' : (1 : ℚ) ≤ (round_half_even (x / double_ulp x) : ℚ) := by exact_mod_cast hn
  calc (2 : ℚ) ^ (-1074 : Int) ≤ double_ulp x := double_ulp_ge x
    _ = 1 * double_ulp x := (one_mul _).symm
    _ ≤ round_half_even (x / double_ulp x) * double_ulp x :=
        mul_le_mul_of_nonneg_right hn' hu0.le

/-- The double evaluation of the sum of squares is positive exactly when one of the squares
exceeds half the least subnormal. -/
theorem PWID_sqrt_arg_double_pos_iff (kk0 kk1 kk2 : ℚ) :
    0 < PWID_sqrt_arg_double kk0 kk1 kk2 ↔
      (2 ^ (-1075 : Int) < kk0 * kk0 ∨ 2 ^ (-1075 : Int) < kk1 * kk1 ∨
        2 ^ (-1075 : Int) < kk2 * kk2) := by
  have hpos : (0 : ℚ) < 2 ^ (-1074 : Int) := by positivity
  have hlt : (2 : ℚ) ^ (-1075 : Int) < 2 ^ (-1074 : Int) :=
    zpow_lt_zpow_right₀ (by norm_num) (by norm_num)
  have nn : ∀ k : ℚ, 0 ≤ round_double (k * k) := by
    intro k
    by_cases h : 2 ^ (-1075 : Int) < k * k
    · exact hpos.le.trans (round_double_pos _ h)
    · rw [round_double_underflow _ (mul_self_nonneg k) (not_lt.1 h)]
  unfold PWID_sqrt_arg_double
  constructor
  · intro h
    by_contra hc
    push_neg at hc
    obtain ⟨c0, c1, c2⟩ := hc
    rw [round_double_underflow _ (mul_self_nonneg kk0) c0,
      round_double_underflow _ (mul_self_nonneg kk1) c1,
      round_double_underflow _ (mul_self_nonneg kk2) c2] at h
    simp only [add_zero, round_double_zero] at h
    exact lt_irrefl _ h
  · intro h
    have n0 := nn kk0
    have n1 := nn kk1
    have n2 := nn kk2
    have key : (2 : ℚ) ^ (-1074 : Int) ≤
        round_double (round_double (round_double (kk0 * kk0) + round_double (kk1 * kk1))
          + round_double (kk2 * kk2)) := by
      rcases h with h | h | h
      · have a := round_double_pos _ h
        have b := round_double_pos (round_double (kk0 * kk0) + round_double (kk1 * kk1))
          (by linarith)
        exact round_double_pos _ (by linarith)
      · have a := round_double_pos _ h
        have b := round_double_pos (round_double (kk0 * kk0) + round_double (kk1 * kk1))
          (by linarith)
        exact round_double_pos _ (by linarith)
      · have a := round_double_pos _ h
        have b : 0 ≤ round_double (round_double (kk0 * kk0) + round_double (kk1 * kk1)) := by
          by_cases hs : 2 ^ (-1075 : Int) < round_double (kk0 * kk0) + round_double (kk1 * kk1)
          · exact hpos.le.trans (round_double_pos _ hs)
          · rw [round_double_underflow _ (by linarith) (not_lt.1 hs)]
        exact round_double_pos _ (by linarith)
    exact lt_of_lt_of_le hpos key

/-- A power of two in the normal range is a double. -/
theorem round_double_zpow (e : Int) (he : -1022 ≤ e) :
    round_double ((2 : ℚ) ^ e) = 2 ^ e := by
  have hlog : Int.log 2 ((2 : ℚ) ^ e) = e := by
    have := Int.log_zpow (R := ℚ) (b := 2) (by norm_num) e
    exact_mod_cast this
  have hu : double_ulp ((2 : ℚ) ^ e) = 2 ^ (e - 52) := by
    unfold double_ulp
    rw [abs_of_pos (by positivity), hlog, max_eq_left he]
  unfold round_double
  rw [hu]
  have hq : (2 : ℚ) ^ e / 2 ^ (e - 52) = ((2 ^ 52 : Int) : ℚ) := by
    rw [← zpow_sub₀ (by norm_num)]
    have : e - (e - 52) = (52 : Nat) := by omega
    rw [this, zpow_natCast]
    norm_num
  rw [hq]
  have hr : round_half_even (((2 ^ 52 : Int) : ℚ)) = 2 ^ 52 := by
    unfold round_half_even
    simp only [Int.floor_intCast, sub_self]
    rw [if_pos (by norm_num)]
  rw [hr]
  rw [show (((2 ^ 52 : Int)) : ℚ) = (2 : ℚ) ^ (52 : Int) by norm_num, ← zpow_add₀ (by norm_num)]
  congr 1
  omega

/-- C11 (as first stated) fails in the `double` arithmetic of the thorn: the wavevector
`(0, 2^-600, 0)` consists of doubles and is accepted by `IDScalarWaveNRPy_param_check`, but
the square `2^-1200` underflows and the sum of squares the initial data take the square
root of is `0`, not positive. -/
theorem C11_counterexample :
    round_double ((2 : ℚ) ^ (-600 : Int)) = 2 ^ (-600 : Int) ∧
    IDScalarWaveNRPy_param_check (0 : ℚ) (2 ^ (-600 : Int)) 0 = Except.ok () ∧
    PWID_sqrt_arg_double 0 (2 ^ (-600 : Int)) 0 = 0 ∧
    ¬ 0 < PWID_sqrt_arg_double 0 (2 ^ (-600 : Int)) 0 := by
  have hne : (2 : ℚ) ^ (-600 : Int) ≠ 0 := by positivity
  have hsq : (2 : ℚ) ^ (-600 : Int) * 2 ^ (-600 : Int) ≤ 2 ^ (-1075 : Int) := by
    rw [← zpow_add₀ (by norm_num)]
    exact zpow_le_zpow_right₀ (by norm_num) (by norm_num)
  have hz : PWID_sqrt_arg_double 0 (2 ^ (-600 : Int)) 0 = 0 := by
    unfold PWID_sqrt_arg_double
    rw [round_double_underflow _ (mul_self_nonneg _) hsq]
    simp only [mul_zero, zero_add, add_zero, round_double_zero]
  refine ⟨round_double_zpow _ (by norm_num), ?_, hz, ?_⟩
  · unfold IDScalarWaveNRPy_param_check
    rw [if_neg (fun h => hne h.2.1)]
  · rw [hz]
    exact lt_irrefl _

/-- C11: over the rationals (every `double` is one) `IDScalarWaveNRPy_param_check` raises
its fatal error if and only if `kk0 = kk1 = kk2 = 0`; for every wavevector it accepts,
`kk0^2 + kk1^2 + kk2^2 > 0` in exact arithmetic, so the exact norm is not zero; and for
components of magnitude at most `2^511` (no `double` operation overflows) the `double`
value of that sum, as the initial data compute it, is positive exactly when one of the
squares exceeds `2^-1075`, half the least subnormal. -/
theorem C11_param_check (kk0 kk1 kk2 : ℚ) :
    (IDScalarWaveNRPy_param_check kk0 kk1 kk2 = Except.error zero_wavevector_message
      ↔ (kk0 = 0 ∧ kk1 = 0 ∧ kk2 = 0)) ∧
    (IDScalarWaveNRPy_param_check kk0 kk1 kk2 = Except.ok ()
      → 0 < kk0 ^ 2 + kk1 ^ 2 + kk2 ^ 2) ∧
    (|kk0| ≤ 2 ^ 511 ∧ |kk1| ≤ 2 ^ 511 ∧ |kk2| ≤ 2 ^ 511 →
      (0 < PWID_sqrt_arg_double kk0 kk1 kk2 ↔
        (2 ^ (-1075 : Int) < kk0 ^ 2 ∨ 2 ^ (-1075 : Int) < kk1 ^ 2 ∨
          2 ^ (-1075 : Int) < kk2 ^ 2))) := by
  refine ⟨(IDScalarWaveNRPy_param_check_exact kk0 kk1 kk2).1,
    (IDScalarWaveNRPy_param_check_exact kk0 kk1 kk2).2, fun _ => ?_⟩
  rw [PWID_sqrt_arg_double_pos_iff, sq, sq, sq]

/-- C11 at the driver's wavevector `(1,1,1)`: it is accepted, the exact sum of squares is
positive and so is its `double` value. -/
theorem C11_param_check_witness :
    (0 : ℚ) < 1 ^ 2 + 1 ^ 2 + 1 ^ 2 ∧ 0 < PWID_sqrt_arg_double 1 1 1 :=
  ⟨(C11_param_check 1 1 1).2.1
      (by unfold IDScalarWaveNRPy_param_check; rw [if_neg (by norm_num)]),
    ((C11_param_check 1 1 1).2.2 (by norm_num)).2
      (Or.inl (lt_of_lt_of_le (zpow_lt_one_of_neg₀ (by norm_num) (by norm_num))
        (by norm_num)))⟩

/-! ## C12: the usage exit of `main` -/

end ScalarWave
